import Mathlib

/-!
Verification of the provisioning and migration engine of the
`wordpress-quick-instance` setup script (`src/index.js`), against its
natural-language specification.

Texts (configuration files, shell command lines, SQL statements) are
modelled as `List Char`.  Subprocess execution and database answers are
modelled by explicit oracles passed to each translated function.  JavaScript
`\s` and `String.prototype.trim` are modelled on the ASCII whitespace
characters, and `String.prototype.replace` with a string replacement is
modelled as literal insertion (no `$&`-style escapes occur in the
relevant inputs).
-/

namespace WPQI

/-- Configuration text and command lines are modelled as lists of characters. -/
abbrev Chars := List Char

/-- Coerce a Lean string literal to its character list. -/
def lit (s : String) : Chars := s.toList

/-- The single-quote character (ASCII 39), written via its code point. -/
def sq : Char := Char.ofNat 39

/-- The double-quote character (ASCII 34), written via its code point. -/
def dq : Char := Char.ofNat 34

/-- Backslash character (ASCII 92). -/
def bsl : Char := Char.ofNat 92

/-- Prefix test on character lists (propositional equality on `Char`). -/
def pfx : Chars → Chars → Bool
  | [], _ => true
  | _ :: _, [] => false
  | a :: as, b :: bs => a = b && pfx as bs

/-- Substring test, mirroring JavaScript `String.prototype.includes`. -/
def containsSub (pat : Chars) : Chars → Bool
  | [] => pfx pat []
  | c :: cs => pfx pat (c :: cs) || containsSub pat cs

/-- ASCII whitespace, modelling the JavaScript `\s` class / `trim` set. -/
def isWsChar (c : Char) : Bool :=
  c = ' ' || c = '\t' || c = '\n' || c = '\r' || c = Char.ofNat 11 || c = Char.ofNat 12

/-- JavaScript `String.prototype.trim` (both ends). -/
def jsTrim (s : Chars) : Chars :=
  ((s.dropWhile isWsChar).reverse.dropWhile isWsChar).reverse

/-- Split a captured subprocess output on newline characters, mirroring
JavaScript `String.prototype.split` with separator `"\n"`. -/
def splitLines : Chars → List Chars
  | [] => [[]]
  | c :: cs =>
    if c = '\n' then [] :: splitLines cs
    else
      match splitLines cs with
      | [] => [[c]]
      | l :: ls => (c :: l) :: ls

/-- Decimal digits consumed by `parseInt`. -/
def isDigitChar (c : Char) : Bool := '0' ≤ c && c ≤ '9'

/-- Numeric value of a run of decimal digits. -/
def digitsVal : Chars → Nat → Nat
  | [], acc => acc
  | c :: cs, acc => digitsVal cs (acc * 10 + (c.toNat - '0'.toNat))

/-- JavaScript `parseInt` on an already-trimmed decimal string: optional
sign, then leading digits; no leading digit yields `NaN`, modelled as
`none` (hexadecimal prefixes never occur in the outputs parsed here). -/
def parseIntJS (s : Chars) : Option Int :=
  let core : Chars → Option Nat := fun t =>
    let ds := t.takeWhile isDigitChar
    if ds.isEmpty then none else some (digitsVal ds 0)
  match s with
  | '-' :: rest => (core rest).map (fun n => -(n : Int))
  | '+' :: rest => (core rest).map (fun n => (n : Int))
  | _ => (core s).map (fun n => (n : Int))

/-! ## Database lifecycle manager: `waitForMysql` (src/index.js lines 668-685) -/

/-- Result of the readiness-polling loop: number of probe attempts made,
accumulated `setTimeout` delay in milliseconds, and whether the loop ended
with a successful probe (`ready = false` models the thrown timeout error). -/
structure WaitOutcome where
  attempts : Nat
  delayMs : Nat
  ready : Bool
  deriving DecidableEq, Repr

/-- The body of `waitForMysql`'s `for` loop: `n` iterations remain, `i`
attempts were already made, `delay` milliseconds of sleep accumulated.
Each failed probe is followed by a fixed 2000 ms wait; the first success
returns immediately. -/
def waitLoop (probe : Nat → Bool) : Nat → Nat → Nat → WaitOutcome
  | 0, i, delay => ⟨i, delay, false⟩
  | n + 1, i, delay =>
    if probe i then ⟨i + 1, delay, true⟩
    else waitLoop probe n (i + 1) (delay + 2000)

/-- `waitForMysql(maxAttempts = 30)`: poll the `SELECT 1` probe, starting
from zero attempts and zero accumulated delay. -/
def waitForMysql (probe : Nat → Bool) (maxAttempts : Nat) : WaitOutcome :=
  waitLoop probe maxAttempts 0 0

/-! ## Configuration patcher: `generateSalts` fallback (src/index.js lines 815-840) -/

/-- The local fallback alphabet for secret generation. -/
def saltAlphabet : Chars :=
  lit ("abcdefghijklmnopqrstuvwxyzABCDEFGHIJKLMNOPQRSTUVWXYZ0123456789!@#$%^&*()")

/-- One `generateKey()` call: 64 characters, each selected by a call to the
random source `g` (already reduced modulo the alphabet size, mirroring
`Math.floor(Math.random() * chars.length)`).  The offset `off` records how
many random draws previous calls consumed. -/
def generateKey (g : Nat → Nat) (off : Nat) : Chars :=
  (List.range 64).map (fun i => saltAlphabet.getD (g (off + i) % saltAlphabet.length) 'a')

/-- One line of the fallback salt block:
`define( 'NAME',<pad>'<value>' );`. -/
def saltLine (name : Chars) (pad : Nat) (v : Chars) : Chars :=
  lit ("define( ") ++ [sq] ++ name ++ [sq] ++ lit (",") ++ List.replicate pad ' '
    ++ [sq] ++ v ++ [sq] ++ lit (" );")

/-- The eight salt names, in the order the fallback template produces them,
with the column padding each line carries. -/
def saltNames : List (Chars × Nat) :=
  [ (lit ("AUTH_KEY"), 9), (lit ("SECURE_AUTH_KEY"), 2), (lit ("LOGGED_IN_KEY"), 4),
    (lit ("NONCE_KEY"), 8), (lit ("AUTH_SALT"), 8), (lit ("SECURE_AUTH_SALT"), 1),
    (lit ("LOGGED_IN_SALT"), 3), (lit ("NONCE_SALT"), 7) ]

/-- The complete fallback salt block, as the template literal at
src/index.js lines 830-838 produces it: a leading newline, then the eight
assignments separated by newlines.  The `i`-th `generateKey()` call
consumes random draws `64*i .. 64*i+63`. -/
def fallbackSalts (g : Nat → Nat) : Chars :=
  ((List.range 8).map (fun i =>
     lit ("\n") ++ saltLine (saltNames.getD i ([], 0)).1 (saltNames.getD i ([], 0)).2
       (generateKey g (64 * i)))).flatten

/-- `generateSalts`: the remote secret-generation response when the HTTP
call succeeds, otherwise the local fallback. -/
def generateSalts (remote : Option Chars) (g : Nat → Nat) : Chars :=
  match remote with
  | some r => r
  | none => fallbackSalts g

/-! ## Admin identity reconciler: `checkAdminUserExists` (src/index.js lines 1041-1069) -/

/-- Outcome of one `execSync` invocation: the subprocess either threw, or
returned captured output. -/
inductive ExecOutcome where
  | err : ExecOutcome
  | ok (out : Chars) : ExecOutcome
  deriving DecidableEq

/-- The line filter of `checkAdminUserExists`: keep lines that are nonempty
after trimming and do not contain the header word `count`. -/
def countLines (out : Chars) : List Chars :=
  (splitLines out).filter (fun l => !(jsTrim l).isEmpty && !containsSub (lit ("count")) l)

/-- `checkAdminUserExists`, as a function of the outcome of the `SELECT
COUNT(*)` subprocess: a thrown subprocess error returns `false`; an empty
filtered line list returns `false`; `parseInt` returning `NaN` makes
`count > 0` evaluate to `false`. -/
def checkAdminUserExists (o : ExecOutcome) : Bool :=
  match o with
  | .err => false
  | .ok out =>
    match countLines out with
    | [] => false
    | l :: _ =>
      match parseIntJS (jsTrim l) with
      | none => false
      | some n => decide (0 < n)

/-! ## Shared database/command context

Fields mirror `this.config.database`, `this.dbName` and the scoped
credential `this.dbUser` / `this.dbPassword` that `createDatabase` stores
when dedicated-user mode is enabled.  JavaScript `this.dbUser ||
this.config.database.user` is modelled as `Option.getD` (the scoped field
is `none` until dedicated-user provisioning sets it). -/

structure DbCtx where
  host : Chars
  port : Chars
  rootUser : Chars
  rootPassword : Chars
  dockerEnabled : Bool
  containerName : Chars
  dbName : Chars
  dbUserOpt : Option Chars
  dbPasswordOpt : Option Chars
  deriving DecidableEq

/-- Backtick character (ASCII 96). -/
def btick : Char := Char.ofNat 96

/-- The `passwordParam` computation repeated at each call site:
`dbPassword === '' ? '' : -p${dbPassword}`. -/
def passwordParam (pw : Chars) : Chars :=
  if pw.isEmpty then [] else lit ("-p") ++ pw

/-- A `mysql ... -e "<stmt>"` command line against the provisioned
database, in the Docker and plain variants used throughout the script
(src/index.js lines 998-1001, 1048-1051, 1083-1086, 1113-1126). -/
def mysqlExecCmd (ctx : DbCtx) (user pw stmt : Chars) : Chars :=
  if ctx.dockerEnabled then
    lit ("docker exec ") ++ ctx.containerName ++ lit (" mysql -hlocalhost -u") ++ user
      ++ lit (" ") ++ passwordParam pw ++ lit (" -P3306 ") ++ ctx.dbName
      ++ lit (" -e ") ++ [dq] ++ stmt ++ [dq]
  else
    lit ("mysql -h") ++ ctx.host ++ lit (" -u") ++ user ++ lit (" ") ++ passwordParam pw
      ++ lit (" -P") ++ ctx.port ++ lit (" ") ++ ctx.dbName
      ++ lit (" -e ") ++ [dq] ++ stmt ++ [dq]

/-! ## Content migration engine: search-replace (src/index.js lines 909-1039) -/

/-- One recorded `execSync` invocation and whether it succeeded. -/
structure Attempt where
  cmd : Chars
  ok : Bool
  deriving DecidableEq

/-- Success oracle for subprocess execution. -/
abbrev Orc := Chars → Bool

/-- Captured stdout of a successful subprocess. -/
abbrev OutF := Chars → Chars

/-- The shell-escaped backtick-quoted table name `\`table\`` as it appears
inside the double-quoted `-e` argument (the template literal writes
`\\\`` around the name). -/
def qtbl (t : Chars) : Chars := [bsl, btick] ++ t ++ [bsl, btick]

/-- The raw-fallback statement against the canonical default column:
`UPDATE \`t\` SET option_value = REPLACE(option_value, 's', 'r') WHERE
option_value LIKE '%s%'`. -/
def updateOptionValueStmt (table search repl : Chars) : Chars :=
  lit ("UPDATE ") ++ qtbl table ++ lit (" SET option_value = REPLACE(option_value, ")
    ++ [sq] ++ search ++ [sq] ++ lit (", ") ++ [sq] ++ repl ++ [sq]
    ++ lit (") WHERE option_value LIKE ") ++ [sq] ++ lit ("%") ++ search ++ lit ("%") ++ [sq]

/-- The per-column fallback statement, with the candidate column
backtick-quoted. -/
def updateColumnStmt (table col search repl : Chars) : Chars :=
  lit ("UPDATE ") ++ qtbl table ++ lit (" SET ") ++ qtbl col ++ lit (" = REPLACE(")
    ++ qtbl col ++ lit (", ") ++ [sq] ++ search ++ [sq] ++ lit (", ")
    ++ [sq] ++ repl ++ [sq] ++ lit (") WHERE ") ++ qtbl col ++ lit (" LIKE ")
    ++ [sq] ++ lit ("%") ++ search ++ lit ("%") ++ [sq]

/-- The fixed candidate list of commonly-named text columns. -/
def commonColumns : List Chars :=
  [lit ("post_content"), lit ("post_excerpt"), lit ("post_title"),
   lit ("comment_content"), lit ("meta_value")]

/-- Credential selection of `performDirectSearchReplace` (src/index.js
lines 992-993): the scoped username when present, but always the root
configuration password — `this.dbPassword` is not consulted. -/
def directUser (ctx : DbCtx) : Chars := ctx.dbUserOpt.getD ctx.rootUser

/-- See `directUser`: line 993 reads `this.config.database.password`. -/
def directPassword (ctx : DbCtx) : Chars := ctx.rootPassword

/-- Parsing of the `SHOW TABLES` output: split on newlines, keep lines
that are nonempty after trimming and do not contain `Tables_in_`. -/
def parseTables (out : Chars) : List Chars :=
  (splitLines out).filter (fun l => !(jsTrim l).isEmpty && !containsSub (lit ("Tables_in_")) l)

/-- The per-table sweep of the raw fallback: try the `option_value`
update; on failure, try each candidate column in order, silently skipping
per-column failures (the inner `catch` blocks at lines 1018-1033). -/
def tableSweep (orc : Orc) (ctx : DbCtx) (search repl table : Chars) : List Attempt :=
  let upd := mysqlExecCmd ctx (directUser ctx) (directPassword ctx)
    (updateOptionValueStmt table search repl)
  if orc upd then [⟨upd, true⟩]
  else ⟨upd, false⟩ :: commonColumns.map (fun col =>
    let c := mysqlExecCmd ctx (directUser ctx) (directPassword ctx)
      (updateColumnStmt table col search repl)
    ⟨c, orc c⟩)

/-- The table-enumeration command of the raw fallback. -/
def showTablesCmd (ctx : DbCtx) : Chars :=
  mysqlExecCmd ctx (directUser ctx) (directPassword ctx) (lit ("SHOW TABLES"))

/-- The body of `performDirectSearchReplace` inside its outer `try`: the
`SHOW TABLES` subprocess may throw (`Except.error`); per-table failures
are already handled by `tableSweep`. -/
def directBody (orc : Orc) (outf : OutF) (ctx : DbCtx) (search repl : Chars) :
    List Attempt × Except Unit Unit :=
  if orc (showTablesCmd ctx) then
    (⟨showTablesCmd ctx, true⟩ ::
      (parseTables (outf (showTablesCmd ctx))).flatMap (tableSweep orc ctx search repl),
      Except.ok ())
  else ([⟨showTablesCmd ctx, false⟩], Except.error ())

/-- `performDirectSearchReplace`: the outer `catch` (line 1036) downgrades
any error of the body to a console warning, so the caller always observes
success. -/
def performDirectSearchReplace (orc : Orc) (outf : OutF) (ctx : DbCtx)
    (search repl : Chars) : List Attempt × Except Unit Unit :=
  ((directBody orc outf ctx search repl).1, Except.ok ())

/-- Search-replace stage configuration (`config.sql` and
`config.sql.searchReplace`). -/
structure SRConfig where
  skipSearchReplace : Bool
  enabled : Bool
  oldUrl : Chars
  oldDomain : Chars
  dryRun : Bool
  caseSensitive : Bool
  rgx : Bool
  additionalReplacements : List (Chars × Chars)
  deriving DecidableEq

/-- The primary-strategy command `wp search-replace ... --all-tables` with
the rule's options translated into flags (lines 928-932). -/
def wpSearchReplaceCmd (websitePath : Chars) (cfg : SRConfig) (search repl : Chars) : Chars :=
  lit ("wp search-replace ") ++ [dq] ++ search ++ [dq] ++ lit (" ") ++ [dq] ++ repl ++ [dq]
    ++ lit (" --path=") ++ [dq] ++ websitePath ++ [dq] ++ lit (" --all-tables ")
    ++ (if cfg.dryRun then lit ("--dry-run") else []) ++ lit (" ")
    ++ (if cfg.caseSensitive then lit ("--case-sensitive") else []) ++ lit (" ")
    ++ (if cfg.rgx then lit ("--regex") else [])

/-- One replacement rule: try the primary strategy; if its invocation
fails, run the raw fallback (this is the `try { execSync } catch {
performDirectSearchReplace }` shape repeated at lines 934-940, 954-960,
972-978). -/
def ruleAttempts (orc : Orc) (outf : OutF) (ctx : DbCtx) (websitePath : Chars)
    (cfg : SRConfig) (search repl : Chars) : List Attempt :=
  let cmd := wpSearchReplaceCmd websitePath cfg search repl
  if orc cmd then [⟨cmd, true⟩]
  else ⟨cmd, false⟩ :: (performDirectSearchReplace orc outf ctx search repl).1

/-- The base-URL rule: executed only when `oldUrl !== newUrl`
(line 927). -/
def baseRuleAttempts (orc : Orc) (outf : OutF) (ctx : DbCtx) (websitePath : Chars)
    (cfg : SRConfig) (websiteName valetDomain : Chars) : List Attempt :=
  let oldUrl := if cfg.oldUrl.isEmpty then lit ("http://example.com") else cfg.oldUrl
  let newUrl := lit ("http://") ++ websiteName ++ valetDomain
  if oldUrl = newUrl then []
  else ruleAttempts orc outf ctx websitePath cfg oldUrl newUrl

/-- The bare-domain rule: executed only when `oldDomain !== newDomain`
(line 947). -/
def domainRuleAttempts (orc : Orc) (outf : OutF) (ctx : DbCtx) (websitePath : Chars)
    (cfg : SRConfig) (websiteName valetDomain : Chars) : List Attempt :=
  let oldDomain := if cfg.oldDomain.isEmpty then lit ("example.com") else cfg.oldDomain
  let newDomain := websiteName ++ valetDomain
  if oldDomain = newDomain then []
  else ruleAttempts orc outf ctx websitePath cfg oldDomain newDomain

/-- The user-supplied additional replacements (lines 963-980): each is
attempted unconditionally — the loop performs no `search === replace`
comparison. -/
def additionalRuleAttempts (orc : Orc) (outf : OutF) (ctx : DbCtx) (websitePath : Chars)
    (cfg : SRConfig) : List Attempt :=
  cfg.additionalReplacements.flatMap (fun r => ruleAttempts orc outf ctx websitePath cfg r.1 r.2)

/-- `performSearchReplace`: skip guards, then the three rule categories in
order.  Every subprocess failure below is caught (primary failures fall
back to the raw strategy, whose failures are downgraded to warnings), so
the stage's own outer `try` never observes an error. -/
def performSearchReplace (orc : Orc) (outf : OutF) (ctx : DbCtx) (websitePath : Chars)
    (cfg : SRConfig) (websiteName valetDomain : Chars) : List Attempt × Except Unit Unit :=
  if cfg.skipSearchReplace then ([], Except.ok ())
  else if !cfg.enabled then ([], Except.ok ())
  else
    (baseRuleAttempts orc outf ctx websitePath cfg websiteName valetDomain
      ++ domainRuleAttempts orc outf ctx websitePath cfg websiteName valetDomain
      ++ additionalRuleAttempts orc outf ctx websitePath cfg, Except.ok ())

/-! ## Dump import and its credential use (src/index.js lines 842-907) -/

/-- Credential selection of `importDatabase` (lines 858-859): scoped
username and scoped password when present. -/
def importUser (ctx : DbCtx) : Chars := ctx.dbUserOpt.getD ctx.rootUser

/-- See `importUser`; line 859 reads `this.dbPassword ||
this.config.database.password`. -/
def importPassword (ctx : DbCtx) : Chars := ctx.dbPasswordOpt.getD ctx.rootPassword

/-- The bulk-import command with input redirection (lines 861-870). -/
def importCmd (ctx : DbCtx) (sqlPath : Chars) : Chars :=
  if ctx.dockerEnabled then
    lit ("docker exec -i ") ++ ctx.containerName ++ lit (" mysql -hlocalhost -u")
      ++ importUser ctx ++ lit (" ") ++ passwordParam (importPassword ctx)
      ++ lit (" -P3306 ") ++ ctx.dbName ++ lit (" < ") ++ [dq] ++ sqlPath ++ [dq]
  else
    lit ("mysql -h") ++ ctx.host ++ lit (" -u") ++ importUser ctx ++ lit (" ")
      ++ passwordParam (importPassword ctx) ++ lit (" -P") ++ ctx.port ++ lit (" ")
      ++ ctx.dbName ++ lit (" < ") ++ [dq] ++ sqlPath ++ [dq]

/-- The canonical core-table list named in the optimize/repair passes. -/
def coreTables : Chars :=
  lit ("wp_posts, wp_postmeta, wp_options, wp_usermeta, wp_users, wp_terms, wp_term_taxonomy, wp_term_relationships, wp_termmeta, wp_comments, wp_commentmeta")

/-- The optimize pass command (lines 877-885). -/
def optimizeCmd (ctx : DbCtx) : Chars :=
  mysqlExecCmd ctx (importUser ctx) (importPassword ctx)
    (lit ("OPTIMIZE TABLE ") ++ coreTables ++ lit (";"))

/-- The repair pass command (lines 888-899). -/
def repairCmd (ctx : DbCtx) : Chars :=
  mysqlExecCmd ctx (importUser ctx) (importPassword ctx)
    (lit ("REPAIR TABLE ") ++ coreTables ++ lit (";"))

/-- Credential selection of `checkAdminUserExists`,
`updateAdminUserPassword` and `createAdminUser` (lines 1043-1044,
1075-1076, 1102-1103): all three read `this.dbUser || config.user` and
`this.dbPassword || config.password`. -/
def adminStageUser (ctx : DbCtx) : Chars := ctx.dbUserOpt.getD ctx.rootUser

/-- See `adminStageUser`. -/
def adminStagePassword (ctx : DbCtx) : Chars := ctx.dbPasswordOpt.getD ctx.rootPassword

/-! ## Database provisioner: `createDatabase` (src/index.js lines 493-559) -/

/-- Provisioner configuration (`config.database`). -/
structure ProvisionConfig where
  charset : Chars
  collate : Chars
  host : Chars
  createUser : Bool
  userPfx : Chars
  grantPrivileges : List Chars
  deriving DecidableEq

/-- The `DROP DATABASE IF EXISTS` statement. -/
def dropStmt (dbName : Chars) : Chars :=
  lit ("DROP DATABASE IF EXISTS ") ++ [btick] ++ dbName ++ [btick]

/-- The `CREATE DATABASE ... CHARACTER SET ... COLLATE ...` statement. -/
def createStmt (cfg : ProvisionConfig) (dbName : Chars) : Chars :=
  lit ("CREATE DATABASE ") ++ [btick] ++ dbName ++ [btick]
    ++ lit (" CHARACTER SET ") ++ cfg.charset ++ lit (" COLLATE ") ++ cfg.collate

/-- The `SHOW DATABASES LIKE '<name>'` verification query. -/
def showDbStmt (dbName : Chars) : Chars :=
  lit ("SHOW DATABASES LIKE ") ++ [sq] ++ dbName ++ [sq]

/-- The `CREATE USER IF NOT EXISTS ...` statement of dedicated-user
mode. -/
def createUserStmt (cfg : ProvisionConfig) (dbUser dbPassword : Chars) : Chars :=
  lit ("CREATE USER IF NOT EXISTS ") ++ [sq] ++ dbUser ++ [sq] ++ lit ("@")
    ++ [sq] ++ cfg.host ++ [sq] ++ lit (" IDENTIFIED BY ") ++ [sq] ++ dbPassword ++ [sq]

/-- The scoped `GRANT` statement. -/
def grantStmt (cfg : ProvisionConfig) (dbName dbUser : Chars) : Chars :=
  lit ("GRANT ") ++ (List.intercalate (lit (", ")) cfg.grantPrivileges)
    ++ lit (" ON ") ++ [btick] ++ dbName ++ [btick] ++ lit (".* TO ")
    ++ [sq] ++ dbUser ++ [sq] ++ lit ("@") ++ [sq] ++ cfg.host ++ [sq]

/-- `createDatabase`: drop, create, verify by re-query; a verification
query returning no row throws (`Except.error`), otherwise optionally
provision the dedicated user and return the scoped credential.
`showRows` is the row count the `SHOW DATABASES LIKE` query returns and
`genPassword` the freshly generated random password. -/
def createDatabase (cfg : ProvisionConfig) (dbName websiteName : Chars)
    (showRows : Nat) (genPassword : Chars) :
    List Chars × Except Unit (Option (Chars × Chars)) :=
  let s1 := dropStmt dbName
  let s2 := createStmt cfg dbName
  let s3 := showDbStmt dbName
  if showRows = 0 then ([s1, s2, s3], Except.error ())
  else if cfg.createUser then
    let dbUser := cfg.userPfx ++ websiteName
    ([s1, s2, s3, createUserStmt cfg dbUser genPassword,
      grantStmt cfg dbName dbUser, lit ("FLUSH PRIVILEGES")],
      Except.ok (some (dbUser, genPassword)))
  else ([s1, s2, s3], Except.ok none)

/-! ## Admin identity reconciler state machine (src/index.js lines 1041-1190)

The account store itself lives behind the external `mysql` subprocesses;
its state is modelled here with list-based tables, giving the standard
SQL meaning to exactly the statements `manageAdminUser` issues:
`SELECT COUNT(*) ... WHERE user_login = ...`, `UPDATE ... SET user_pass
... WHERE user_login = ...`, `INSERT INTO ..users`, `SELECT ID ... WHERE
user_login = ...` and the capability `INSERT INTO ..usermeta`. -/

structure UserRow where
  id : Nat
  login : Chars
  pass : Chars
  deriving DecidableEq

structure MetaRow where
  userId : Nat
  key : Chars
  value : Chars
  deriving DecidableEq

structure WpDb where
  users : List UserRow
  usermeta : List MetaRow
  nextId : Nat
  deriving DecidableEq

/-- The serialized administrator capability value the insert stores
(after the shell strips the backslash escapes):
`a:1:{s:13:"administrator";b:1;}`. -/
def wpCapabilitiesValue : Chars :=
  lit ("a:1:") ++ [Char.ofNat 123] ++ lit ("s:13:") ++ [dq] ++ lit ("administrator")
    ++ [dq] ++ lit (";b:1;") ++ [Char.ofNat 125]

/-- Rows of the users table carrying the given login. -/
def loginRows (db : WpDb) (login : Chars) : List UserRow :=
  db.users.filter (fun r => r.login = login)

/-- The existence check against the live store: a failing check query
reports absent (the fail-open behaviour proved as claim C8); otherwise
the `COUNT(*) > 0` test. -/
def checkAdminExistsDb (db : WpDb) (login : Chars) (checkFails : Bool) : Bool :=
  if checkFails then false else decide (0 < (loginRows db login).length)

/-- `updateAdminUserPassword`: `UPDATE ..users SET user_pass = <hash>
WHERE user_login = <login>`. -/
def updateAdminUserPassword (db : WpDb) (login hashed : Chars) : WpDb :=
  ⟨db.users.map (fun r => if r.login = login then ⟨r.id, r.login, hashed⟩ else r),
    db.usermeta, db.nextId⟩

/-- `createAdminUser`: insert the account row, re-query the numeric
identifier (`SELECT ID ... WHERE user_login = ...`, first returned row),
and if one is found insert the two capability metadata rows; if the
lookup returns nothing the capability grant is skipped. -/
def createAdminUser (db : WpDb) (pfx login hashed : Chars) : WpDb :=
  let row : UserRow := ⟨db.nextId, login, hashed⟩
  let db1 : WpDb := ⟨db.users ++ [row], db.usermeta, db.nextId + 1⟩
  match (db1.users.filter (fun r => r.login = login)).head? with
  | none => db1
  | some r =>
    ⟨db1.users,
      db1.usermeta ++ [⟨r.id, pfx ++ lit ("capabilities"), wpCapabilitiesValue⟩,
        ⟨r.id, pfx ++ lit ("user_level"), lit ("10")⟩],
      db1.nextId⟩

/-- `manageAdminUser`: check existence, then update the password of the
existing account or create a fresh one. -/
def manageAdminUser (db : WpDb) (pfx login hashed : Chars) (checkFails : Bool) : WpDb :=
  if checkAdminExistsDb db login checkFails then updateAdminUserPassword db login hashed
  else createAdminUser db pfx login hashed

/-- The property claim C5 asserts of the post-reconciliation store:
exactly one account row with the login, whose stored hash is the hash of
the supplied plaintext password, and an administrator-capability marker
attached to that row. -/
def adminReconciled (db : WpDb) (pfx login hashed : Chars) : Prop :=
  (loginRows db login).length = 1 ∧
  (∀ r ∈ loginRows db login, r.pass = hashed) ∧
  (∃ r ∈ loginRows db login,
    (⟨r.id, pfx ++ lit ("capabilities"), wpCapabilitiesValue⟩ : MetaRow) ∈ db.usermeta)

instance (db : WpDb) (pfx login hashed : Chars) :
    Decidable (adminReconciled db pfx login hashed) := by
  unfold adminReconciled
  infer_instance

/-! ## Configuration patcher: `updateWpConfig` (src/index.js lines 687-813)

The six `wpConfig.replace(/define\s*\(\s*['"]KEY['"]\s*,\s*['"][^'"]*['"]\s*\)/, ...)`
calls replace the leftmost match of that regex.  At any starting
position the regex is deterministic: each greedy `\s*` is followed by a
non-whitespace literal and the greedy `[^'"]*` is followed by a quote
class, so backtracking never helps.  It is therefore modelled by the
token-eater parser `defineMatch` below, and `String.replace` by
`replaceDefine` (leftmost match, single replacement, literal
replacement text).  The trailing-marker regex
`/\/\*\s*That's all, stop editing!.*$/s` matches from the leftmost
marker occurrence to the end of the string; it is modelled by
`markerAt`/`replaceToEnd`. -/

/-- Greedy `\s*`. -/
def eatWs (s : Chars) : Chars := s.dropWhile isWsChar

/-- Consume one expected literal character. -/
def eatChar (c : Char) : Chars → Option Chars
  | d :: ds => if d = c then some ds else none
  | [] => none

/-- Consume an expected literal string. -/
def eatLit (pat : Chars) (s : Chars) : Option Chars :=
  if pfx pat s then some (s.drop pat.length) else none

/-- The `['"]` character class. -/
def isQuoteChar (c : Char) : Bool := c = sq || c = dq

/-- Consume one quote character. -/
def eatQuote : Chars → Option Chars
  | d :: ds => if isQuoteChar d then some ds else none
  | [] => none

/-- Greedy `[^'"]*`: skip the maximal quote-free run. -/
def eatValRun (s : Chars) : Chars := s.dropWhile (fun c => !isQuoteChar c)

/-- Match `define\s*\(\s*['"]KEY['"]\s*,\s*['"][^'"]*['"]\s*\)` at the
start of `s`, returning the suffix after the match. -/
def defineMatch (key : Chars) (s : Chars) : Option Chars :=
  (eatLit (lit ("define")) s).bind fun s1 =>
  (eatChar '(' (eatWs s1)).bind fun s2 =>
  (eatQuote (eatWs s2)).bind fun s3 =>
  (eatLit key s3).bind fun s4 =>
  (eatQuote s4).bind fun s5 =>
  (eatChar ',' (eatWs s5)).bind fun s6 =>
  (eatQuote (eatWs s6)).bind fun s7 =>
  (eatQuote (eatValRun s7)).bind fun s8 =>
  eatChar ')' (eatWs s8)

/-- `String.replace` with the define regex: replace the leftmost match
with `repl`; a string without a match is returned unchanged. -/
def replaceDefine (key repl : Chars) : Chars → Chars
  | [] => []
  | c :: cs =>
    match defineMatch key (c :: cs) with
    | some rest => repl ++ rest
    | none => c :: replaceDefine key repl cs

/-- The text of the trailing marker comment, built around its
apostrophe. -/
def thatsAll : Chars := lit ("That") ++ [sq] ++ lit ("s all, stop editing!")

/-- Does `/\/\*\s*That's all, stop editing!/` match at the start of
`s`? -/
def markerAt (s : Chars) : Bool :=
  pfx (lit ("/*")) s && pfx thatsAll (eatWs (s.drop 2))

/-- The full marker comment every insertion re-appends:
`/* That's all, stop editing! Happy publishing. */`. -/
def markerChars : Chars := lit ("/* ") ++ thatsAll ++ lit (" Happy publishing. */")

/-- `String.replace` with the `/.*$/s`-tailed marker regex: replace from
the leftmost marker occurrence through the end of the string with
`repl`; without a match the string is unchanged. -/
def replaceToEnd (repl : Chars) : Chars → Chars
  | [] => []
  | c :: cs => if markerAt (c :: cs) then repl else c :: replaceToEnd repl cs

/-- The parameters `updateWpConfig` interpolates into the configuration
text (connection values, the salt block obtained from `generateSalts`,
the development/security/performance flags, and the custom lines). -/
structure PatchParams where
  dbName : Chars
  dbUser : Chars
  dbPassword : Chars
  dbHost : Chars
  dbPort : Chars
  charset : Chars
  collate : Chars
  tablePfx : Chars
  salts : Chars
  enableDebug : Bool
  debugLog : Bool
  wpDebugLog : Bool
  wpDebugDisplay : Bool
  scriptDebug : Bool
  saveQueries : Bool
  disableFileEditing : Bool
  memoryLimit : Chars
  customWpConfig : List Chars

/-- The canonical replacement text `define( 'KEY', 'value' )`. -/
def defineRepl (key v : Chars) : Chars :=
  lit ("define( ") ++ [sq] ++ key ++ [sq] ++ lit (", ") ++ [sq] ++ v ++ [sq] ++ lit (" )")

/-- One configuration line `define( 'KEY', 'value' );` followed by a
newline, as the canonical sample configuration carries for each
connection parameter. -/
def defLineS (K v : Chars) : Chars := defineRepl K v ++ lit (";\n")

/-- JavaScript template interpolation of a boolean. -/
def boolChars (b : Bool) : Chars := if b then lit ("true") else lit ("false")

/-- A `define( 'NAME', <bool> );` settings line. -/
def dbgLine (name : Chars) (b : Bool) : Chars :=
  lit ("define( ") ++ [sq] ++ name ++ [sq] ++ lit (", ") ++ boolChars b ++ lit (" );")

/-- The single-quoted already-present search `define( 'NAME'`. -/
def dbgGuard1 (name : Chars) : Chars := lit ("define( ") ++ [sq] ++ name ++ [sq]

/-- The double-quoted already-present search `define( "NAME"`. -/
def dbgGuard2 (name : Chars) : Chars := lit ("define( ") ++ [dq] ++ name ++ [dq]

/-- The `define( 'WP_MEMORY_LIMIT', '<limit>' );` line. -/
def memLine (v : Chars) : Chars :=
  lit ("define( ") ++ [sq] ++ lit ("WP_MEMORY_LIMIT") ++ [sq] ++ lit (", ")
    ++ [sq] ++ v ++ [sq] ++ lit (" );")

/-- The framework bootstrap call searched for and appended at lines
800-805: `require_once(ABSPATH . 'wp-settings.php');`. -/
def requireStr : Chars :=
  lit ("require_once(ABSPATH . ") ++ [sq] ++ lit ("wp-settings.php") ++ [sq] ++ lit (");")

/-- Is `define( 'NAME'` or `define( "NAME"` already present? -/
def guardPresent (name : Chars) (w : Chars) : Bool :=
  containsSub (dbgGuard1 name) w || containsSub (dbgGuard2 name) w

/-- The pure text transformation of `updateWpConfig` (lines 708-805):
six connection-parameter in-place replacements plus the `$table_prefix`
variant, then the guarded additive insertions (salt block, development
settings, file-edit lockout, memory limit), the unguarded custom lines,
and the guaranteed bootstrap call, each inserted by replacing from the
trailing marker comment to the end of the text. -/
def updateWpConfigText (p : PatchParams) (wpConfig0 : Chars) : Chars :=
  let w1 := replaceDefine (lit ("DB_NAME")) (defineRepl (lit ("DB_NAME")) p.dbName) wpConfig0
  let w2 := replaceDefine (lit ("DB_USER")) (defineRepl (lit ("DB_USER")) p.dbUser) w1
  let w3 := replaceDefine (lit ("DB_PASSWORD"))
    (defineRepl (lit ("DB_PASSWORD")) p.dbPassword) w2
  let w4 := replaceDefine (lit ("DB_HOST"))
    (defineRepl (lit ("DB_HOST")) (p.dbHost ++ lit (":") ++ p.dbPort)) w3
  let w5 := replaceDefine (lit ("DB_CHARSET")) (defineRepl (lit ("DB_CHARSET")) p.charset) w4
  let w6 := replaceDefine (lit ("DB_COLLATE")) (defineRepl (lit ("DB_COLLATE")) p.collate) w5
  let w7 := replaceDefine (lit ("$table_prefix"))
    (defineRepl (lit ("$table_prefix")) p.tablePfx) w6
  let w8 := if containsSub (lit ("AUTH_KEY")) w7 then w7
            else replaceToEnd (p.salts ++ lit ("\n\n") ++ markerChars) w7
  let debugSettings : List Chars :=
    (if !guardPresent (lit ("WP_DEBUG")) w8 then
      [dbgLine (lit ("WP_DEBUG")) p.debugLog] else []) ++
    (if !guardPresent (lit ("WP_DEBUG_LOG")) w8 then
      [dbgLine (lit ("WP_DEBUG_LOG")) p.wpDebugLog] else []) ++
    (if !guardPresent (lit ("WP_DEBUG_DISPLAY")) w8 then
      [dbgLine (lit ("WP_DEBUG_DISPLAY")) p.wpDebugDisplay] else []) ++
    (if !guardPresent (lit ("SCRIPT_DEBUG")) w8 then
      [dbgLine (lit ("SCRIPT_DEBUG")) p.scriptDebug] else []) ++
    (if !guardPresent (lit ("SAVEQUERIES")) w8 then
      [dbgLine (lit ("SAVEQUERIES")) p.saveQueries] else [])
  let w9 := if p.enableDebug && !debugSettings.isEmpty then
      replaceToEnd (lit ("\n// Development settings\n")
        ++ List.intercalate (lit ("\n")) debugSettings ++ lit ("\n\n") ++ markerChars) w8
    else w8
  let w10 := if p.disableFileEditing && !guardPresent (lit ("DISALLOW_FILE_EDIT")) w9 then
      replaceToEnd (lit ("\n") ++ dbgLine (lit ("DISALLOW_FILE_EDIT")) true
        ++ lit ("\n\n") ++ markerChars) w9
    else w9
  let w11 := if !p.memoryLimit.isEmpty && !guardPresent (lit ("WP_MEMORY_LIMIT")) w10 then
      replaceToEnd (lit ("\n") ++ memLine p.memoryLimit ++ lit ("\n\n") ++ markerChars) w10
    else w10
  let w12 := if !p.customWpConfig.isEmpty then
      replaceToEnd (lit ("\n") ++ List.intercalate (lit ("\n")) p.customWpConfig
        ++ lit ("\n") ++ lit ("\n") ++ markerChars) w11
    else w11
  if !containsSub requireStr w12 then
    replaceToEnd (lit ("\n") ++ markerChars ++ lit ("\n\n") ++ requireStr) w12
  else w12

/-! ## Scanning predicates for the idempotence analysis -/

/-- Boolean define-match test at a position. -/
def defHit (key : Chars) (s : Chars) : Bool := (defineMatch key s).isSome

/-- The scan test `f` fails at every position strictly inside `a`, when
`a` is followed by `b`. -/
def ScanFree (f : Chars → Bool) (a b : Chars) : Prop :=
  ∀ i, i < a.length → f (a.drop i ++ b) = false

/-- The scan test fails at every suffix of `s`. -/
def ScanFreeAll (f : Chars → Bool) (s : Chars) : Prop :=
  ∀ i, f (s.drop i) = false

/-! ## The canonical sample-configuration family

`sampleCfg` is the shape of the stock `wp-config-sample.php`: a PHP
header, the six connection `define` lines with prior values, the
`$table_prefix` assignment, the trailing marker comment and the modern
(parenthesis-free) bootstrap call.  `patchedForm` is the closed form of
one `updateWpConfig` pass over it, proved in `updateWpConfig_run1`. -/

/-- The `$table_prefix = 'wp_';` assignment line of the sample (an
assignment, not a `define`, so the patcher's seventh replacement never
matches it). -/
def tpLine (tp : Chars) : Chars :=
  lit ("$table_prefix = ") ++ ([sq] ++ (tp ++ ([sq] ++ lit (";\n\n"))))

/-- The text of the sample following the marker comment: the modern
bootstrap call without parentheses, which the patcher's
`require_once(ABSPATH . 'wp-settings.php');` search does not find. -/
def sampleTail : Chars :=
  lit ("\n\nrequire_once ABSPATH . ") ++ ([sq] ++ (lit ("wp-settings.php") ++
    ([sq] ++ lit (";\n"))))

/-- The shared head shape of the sample and of its patched form: header,
the six connection lines with the given values, the `$table_prefix`
assignment, then an arbitrary remainder. -/
def cfgHeadR (n u pw hc ch co tp rest : Chars) : Chars :=
  lit ("<?php\n") ++
  (defLineS (lit ("DB_NAME")) n ++
  (defLineS (lit ("DB_USER")) u ++
  (defLineS (lit ("DB_PASSWORD")) pw ++
  (defLineS (lit ("DB_HOST")) hc ++
  (defLineS (lit ("DB_CHARSET")) ch ++
  (defLineS (lit ("DB_COLLATE")) co ++
  (tpLine tp ++ rest)))))))

/-- The canonical sample configuration with prior values `v1 .. v6` for
the six connection keys and prior table prefix `tp`. -/
def sampleCfg (v1 v2 v3 v4 v5 v6 tp : Chars) : Chars :=
  cfgHeadR v1 v2 v3 v4 v5 v6 tp (markerChars ++ sampleTail)

/-- The development-settings block inserted when debug mode is enabled
and none of the five settings is present. -/
def debugBlock (p : PatchParams) : Chars :=
  lit ("\n// Development settings\n") ++
  (dbgLine (lit ("WP_DEBUG")) p.debugLog ++
  ('\n' :: (dbgLine (lit ("WP_DEBUG_LOG")) p.wpDebugLog ++
  ('\n' :: (dbgLine (lit ("WP_DEBUG_DISPLAY")) p.wpDebugDisplay ++
  ('\n' :: (dbgLine (lit ("SCRIPT_DEBUG")) p.scriptDebug ++
  ('\n' :: dbgLine (lit ("SAVEQUERIES")) p.saveQueries))))))))

/-- The closed form of one patcher pass over `sampleCfg`: connection
values replaced in place, then the salt block, the optional settings
blocks and the re-appended marker and bootstrap call. -/
def dbgBlockOpt (p : PatchParams) : Chars :=
  if p.enableDebug then debugBlock p ++ lit ("\n\n") else []

/-- The file-editing lockout insertion. -/
def disallowContent : Chars :=
  '\n' :: (dbgLine (lit ("DISALLOW_FILE_EDIT")) true ++ lit ("\n\n"))

def disallowOpt (p : PatchParams) : Chars :=
  if p.disableFileEditing then disallowContent else []

def memOpt (p : PatchParams) : Chars :=
  if p.memoryLimit.isEmpty then [] else '\n' :: (memLine p.memoryLimit ++ lit ("\n\n"))

/-- The re-appended marker comment and guaranteed bootstrap call ending
a patched configuration. -/
def mkTail : Chars := '\n' :: (markerChars ++ (lit ("\n\n") ++ requireStr))

def patchedTail (p : PatchParams) : Chars :=
  p.salts ++ (lit ("\n\n") ++
    (dbgBlockOpt p ++ (disallowOpt p ++ (memOpt p ++ mkTail))))

/-- The patched text: the head with the new values and the inserted
tail. -/
def patchedForm (p : PatchParams) (tp : Chars) : Chars :=
  cfgHeadR p.dbName p.dbUser p.dbPassword (p.dbHost ++ (lit (":") ++ p.dbPort))
    p.charset p.collate tp (patchedTail p)

/-- Well-formedness of one interpolated value: quote- and newline-free,
and free of the four patterns whose scans must not hit inside it. -/
def cleanVal (v : Chars) : Bool :=
  v.all (fun c => !isQuoteChar c && !(c = '\n')) &&
  !containsSub (lit ("define")) v && !containsSub (lit ("/*")) v &&
  !containsSub (lit ("AUTH_KEY")) v && !containsSub (lit ("require_once(")) v &&
  !containsSub (lit ("$table_prefix")) v

/-- The connection keys the patcher replaces. -/
def sevenKeys : List Chars :=
  [lit ("DB_NAME"), lit ("DB_USER"), lit ("DB_PASSWORD"), lit ("DB_HOST"),
   lit ("DB_CHARSET"), lit ("DB_COLLATE"), lit ("$table_prefix")]

/-- Well-formedness of the salt block: it carries the `AUTH_KEY` search
key (so a second pass skips the salts step), and none of the marker,
bootstrap search, connection keys or settings guards occur inside it. -/
def cleanSalts (s : Chars) : Bool :=
  containsSub (lit ("AUTH_KEY")) s &&
  !containsSub (lit ("/*")) s &&
  !containsSub (lit ("require_once(")) s &&
  sevenKeys.all (fun K => !containsSub K s) &&
  !guardPresent (lit ("WP_DEBUG")) s && !guardPresent (lit ("WP_DEBUG_LOG")) s &&
  !guardPresent (lit ("WP_DEBUG_DISPLAY")) s && !guardPresent (lit ("SCRIPT_DEBUG")) s &&
  !guardPresent (lit ("SAVEQUERIES")) s && !guardPresent (lit ("DISALLOW_FILE_EDIT")) s &&
  !guardPresent (lit ("WP_MEMORY_LIMIT")) s

/-- Well-formedness of a parameter set. -/
def wfParams (p : PatchParams) : Bool :=
  cleanVal p.dbName && cleanVal p.dbUser && cleanVal p.dbPassword &&
  cleanVal (p.dbHost ++ (lit (":") ++ p.dbPort)) && cleanVal p.charset &&
  cleanVal p.collate && cleanVal p.memoryLimit && cleanSalts p.salts

/-! ## Concrete fixtures for witnesses and counterexamples -/

/-- Copy of a search-replace configuration with every matching option
cleared, used to state that the raw fallback ignores the rule's
options. -/
def clearOptions (cfg : SRConfig) : SRConfig :=
  ⟨cfg.skipSearchReplace, cfg.enabled, cfg.oldUrl, cfg.oldDomain, false, false, false,
    cfg.additionalReplacements⟩

/-- Database context fixture: dedicated-user mode provisioned a scoped
credential `wp_site` / `scopedpw`; the root credential is `root` /
`rootpw`. -/
def ctxFx : DbCtx :=
  ⟨lit ("localhost"), lit ("3306"), lit ("root"), lit ("rootpw"), false, lit ("mysql"),
    lit ("wp_site"), some (lit ("wp_site")), some (lit ("scopedpw"))⟩

/-- Fixture: the built-in rules are no-ops and the single user-supplied
rule has equal search and replace values. -/
def cfgEqAdd : SRConfig :=
  ⟨false, true, lit ("http://site.test"), lit ("site.test"), false, false, false,
    [(lit ("a"), lit ("a"))]⟩

/-- Fixture: no-op built-in rules and one genuine user-supplied rule. -/
def cfgAdd : SRConfig :=
  ⟨false, true, lit ("http://site.test"), lit ("site.test"), false, false, false,
    [(lit ("http://old.example"), lit ("http://site.test"))]⟩

/-- Fixture: dry-run mode enabled, no additional rules. -/
def cfgDry : SRConfig :=
  ⟨false, true, lit ("http://old.example"), lit ("old.example"), true, false, false, []⟩

/-- Oracle fixture that fails exactly the `wp search-replace`
invocations, forcing the raw fallback. -/
def orcNoWp : Orc := fun c => !(List.isPrefixOf (lit ("wp search-replace")) c)

/-- Output fixture: a `SHOW TABLES` header line followed by one table. -/
def outFx : OutF := fun _ => lit ("Tables_in_wp_site\nwp_options")

/-- A small but well-formed remote-style salt block fixture. -/
def saltsFx : Chars :=
  lit ("\ndefine( ") ++ [sq] ++ lit ("AUTH_KEY") ++ [sq] ++ lit (", ")
    ++ [sq] ++ lit ("k1") ++ [sq] ++ lit (" );")

/-- A typical user-supplied custom wp-config line. -/
def customLineFx : Chars :=
  lit ("define( ") ++ [sq] ++ lit ("WP_CACHE") ++ [sq] ++ lit (", true );")

/-- Patcher parameter fixture with one custom wp-config line. -/
def pCustomFx : PatchParams :=
  ⟨lit ("wp_site"), lit ("root"), [], lit ("localhost"), lit ("3306"),
   lit ("utf8mb4"), lit ("utf8mb4_unicode_ci"), lit ("wp_"), saltsFx,
   false, false, false, false, false, false, false, [], [customLineFx]⟩

/-- A minimal configuration text: a PHP header and the trailing marker
comment. -/
def sMinFx : Chars := lit ("<?php\n") ++ markerChars

/-- A fully well-formed patcher parameter fixture: clean connection
values, the well-formed salt block fixture, debug and lockout enabled, a
memory limit and no custom lines. -/
def pWfFx : PatchParams :=
  ⟨lit ("wp_site"), lit ("root"), lit ("secret"), lit ("localhost"), lit ("3306"),
   lit ("utf8mb4"), lit ("utf8mb4_unicode_ci"), lit ("wp_"), saltsFx,
   true, true, false, false, false, false, true, lit ("256M"), []⟩

end WPQI

namespace WPQI

/-! ## Theorems -/

/-! ### Prefix toolbox -/

theorem pfx_self_append (P x : Chars) : pfx P (P ++ x) = true := by
  induction P with
  | nil => rfl
  | cons a as ih => simp [pfx, ih]

theorem pfx_mono_append {P s : Chars} (h : pfx P s = true) (y : Chars) :
    pfx P (s ++ y) = true := by
  induction P generalizing s with
  | nil => rfl
  | cons a as ih =>
    cases s with
    | nil => exact absurd h (by simp [pfx])
    | cons b bs =>
      simp only [pfx, Bool.and_eq_true, decide_eq_true_eq] at h
      simp [pfx, h.1, ih h.2]

theorem pfx_take_both : ∀ (x : Chars) (P y : Chars), pfx P (x ++ y) = true →
    pfx (P.take x.length) x = true := by
  intro x
  induction x with
  | nil => intro P y _; rfl
  | cons c cs ih =>
    intro P y h
    cases P with
    | nil => rfl
    | cons d ds =>
      simp only [List.cons_append, pfx, Bool.and_eq_true, decide_eq_true_eq] at h
      simpa [List.take, pfx, h.1] using ih ds y h.2

theorem pfx_drop_cross : ∀ (x : Chars) (P y : Chars), pfx P (x ++ y) = true →
    x.length ≤ P.length → pfx (P.drop x.length) y = true := by
  intro x
  induction x with
  | nil => intro P y h _; simpa using h
  | cons c cs ih =>
    intro P y h hle
    cases P with
    | nil => simp at hle
    | cons d ds =>
      simp only [List.cons_append, pfx, Bool.and_eq_true, decide_eq_true_eq] at h
      simpa [List.drop] using ih ds y h.2 (by simpa using hle)

theorem pfx_length_le : ∀ (P s : Chars), pfx P s = true → P.length ≤ s.length := by
  intro P
  induction P with
  | nil => intro s _; simp
  | cons a as ih =>
    intro s h
    cases s with
    | nil => exact absurd h (by simp [pfx])
    | cons b bs =>
      simp only [pfx, Bool.and_eq_true] at h
      simpa [List.length_cons] using ih bs h.2

theorem pfx_head_agree : ∀ (P s : Chars), pfx P s = true → P ≠ [] → P.head? = s.head? := by
  intro P s h hne
  cases P with
  | nil => exact absurd rfl hne
  | cons a as =>
    cases s with
    | nil => exact absurd h (by simp [pfx])
    | cons b bs =>
      simp only [pfx, Bool.and_eq_true, decide_eq_true_eq] at h
      simp [h.1]

theorem mem_of_pfx : ∀ (x P : Chars) (c : Char), pfx x P = true → c ∈ x → c ∈ P := by
  intro x
  induction x with
  | nil => intro P c _ hc; simp at hc
  | cons a as ih =>
    intro P c h hc
    cases P with
    | nil => exact absurd h (by simp [pfx])
    | cons b bs =>
      simp only [pfx, Bool.and_eq_true, decide_eq_true_eq] at h
      rcases List.mem_cons.mp hc with rfl | hmem
      · simp [h.1]
      · exact List.mem_cons_of_mem _ (ih bs c h.2 hmem)

theorem pfx_strip : ∀ (x y z : Chars), pfx (x ++ y) (x ++ z) = pfx y z := by
  intro x
  induction x with
  | nil => intro y z; rfl
  | cons a as ih => intro y z; simp [pfx, ih]

theorem pfx_of_le_append {P x y : Chars} (h : pfx P (x ++ y) = true)
    (hle : P.length ≤ x.length) : pfx P x = true := by
  have := pfx_take_both x P y h
  rwa [List.take_of_length_le hle] at this

/-! ### containsSub and scan-freedom -/

theorem containsSub_iff_scanFreeAll (P s : Chars) (hP : P ≠ []) :
    containsSub P s = false ↔ ScanFreeAll (pfx P) s := by
  induction s with
  | nil =>
    have hpf : pfx P [] = false := by
      cases P with
      | nil => exact absurd rfl hP
      | cons a as => rfl
    constructor
    · intro _ i; simpa using hpf
    · intro _; simpa [containsSub] using hpf
  | cons c cs ih =>
    simp only [containsSub, Bool.or_eq_false_iff]
    constructor
    · rintro ⟨h1, h2⟩ i
      cases i with
      | zero => simpa using h1
      | succ j => simpa using (ih.mp h2) j
    · intro h
      refine ⟨by simpa using h 0, ih.mpr (fun j => by simpa using h (j + 1))⟩

theorem containsSub_append_left (P a b : Chars) (h : containsSub P a = true) :
    containsSub P (a ++ b) = true := by
  induction a with
  | nil =>
    simp only [containsSub] at h
    cases b with
    | nil => simpa [containsSub] using h
    | cons d ds =>
      cases P with
      | nil => simp [containsSub, pfx]
      | cons e es => simp [pfx] at h
  | cons c cs ih =>
    simp only [containsSub, Bool.or_eq_true] at h
    rcases h with h | h
    · have hm := pfx_mono_append h b
      simp only [List.cons_append] at hm
      simp [containsSub, hm]
    · simp [containsSub, ih h]

theorem containsSub_append_right (P a b : Chars) (h : containsSub P b = true) :
    containsSub P (a ++ b) = true := by
  induction a with
  | nil => simpa using h
  | cons c cs ih => simp [containsSub, ih]

theorem containsSub_of_pfx (P s : Chars) (h : pfx P s = true) :
    containsSub P s = true := by
  cases s with
  | nil => simpa [containsSub] using h
  | cons c cs => simp [containsSub, h]

theorem scanFree_append {f : Chars → Bool} {a b c : Chars}
    (h1 : ScanFree f a (b ++ c)) (h2 : ScanFree f b c) : ScanFree f (a ++ b) c := by
  intro i hi
  by_cases hia : i < a.length
  · have hdrop : (a ++ b).drop i = a.drop i ++ b :=
      List.drop_append_of_le_length (Nat.le_of_lt hia)
    rw [hdrop, List.append_assoc]
    exact h1 i hia
  · have hge : a.length ≤ i := Nat.le_of_not_lt hia
    obtain ⟨j, rfl⟩ := Nat.exists_eq_add_of_le hge
    have hdrop : (a ++ b).drop (a.length + j) = b.drop j := by
      simpa using @List.drop_append _ a b j
    rw [hdrop]
    have hj : j < b.length := by
      simpa [Nat.add_lt_add_iff_left] using (by simpa [List.length_append] using hi :
        a.length + j < a.length + b.length)
    exact h2 j hj

theorem scanFree_of_imp {f g : Chars → Bool} {a b : Chars}
    (himp : ∀ s, g s = true → f s = true) (h : ScanFree f a b) : ScanFree g a b := by
  intro i hi
  cases hg : g (a.drop i ++ b) with
  | false => rfl
  | true => exact absurd (himp _ hg) (by simp [h i hi])

theorem scanFree_pfx_boundary (P v b : Chars) (χ : Char)
    (hin : ScanFreeAll (pfx P) v) (hb : b.head? = some χ) (hχ : χ ∉ P) :
    ScanFree (pfx P) v b := by
  intro i hi
  cases hp : pfx P (v.drop i ++ b) with
  | false => rfl
  | true =>
    exfalso
    by_cases hlen : P.length ≤ (v.drop i).length
    · exact absurd (pfx_of_le_append hp hlen) (by simp [hin i])
    · have hle : (v.drop i).length ≤ P.length := Nat.le_of_lt (Nat.lt_of_not_le hlen)
      have hdrop := pfx_drop_cross (v.drop i) P b hp hle
      have hne : P.drop (v.drop i).length ≠ [] := by
        intro hnil
        have h2 := congrArg List.length hnil
        rw [List.length_drop] at h2
        simp only [List.length_nil] at h2
        omega
      have hb' : b ≠ [] := by
        intro hnil; rw [hnil] at hb; simp at hb
      have hagree := pfx_head_agree _ _ hdrop hne
      have hmem : χ ∈ P.drop (v.drop i).length := by
        rw [hb] at hagree
        cases hq : P.drop (v.drop i).length with
        | nil => exact absurd hq hne
        | cons q qs =>
          rw [hq] at hagree
          simp only [List.head?] at hagree
          have : q = χ := by simpa using hagree
          simp [hq, this]
      exact hχ (List.drop_subset _ _ hmem)

theorem scanFree_pfx_concrete (P a : Chars) (b : Chars)
    (h : ∀ i, i < a.length → pfx (P.take (a.length - i)) (a.drop i) = false) :
    ScanFree (pfx P) a b := by
  intro i hi
  cases hp : pfx P (a.drop i ++ b) with
  | false => rfl
  | true =>
    exfalso
    have := pfx_take_both (a.drop i) P b hp
    rw [List.length_drop] at this
    exact absurd this (by simp [h i hi])

/-! ### Matching and replacement lemmas -/

theorem isWsChar_sq : isWsChar sq = false := by decide

theorem isQuoteChar_sq : isQuoteChar sq = true := by decide

theorem dropWhile_append_all {p : Char → Bool} : ∀ (a b : Chars),
    (∀ c ∈ a, p c = true) → (a ++ b).dropWhile p = b.dropWhile p := by
  intro a
  induction a with
  | nil => intro b _; rfl
  | cons c cs ih =>
    intro b h
    have hc : p c = true := h c (List.mem_cons_self c cs)
    simp only [List.cons_append, List.dropWhile_cons, hc, if_true]
    exact ih b (fun d hd => h d (List.mem_cons_of_mem c hd))

theorem eatLit_self (P x : Chars) : eatLit P (P ++ x) = some x := by
  simp [eatLit, pfx_self_append, List.drop_left]

theorem eatLit_none {P s : Chars} (h : pfx P s = false) : eatLit P s = none := by
  simp [eatLit, h]

theorem defineMatch_none_of_not_define {K s : Chars}
    (h : pfx (lit ("define")) s = false) : defineMatch K s = none := by
  simp [defineMatch, eatLit_none h]

theorem defHit_false_iff {K s : Chars} : defHit K s = false ↔ defineMatch K s = none := by
  cases h : defineMatch K s <;> simp [defHit, h]

theorem defHit_imp_define {K : Chars} (s : Chars) (h : defHit K s = true) :
    pfx (lit ("define")) s = true := by
  cases hp : pfx (lit ("define")) s with
  | true => rfl
  | false =>
    rw [defHit, defineMatch_none_of_not_define hp] at h
    simp at h

theorem scanFree_defHit_of_define {K : Chars} {a b : Chars}
    (h : ScanFree (pfx (lit ("define"))) a b) : ScanFree (defHit K) a b :=
  scanFree_of_imp (fun s hs => defHit_imp_define s hs) h

theorem defineMatch_start (K Z : Chars) :
    defineMatch K ('d' :: 'e' :: 'f' :: 'i' :: 'n' :: 'e' :: '(' :: ' ' ::sq::Z) =
      ((eatLit K Z).bind fun s4 =>
       (eatQuote s4).bind fun s5 =>
       (eatChar ',' (eatWs s5)).bind fun s6 =>
       (eatQuote (eatWs s6)).bind fun s7 =>
       (eatQuote (eatValRun s7)).bind fun s8 =>
       eatChar ')' (eatWs s8)) := by
  simp [defineMatch, eatLit, eatWs, eatChar, eatQuote, pfx, isWsChar_sq,
    isQuoteChar_sq, lit, List.dropWhile_cons, (by decide : isWsChar '(' = false),
    (by decide : isWsChar ' ' = true)]

theorem defineMatch_at_quoted (K C tail : Chars)
    (hno : pfx (K.take C.length) C = false) :
    defineMatch K ('d' :: 'e' :: 'f' :: 'i' :: 'n' :: 'e' :: '(' :: ' ' ::sq::(C ++ tail)) = none := by
  rw [defineMatch_start]
  have hK : pfx K (C ++ tail) = false := by
    cases hp : pfx K (C ++ tail) with
    | false => rfl
    | true => exact absurd (pfx_take_both C K tail hp) (by simp [hno])
  simp [eatLit_none hK]

theorem replaceDefine_append {K r : Chars} : ∀ (a b : Chars),
    ScanFree (defHit K) a b → replaceDefine K r (a ++ b) = a ++ replaceDefine K r b := by
  intro a
  induction a with
  | nil => intro b _; rfl
  | cons c cs ih =>
    intro b h
    have h0 : defineMatch K (c :: cs ++ b) = none := by
      have := h 0 (by simp)
      simpa [defHit_false_iff] using this
    simp only [List.cons_append] at h0 ⊢
    rw [replaceDefine, h0, ih b (fun i hi => by simpa using h (i + 1) (by simpa using hi))]

theorem defineMatch_nil (K : Chars) : defineMatch K [] = none := by
  simp [defineMatch, eatLit, pfx]

theorem replaceDefine_fire {K r b rest : Chars} (h : defineMatch K b = some rest) :
    replaceDefine K r b = r ++ rest := by
  cases b with
  | nil => rw [defineMatch_nil] at h; cases h
  | cons c cs => simp [replaceDefine, h]

theorem replaceDefine_id {K r : Chars} : ∀ (s : Chars), ScanFreeAll (defHit K) s →
    replaceDefine K r s = s := by
  intro s
  induction s with
  | nil => intro _; rfl
  | cons c cs ih =>
    intro h
    have h0 : defineMatch K (c :: cs) = none := by
      have := h 0
      simpa [defHit_false_iff] using this
    rw [replaceDefine, h0, ih (fun i => by simpa using h (i + 1))]

theorem markerAt_nil : markerAt [] = false := by decide

theorem markerAt_of_not_slashstar {s : Chars} (h : pfx (lit ("/*")) s = false) :
    markerAt s = false := by
  simp [markerAt, h]

theorem markerAt_imp_slashstar (s : Chars) (h : markerAt s = true) :
    pfx (lit ("/*")) s = true := by
  cases hp : pfx (lit ("/*")) s with
  | true => rfl
  | false => rw [markerAt_of_not_slashstar hp] at h; cases h

theorem scanFree_markerAt_of_slashstar {a b : Chars}
    (h : ScanFree (pfx (lit ("/*"))) a b) : ScanFree markerAt a b :=
  scanFree_of_imp (fun s hs => markerAt_imp_slashstar s hs) h

theorem eatWs_concrete_head {c : Char} (hc : isWsChar c = false) (x : Chars) :
    eatWs (c :: x) = c :: x := by
  simp [eatWs, List.dropWhile_cons, hc]

theorem markerAt_markerChars (rest : Chars) : markerAt (markerChars ++ rest) = true := by
  have h1 : pfx (lit ("/*")) (markerChars ++ rest) = true :=
    pfx_mono_append (by decide) rest
  have hd : markerChars.drop 2 = ' ' :: (thatsAll ++ lit (" Happy publishing. */")) := by
    decide
  have h2 : (markerChars ++ rest).drop 2 =
      ' ' :: (thatsAll ++ (lit (" Happy publishing. */") ++ rest)) := by
    rw [List.drop_append_of_le_length (by decide), hd]
    simp [List.append_assoc]
  have h3 : eatWs ((markerChars ++ rest).drop 2) =
      thatsAll ++ (lit (" Happy publishing. */") ++ rest) := by
    rw [h2]
    have : eatWs (' ' :: (thatsAll ++ (lit (" Happy publishing. */") ++ rest))) =
        eatWs (thatsAll ++ (lit (" Happy publishing. */") ++ rest)) := by
      simp [eatWs, List.dropWhile_cons, (by decide : isWsChar ' ' = true)]
    rw [this]
    rw [show thatsAll = 'T' :: thatsAll.tail from by decide]
    simp only [List.cons_append]
    exact eatWs_concrete_head (by decide) _
  simp [markerAt, h1, h3, pfx_self_append]

theorem replaceToEnd_append {r : Chars} : ∀ (a b : Chars), ScanFree markerAt a b →
    replaceToEnd r (a ++ b) = a ++ replaceToEnd r b := by
  intro a
  induction a with
  | nil => intro b _; rfl
  | cons c cs ih =>
    intro b h
    have h0 : markerAt (c :: cs ++ b) = false := by simpa using h 0 (by simp)
    simp only [List.cons_append] at h0 ⊢
    rw [replaceToEnd, if_neg (by simp [h0]),
      ih b (fun i hi => by simpa using h (i + 1) (by simpa using hi))]

theorem replaceToEnd_fire {r b : Chars} (h : markerAt b = true) : replaceToEnd r b = r := by
  cases b with
  | nil => rw [markerAt_nil] at h; cases h
  | cons c cs => simp [replaceToEnd, h]

/-! ### Line-level matching lemmas -/

theorem defineRepl_cons (K w : Chars) (tail : Chars) :
    defineRepl K w ++ tail =
      'd' :: 'e' :: 'f' :: 'i' :: 'n' :: 'e' :: '(' :: ' ' ::sq::
        (K ++ ([sq] ++ (',' :: ' ' ::sq:: (w ++ ([sq] ++ (' ' :: ')' :: tail)))))) := by
  simp only [defineRepl,
    show lit ("define( ") = ['d','e','f','i','n','e','(',' '] from by decide,
    show lit (", ") = [',',' '] from by decide,
    show lit (" )") = [' ',')'] from by decide]
  simp [List.append_assoc]

theorem defineMatch_defineRepl_self (K w tail : Chars)
    (hw : w.all (fun c => !isQuoteChar c) = true) :
    defineMatch K (defineRepl K w ++ tail) = some tail := by
  rw [defineRepl_cons, defineMatch_start, eatLit_self]
  have hrun : eatValRun (w ++ sq :: ' ' :: ')' :: tail) = sq :: ' ' :: ')' :: tail := by
    unfold eatValRun
    rw [dropWhile_append_all w _ (by simpa [List.all_eq_true] using hw)]
    simp [List.dropWhile_cons, isQuoteChar_sq]
  simp [eatQuote, eatChar, eatWs, List.dropWhile_cons, isQuoteChar_sq, isWsChar_sq, hrun,
    (by decide : isWsChar ',' = false), (by decide : isWsChar ' ' = true),
    (by decide : isWsChar ')' = false)]

theorem defineMatch_defineRepl_ne (K K2 w tail : Chars)
    (hno : pfx (K.take (K2 ++ [sq] ++ [',',' ',sq]).length) (K2 ++ [sq] ++ [',',' ',sq]) =
      false) :
    defineMatch K (defineRepl K2 w ++ tail) = none := by
  rw [defineRepl_cons]
  have hsplit : K2 ++ ([sq] ++ (',' :: ' ' ::sq:: (w ++ ([sq] ++ (' ' :: ')' :: tail))))) =
      (K2 ++ [sq] ++ [',',' ',sq]) ++ (w ++ ([sq] ++ (' ' :: ')' :: tail))) := by
    simp [List.append_assoc]
  rw [hsplit]
  exact defineMatch_at_quoted K _ _ hno

theorem dbgLine_cons (name : Chars) (b : Bool) (tail : Chars) :
    dbgLine name b ++ tail =
      'd' :: 'e' :: 'f' :: 'i' :: 'n' :: 'e' :: '(' :: ' ' ::sq::
        ((name ++ [sq] ++ [',',' ']) ++ (boolChars b ++ (' ' :: ')' :: ';' :: tail))) := by
  simp only [dbgLine,
    show lit ("define( ") = ['d','e','f','i','n','e','(',' '] from by decide,
    show lit (", ") = [',',' '] from by decide,
    show lit (" );") = [' ',')',';'] from by decide]
  simp [List.append_assoc]

theorem defineMatch_dbgLine_ne (K name : Chars) (b : Bool) (tail : Chars)
    (hno : pfx (K.take (name ++ [sq] ++ [',',' ']).length) (name ++ [sq] ++ [',',' ']) =
      false) :
    defineMatch K (dbgLine name b ++ tail) = none := by
  rw [dbgLine_cons]
  exact defineMatch_at_quoted K _ _ hno

theorem memLine_eq_defineRepl (v : Chars) :
    memLine v = defineRepl (lit ("WP_MEMORY_LIMIT")) v ++ [';'] := by
  simp only [memLine, defineRepl]
  simp [List.append_assoc,
    show lit (" );") = lit (" )") ++ [';'] from by decide]

theorem scanFree_cons {f : Chars → Bool} {c : Char} {a b : Chars}
    (h0 : f ((c :: a) ++ b) = false) (h1 : ScanFree f a b) : ScanFree f (c :: a) b := by
  intro i hi
  cases i with
  | zero => simpa using h0
  | succ j => simpa using h1 j (by simpa using hi)

theorem scanFree_via_contains (P v b : Chars) (χ : Char)
    (hin : containsSub P v = false) (hP : P ≠ [])
    (hb : b.head? = some χ) (hχ : χ ∉ P) : ScanFree (pfx P) v b :=
  scanFree_pfx_boundary P v b χ ((containsSub_iff_scanFreeAll P v hP).mp hin) hb hχ

theorem defineRepl_app_cons (K2 w tail2 : Chars) :
    defineRepl K2 w ++ tail2 =
      'd' :: (['e','f','i','n','e','(',' ',sq] ++
        (K2 ++ ([sq,',',' ',sq] ++ (w ++ ([sq,' ',')'] ++ tail2))))) := by
  rw [defineRepl_cons]
  simp [List.append_assoc]

/-- Scan-freedom of a full `define( 'K2', 'w' )<tail2>` region for the key
`K` whose definition it is not, with the whole region followed by
`rest`. -/
theorem scanFree_defHit_defineRepl_app (K K2 w tail2 : Chars) (rest : Chars)
    (hno : pfx (K.take (K2 ++ [sq] ++ [',',' ',sq]).length) (K2 ++ [sq] ++ [',',' ',sq]) =
      false)
    (hK2 : containsSub (lit ("define")) K2 = false)
    (hw : containsSub (lit ("define")) w = false)
    (htail2 : ScanFree (pfx (lit ("define"))) tail2 rest) :
    ScanFree (defHit K) (defineRepl K2 w ++ tail2) rest := by
  rw [defineRepl_app_cons]
  apply scanFree_cons
  · have h1 : ('d' :: (['e','f','i','n','e','(',' ',sq] ++
        (K2 ++ ([sq,',',' ',sq] ++ (w ++ ([sq,' ',')'] ++ tail2)))))) ++ rest =
        defineRepl K2 w ++ (tail2 ++ rest) := by
      rw [defineRepl_app_cons]
      simp [List.append_assoc]
    rw [h1, defHit_false_iff]
    exact defineMatch_defineRepl_ne K K2 w (tail2 ++ rest) hno
  · apply scanFree_defHit_of_define
    apply scanFree_append (by exact scanFree_pfx_concrete _ _ _ (by decide))
    apply scanFree_append (scanFree_via_contains _ _ _ sq hK2 (by decide) (by simp)
      (by decide))
    apply scanFree_append (by exact scanFree_pfx_concrete _ _ _ (by decide))
    apply scanFree_append (scanFree_via_contains _ _ _ sq hw (by decide) (by simp)
      (by decide))
    apply scanFree_append (by exact scanFree_pfx_concrete _ _ _ (by decide))
    exact htail2

theorem defLineS_app (K2 w tail : Chars) :
    defLineS K2 w ++ tail = defineRepl K2 w ++ ([';','\n'] ++ tail) := by
  simp [defLineS, List.append_assoc, show lit (";\n") = [';','\n'] from by decide]

/-- Scan-freedom of a whole sample configuration line for a different
key. -/
theorem scanFree_defHit_defLineS (K K2 w : Chars) (rest : Chars)
    (hno : pfx (K.take (K2 ++ [sq] ++ [',',' ',sq]).length) (K2 ++ [sq] ++ [',',' ',sq]) =
      false)
    (hK2 : containsSub (lit ("define")) K2 = false)
    (hw : containsSub (lit ("define")) w = false) :
    ScanFree (defHit K) (defLineS K2 w) rest := by
  have h : defLineS K2 w = defineRepl K2 w ++ [';','\n'] := by
    simpa using defLineS_app K2 w []
  rw [h]
  exact scanFree_defHit_defineRepl_app K K2 w [';','\n'] rest hno hK2 hw
    (scanFree_pfx_concrete _ _ _ (by decide))

/-- Scan-freedom of a `define( 'NAME', <bool> );` line for a key `K`
that is not `NAME`. -/
theorem scanFree_defHit_dbgLine (K name : Chars) (b : Bool) (rest : Chars)
    (hno : pfx (K.take (name ++ [sq] ++ [',',' ']).length) (name ++ [sq] ++ [',',' ']) =
      false)
    (hname : containsSub (lit ("define")) name = false) :
    ScanFree (defHit K) (dbgLine name b) rest := by
  have h : dbgLine name b = 'd' :: (['e','f','i','n','e','(',' ',sq] ++
      (name ++ ([sq,',',' '] ++ (boolChars b ++ [' ',')',';'])))) := by
    have := dbgLine_cons name b []
    simpa [List.append_assoc] using this
  rw [h]
  apply scanFree_cons
  · have h1 : ('d' :: (['e','f','i','n','e','(',' ',sq] ++
        (name ++ ([sq,',',' '] ++ (boolChars b ++ [' ',')',';']))))) ++ rest =
        dbgLine name b ++ rest := by rw [h]
    rw [h1, defHit_false_iff]
    exact defineMatch_dbgLine_ne K name b rest hno
  · apply scanFree_defHit_of_define
    apply scanFree_append (by exact scanFree_pfx_concrete _ _ _ (by decide))
    apply scanFree_append (scanFree_via_contains _ _ _ sq hname (by decide) (by simp)
      (by decide))
    apply scanFree_append (by exact scanFree_pfx_concrete _ _ _ (by decide))
    apply scanFree_append (a := boolChars b)
      (by cases b <;> exact scanFree_pfx_concrete _ _ _ (by decide))
    exact scanFree_pfx_concrete _ _ _ (by decide)

/-! ### Pattern extension and whole-string scans -/

theorem pfx_of_append_pfx : ∀ (P Q s : Chars), pfx (P ++ Q) s = true → pfx P s = true := by
  intro P
  induction P with
  | nil => intro Q s _; rfl
  | cons a as ih =>
    intro Q s h
    cases s with
    | nil => exact absurd h (by simp [pfx])
    | cons b bs =>
      simp only [List.cons_append, pfx, Bool.and_eq_true, decide_eq_true_eq] at h
      simp [pfx, h.1, ih Q bs h.2]

theorem pfx_refl (P : Chars) : pfx P P = true := by
  simpa using pfx_self_append P []

theorem scanFree_ext {P a b : Chars} (Q : Chars) (h : ScanFree (pfx P) a b) :
    ScanFree (pfx (P ++ Q)) a b :=
  scanFree_of_imp (fun s hs => pfx_of_append_pfx P Q s hs) h

theorem scanFreeAll_of_imp {f g : Chars → Bool} {s : Chars}
    (himp : ∀ t, g t = true → f t = true) (h : ScanFreeAll f s) : ScanFreeAll g s := by
  intro i
  cases hg : g (s.drop i) with
  | false => rfl
  | true => exact absurd (himp _ hg) (by simp [h i])

theorem scanFreeAll_ext {P s : Chars} (Q : Chars) (h : ScanFreeAll (pfx P) s) :
    ScanFreeAll (pfx (P ++ Q)) s :=
  scanFreeAll_of_imp (fun t ht => pfx_of_append_pfx P Q t ht) h

theorem scanFreeAll_append {f : Chars → Bool} {a b : Chars}
    (h1 : ScanFree f a b) (h2 : ScanFreeAll f b) : ScanFreeAll f (a ++ b) := by
  intro i
  by_cases hia : i < a.length
  · rw [List.drop_append_of_le_length (Nat.le_of_lt hia)]
    exact h1 i hia
  · obtain ⟨j, rfl⟩ := Nat.exists_eq_add_of_le (Nat.le_of_not_lt hia)
    have hdrop : (a ++ b).drop (a.length + j) = b.drop j := by
      simpa using @List.drop_append _ a b j
    rw [hdrop]
    exact h2 j

theorem scanFreeAll_defHit {K s : Chars} (h : ScanFreeAll (pfx (lit ("define"))) s) :
    ScanFreeAll (defHit K) s :=
  scanFreeAll_of_imp (fun t ht => defHit_imp_define t ht) h

theorem scanFreeAll_markerAt {s : Chars} (h : ScanFreeAll (pfx (lit ("/*"))) s) :
    ScanFreeAll markerAt s :=
  scanFreeAll_of_imp (fun t ht => markerAt_imp_slashstar t ht) h

theorem containsSub_at (P x y : Chars) (h : pfx P y = true) :
    containsSub P (x ++ y) = true :=
  containsSub_append_right P x y (containsSub_of_pfx P y h)

/-! ### Any define match contains its key -/

theorem sufTrans {a b c : Chars} (h1 : ∃ t, t ++ b = a) (h2 : ∃ t, t ++ c = b) :
    ∃ t, t ++ c = a := by
  obtain ⟨t1, rfl⟩ := h1
  obtain ⟨t2, rfl⟩ := h2
  exact ⟨t1 ++ t2, by simp⟩

theorem eatWs_suffix (s : Chars) : ∃ t, t ++ eatWs s = s :=
  ⟨s.takeWhile isWsChar, List.takeWhile_append_dropWhile isWsChar s⟩

theorem eatChar_suffix {c : Char} {s r : Chars} (h : eatChar c s = some r) :
    ∃ t, t ++ r = s := by
  cases s with
  | nil => cases h
  | cons d ds =>
    simp only [eatChar] at h
    by_cases hd : d = c
    · rw [if_pos hd] at h
      obtain rfl := Option.some.inj h
      exact ⟨[d], rfl⟩
    · rw [if_neg hd] at h; cases h

theorem eatQuote_suffix {s r : Chars} (h : eatQuote s = some r) : ∃ t, t ++ r = s := by
  cases s with
  | nil => cases h
  | cons d ds =>
    simp only [eatQuote] at h
    by_cases hd : isQuoteChar d = true
    · rw [if_pos hd] at h
      obtain rfl := Option.some.inj h
      exact ⟨[d], rfl⟩
    · rw [if_neg hd] at h; cases h

theorem eatLit_suffix {P s r : Chars} (h : eatLit P s = some r) : ∃ t, t ++ r = s := by
  simp only [eatLit] at h
  by_cases hp : pfx P s = true
  · rw [if_pos hp] at h
    obtain rfl := Option.some.inj h
    exact ⟨s.take P.length, List.take_append_drop _ _⟩
  · rw [if_neg hp] at h; cases h

/-- Wherever the define pattern for `K` matches, the key `K` itself
occurs as a substring. -/
theorem defineMatch_key_contains {K s r : Chars} (h : defineMatch K s = some r) :
    containsSub K s = true := by
  simp only [defineMatch, Option.bind_eq_some] at h
  obtain ⟨s1, h1, s2, h2, s3, h3, s4, h4, -⟩ := h
  have hpk : pfx K s3 = true := by
    cases hpf : pfx K s3 with
    | true => rfl
    | false => rw [eatLit_none hpf] at h4; cases h4
  have f1 : ∃ t, t ++ s1 = s := eatLit_suffix h1
  have f2 : ∃ t, t ++ eatWs s1 = s := sufTrans f1 (eatWs_suffix s1)
  have f3 : ∃ t, t ++ s2 = s := sufTrans f2 (eatChar_suffix h2)
  have f4 : ∃ t, t ++ eatWs s2 = s := sufTrans f3 (eatWs_suffix s2)
  have f5 : ∃ t, t ++ s3 = s := sufTrans f4 (eatQuote_suffix h3)
  obtain ⟨t, rfl⟩ := f5
  exact containsSub_at K t s3 hpk

theorem defHit_some {K s : Chars} (hd : defHit K s = true) :
    ∃ r, defineMatch K s = some r := by
  cases hm : defineMatch K s with
  | none => simp [defHit, hm] at hd
  | some r => exact ⟨r, rfl⟩

/-- The define scan for `K` never hits inside `a` when `K` occurs
nowhere in `a ++ b`. -/
theorem scanFree_defHit_of_no_key {K : Chars} (a b : Chars)
    (h : containsSub K (a ++ b) = false) : ScanFree (defHit K) a b := by
  intro i hi
  cases hd : defHit K (a.drop i ++ b) with
  | false => rfl
  | true =>
    exfalso
    obtain ⟨r, hr⟩ := defHit_some hd
    have hc := defineMatch_key_contains hr
    have h2 : containsSub K (a ++ b) = true := by
      have h3 : a ++ b = a.take i ++ (a.drop i ++ b) := by
        rw [← List.append_assoc, List.take_append_drop]
      rw [h3]
      exact containsSub_append_right _ _ _ hc
    rw [h] at h2; cases h2

theorem scanFreeAll_defHit_of_no_key {K s : Chars} (h : containsSub K s = false) :
    ScanFreeAll (defHit K) s := by
  intro i
  cases hd : defHit K (s.drop i) with
  | false => rfl
  | true =>
    exfalso
    obtain ⟨r, hr⟩ := defHit_some hd
    have hc := defineMatch_key_contains hr
    have h2 := containsSub_append_right K (s.take i) (s.drop i) hc
    rw [List.take_append_drop] at h2
    rw [h] at h2; cases h2

/-! ### Guard patterns over configuration lines -/

theorem scanFree_define_repl_tail (K2 w tail2 : Chars) (rest : Chars)
    (hK2 : containsSub (lit ("define")) K2 = false)
    (hw : containsSub (lit ("define")) w = false)
    (htail2 : ScanFree (pfx (lit ("define"))) tail2 rest) :
    ScanFree (pfx (lit ("define")))
      (['e','f','i','n','e','(',' ',sq] ++
        (K2 ++ ([sq,',',' ',sq] ++ (w ++ ([sq,' ',')'] ++ tail2))))) rest := by
  apply scanFree_append (by exact scanFree_pfx_concrete _ _ _ (by decide))
  apply scanFree_append (scanFree_via_contains _ _ _ sq hK2 (by decide) (by simp)
    (by decide))
  apply scanFree_append (by exact scanFree_pfx_concrete _ _ _ (by decide))
  apply scanFree_append (scanFree_via_contains _ _ _ sq hw (by decide) (by simp)
    (by decide))
  apply scanFree_append (by exact scanFree_pfx_concrete _ _ _ (by decide))
  exact htail2

theorem dbgGuard1_eq (name : Chars) :
    dbgGuard1 name = ['d','e','f','i','n','e','(',' ',sq] ++ (name ++ [sq]) := by
  simp [dbgGuard1, List.append_assoc,
    show lit ("define( ") = ['d','e','f','i','n','e','(',' '] from by decide]

theorem dbgGuard2_eq (name : Chars) :
    dbgGuard2 name = ['d','e','f','i','n','e','(',' '] ++ (dq :: (name ++ [dq])) := by
  simp [dbgGuard2, List.append_assoc,
    show lit ("define( ") = ['d','e','f','i','n','e','(',' '] from by decide]

theorem dbgGuard1_define (name : Chars) :
    dbgGuard1 name = lit ("define") ++ (['(',' ',sq] ++ (name ++ [sq])) := by
  simp [dbgGuard1, List.append_assoc,
    show lit ("define( ") = lit ("define") ++ ['(',' '] from by decide]

theorem dbgGuard2_define (name : Chars) :
    dbgGuard2 name = lit ("define") ++ (['(',' ',dq] ++ (name ++ [dq])) := by
  simp [dbgGuard2, List.append_assoc,
    show lit ("define( ") = lit ("define") ++ ['(',' '] from by decide]

theorem pfx_guard1_repl_false (name K2 w tail : Chars)
    (hno : pfx ((name ++ [sq]).take (K2 ++ [sq,',',' ',sq]).length)
      (K2 ++ [sq,',',' ',sq]) = false) :
    pfx (dbgGuard1 name) (defineRepl K2 w ++ tail) = false := by
  have ht : defineRepl K2 w ++ tail =
      ['d','e','f','i','n','e','(',' ',sq] ++
        ((K2 ++ [sq,',',' ',sq]) ++ (w ++ ([sq,' ',')'] ++ tail))) := by
    rw [defineRepl_app_cons]
    simp [List.append_assoc]
  rw [dbgGuard1_eq, ht, pfx_strip]
  cases hp : pfx (name ++ [sq])
      ((K2 ++ [sq,',',' ',sq]) ++ (w ++ ([sq,' ',')'] ++ tail))) with
  | false => rfl
  | true =>
    exfalso
    have h2 := pfx_take_both (K2 ++ [sq,',',' ',sq]) (name ++ [sq]) _ hp
    rw [hno] at h2; cases h2

theorem pfx_guard2_repl_false (name K2 w tail : Chars) :
    pfx (dbgGuard2 name) (defineRepl K2 w ++ tail) = false := by
  have ht : defineRepl K2 w ++ tail =
      ['d','e','f','i','n','e','(',' '] ++
        (sq :: (K2 ++ ([sq,',',' ',sq] ++ (w ++ ([sq,' ',')'] ++ tail))))) := by
    rw [defineRepl_app_cons]
    simp [List.append_assoc]
  rw [dbgGuard2_eq, ht, pfx_strip]
  have hne : dq ≠ sq := by decide
  simp [pfx, hne]

theorem scanFree_guard1_of_define {name : Chars} {a b : Chars}
    (h : ScanFree (pfx (lit ("define"))) a b) :
    ScanFree (pfx (dbgGuard1 name)) a b := by
  rw [dbgGuard1_define]
  exact scanFree_ext _ h

theorem scanFree_guard2_of_define {name : Chars} {a b : Chars}
    (h : ScanFree (pfx (lit ("define"))) a b) :
    ScanFree (pfx (dbgGuard2 name)) a b := by
  rw [dbgGuard2_define]
  exact scanFree_ext _ h

theorem scanFree_guard1_defLineS (name K2 w : Chars) (rest : Chars)
    (hno : pfx ((name ++ [sq]).take (K2 ++ [sq,',',' ',sq]).length)
      (K2 ++ [sq,',',' ',sq]) = false)
    (hK2 : containsSub (lit ("define")) K2 = false)
    (hw : containsSub (lit ("define")) w = false) :
    ScanFree (pfx (dbgGuard1 name)) (defLineS K2 w) rest := by
  have h : defLineS K2 w = 'd' :: (['e','f','i','n','e','(',' ',sq] ++
      (K2 ++ ([sq,',',' ',sq] ++ (w ++ ([sq,' ',')'] ++ [';','\n']))))) := by
    rw [show defLineS K2 w = defineRepl K2 w ++ [';','\n'] from by
      simpa using defLineS_app K2 w []]
    exact defineRepl_app_cons K2 w [';','\n']
  rw [h]
  apply scanFree_cons
  · have h1 : ('d' :: (['e','f','i','n','e','(',' ',sq] ++
        (K2 ++ ([sq,',',' ',sq] ++ (w ++ ([sq,' ',')'] ++ [';','\n'])))))) ++ rest =
        defineRepl K2 w ++ ([';','\n'] ++ rest) := by
      rw [defineRepl_app_cons]
      simp [List.append_assoc]
    rw [h1]
    exact pfx_guard1_repl_false name K2 w ([';','\n'] ++ rest) hno
  · exact scanFree_guard1_of_define (scanFree_define_repl_tail K2 w [';','\n'] rest hK2 hw
      (scanFree_pfx_concrete _ _ _ (by decide)))

theorem scanFree_guard2_defLineS (name K2 w : Chars) (rest : Chars)
    (hK2 : containsSub (lit ("define")) K2 = false)
    (hw : containsSub (lit ("define")) w = false) :
    ScanFree (pfx (dbgGuard2 name)) (defLineS K2 w) rest := by
  have h : defLineS K2 w = 'd' :: (['e','f','i','n','e','(',' ',sq] ++
      (K2 ++ ([sq,',',' ',sq] ++ (w ++ ([sq,' ',')'] ++ [';','\n']))))) := by
    rw [show defLineS K2 w = defineRepl K2 w ++ [';','\n'] from by
      simpa using defLineS_app K2 w []]
    exact defineRepl_app_cons K2 w [';','\n']
  rw [h]
  apply scanFree_cons
  · have h1 : ('d' :: (['e','f','i','n','e','(',' ',sq] ++
        (K2 ++ ([sq,',',' ',sq] ++ (w ++ ([sq,' ',')'] ++ [';','\n'])))))) ++ rest =
        defineRepl K2 w ++ ([';','\n'] ++ rest) := by
      rw [defineRepl_app_cons]
      simp [List.append_assoc]
    rw [h1]
    exact pfx_guard2_repl_false name K2 w ([';','\n'] ++ rest)
  · exact scanFree_guard2_of_define (scanFree_define_repl_tail K2 w [';','\n'] rest hK2 hw
      (scanFree_pfx_concrete _ _ _ (by decide)))

theorem guard1_pfx_dbgLine (name : Chars) (b : Bool) (tail : Chars) :
    pfx (dbgGuard1 name) (dbgLine name b ++ tail) = true := by
  have ht : dbgLine name b ++ tail =
      ['d','e','f','i','n','e','(',' ',sq] ++
        (name ++ ([sq] ++ ([',',' '] ++ (boolChars b ++ (' ' :: ')' :: ';' :: tail))))) := by
    rw [dbgLine_cons]
    simp [List.append_assoc]
  rw [dbgGuard1_eq, ht, pfx_strip, pfx_strip]
  exact pfx_self_append _ _

theorem guard1_pfx_defineRepl (K2 w tail : Chars) :
    pfx (dbgGuard1 K2) (defineRepl K2 w ++ tail) = true := by
  have ht : defineRepl K2 w ++ tail =
      ['d','e','f','i','n','e','(',' ',sq] ++
        (K2 ++ ([sq] ++ ([',',' ',sq] ++ (w ++ ([sq,' ',')'] ++ tail))))) := by
    rw [defineRepl_app_cons]
    simp [List.append_assoc]
  rw [dbgGuard1_eq, ht, pfx_strip, pfx_strip]
  exact pfx_self_append _ _

/-! ### Generic pattern scans over the line shapes -/

theorem scanFree_pat_repl (P K2 w tail2 : Chars) (rest : Chars) (hP : P ≠ [])
    (hsq : sq ∉ P)
    (hK2 : containsSub P K2 = false) (hw : containsSub P w = false)
    (hc1 : ∀ i, i < 9 →
      pfx (P.take (9 - i)) ((['d','e','f','i','n','e','(',' ',sq] : Chars).drop i) = false)
    (hc2 : ∀ i, i < 4 → pfx (P.take (4 - i)) (([sq,',',' ',sq] : Chars).drop i) = false)
    (hc3 : ∀ i, i < 3 → pfx (P.take (3 - i)) (([sq,' ',')'] : Chars).drop i) = false)
    (htail2 : ScanFree (pfx P) tail2 rest) :
    ScanFree (pfx P) (defineRepl K2 w ++ tail2) rest := by
  have h : defineRepl K2 w ++ tail2 = ['d','e','f','i','n','e','(',' ',sq] ++
      (K2 ++ ([sq,',',' ',sq] ++ (w ++ ([sq,' ',')'] ++ tail2)))) := by
    rw [defineRepl_app_cons]
    simp [List.append_assoc]
  rw [h]
  apply scanFree_append (scanFree_pfx_concrete P (['d','e','f','i','n','e','(',' ',sq]) _ hc1)
  apply scanFree_append (scanFree_via_contains _ _ _ sq hK2 hP (by simp) hsq)
  apply scanFree_append (scanFree_pfx_concrete P ([sq,',',' ',sq]) _ hc2)
  apply scanFree_append (scanFree_via_contains _ _ _ sq hw hP (by simp) hsq)
  apply scanFree_append (scanFree_pfx_concrete P ([sq,' ',')']) _ hc3)
  exact htail2

theorem scanFree_pat_defLineS (P K2 w : Chars) (rest : Chars) (hP : P ≠ [])
    (hsq : sq ∉ P)
    (hK2 : containsSub P K2 = false) (hw : containsSub P w = false)
    (hc1 : ∀ i, i < 9 →
      pfx (P.take (9 - i)) ((['d','e','f','i','n','e','(',' ',sq] : Chars).drop i) = false)
    (hc2 : ∀ i, i < 4 → pfx (P.take (4 - i)) (([sq,',',' ',sq] : Chars).drop i) = false)
    (hc3 : ∀ i, i < 3 → pfx (P.take (3 - i)) (([sq,' ',')'] : Chars).drop i) = false)
    (hc4 : ∀ i, i < 2 → pfx (P.take (2 - i)) (([';','\n'] : Chars).drop i) = false) :
    ScanFree (pfx P) (defLineS K2 w) rest := by
  rw [show defLineS K2 w = defineRepl K2 w ++ [';','\n'] from by
    simpa using defLineS_app K2 w []]
  exact scanFree_pat_repl P K2 w [';','\n'] rest hP hsq hK2 hw hc1 hc2 hc3
    (scanFree_pfx_concrete P ([';','\n']) _ hc4)

theorem scanFree_pat_dbgLine (P name : Chars) (b : Bool) (rest : Chars)
    (hT : ∀ i, i < (dbgLine name true).length →
      pfx (P.take ((dbgLine name true).length - i)) ((dbgLine name true).drop i) = false)
    (hF : ∀ i, i < (dbgLine name false).length →
      pfx (P.take ((dbgLine name false).length - i)) ((dbgLine name false).drop i) = false) :
    ScanFree (pfx P) (dbgLine name b) rest := by
  cases b
  · exact scanFree_pfx_concrete _ _ _ hF
  · exact scanFree_pfx_concrete _ _ _ hT

theorem scanFree_pat_tpLine (P tp : Chars) (rest : Chars) (hP : P ≠ []) (hsq : sq ∉ P)
    (htp : containsSub P tp = false)
    (hc1 : ∀ i, i < 17 → pfx (P.take (17 - i))
      (((lit ("$table_prefix = ")) ++ [sq]).drop i) = false)
    (hc2 : ∀ i, i < 4 → pfx (P.take (4 - i)) (([sq,';','\n','\n'] : Chars).drop i) = false) :
    ScanFree (pfx P) (tpLine tp) rest := by
  have h : tpLine tp = (lit ("$table_prefix = ") ++ [sq]) ++ (tp ++ [sq,';','\n','\n']) := by
    simp [tpLine, List.append_assoc, show lit (";\n\n") = [';','\n','\n'] from by decide]
  rw [h]
  apply scanFree_append (scanFree_pfx_concrete P (lit ("$table_prefix = ") ++ [sq]) _ hc1)
  apply scanFree_append (scanFree_via_contains _ _ _ sq htp hP (by simp) hsq)
  exact scanFree_pfx_concrete P ([sq,';','\n','\n']) _ hc2

/-! ### Extractors for the well-formedness bundles -/

theorem cleanVal_quoteFree {v : Chars} (h : cleanVal v = true) :
    v.all (fun c => !isQuoteChar c) = true := by
  simp only [cleanVal, Bool.and_eq_true] at h
  have h1 := h.1.1.1.1.1
  simp only [List.all_eq_true, Bool.and_eq_true] at h1 ⊢
  intro c hc
  exact (h1 c hc).1

theorem cleanVal_define {v : Chars} (h : cleanVal v = true) :
    containsSub (lit ("define")) v = false := by
  simp only [cleanVal, Bool.and_eq_true, Bool.not_eq_true'] at h
  exact h.1.1.1.1.2

theorem cleanVal_slashstar {v : Chars} (h : cleanVal v = true) :
    containsSub (lit ("/*")) v = false := by
  simp only [cleanVal, Bool.and_eq_true, Bool.not_eq_true'] at h
  exact h.1.1.1.2

theorem cleanVal_auth {v : Chars} (h : cleanVal v = true) :
    containsSub (lit ("AUTH_KEY")) v = false := by
  simp only [cleanVal, Bool.and_eq_true, Bool.not_eq_true'] at h
  exact h.1.1.2

theorem cleanVal_req {v : Chars} (h : cleanVal v = true) :
    containsSub (lit ("require_once(")) v = false := by
  simp only [cleanVal, Bool.and_eq_true, Bool.not_eq_true'] at h
  exact h.1.2

theorem cleanVal_tp {v : Chars} (h : cleanVal v = true) :
    containsSub (lit ("$table_prefix")) v = false := by
  simp only [cleanVal, Bool.and_eq_true, Bool.not_eq_true'] at h
  exact h.2

theorem cleanSalts_auth {s : Chars} (h : cleanSalts s = true) :
    containsSub (lit ("AUTH_KEY")) s = true := by
  simp only [cleanSalts, Bool.and_eq_true] at h
  exact h.1.1.1.1.1.1.1.1.1.1

theorem cleanSalts_slashstar {s : Chars} (h : cleanSalts s = true) :
    containsSub (lit ("/*")) s = false := by
  simp only [cleanSalts, Bool.and_eq_true, Bool.not_eq_true'] at h
  exact h.1.1.1.1.1.1.1.1.1.2

theorem cleanSalts_req {s : Chars} (h : cleanSalts s = true) :
    containsSub (lit ("require_once(")) s = false := by
  simp only [cleanSalts, Bool.and_eq_true, Bool.not_eq_true'] at h
  exact h.1.1.1.1.1.1.1.1.2

theorem cleanSalts_key {s : Chars} (h : cleanSalts s = true) :
    ∀ K ∈ sevenKeys, containsSub K s = false := by
  simp only [cleanSalts, Bool.and_eq_true, Bool.not_eq_true'] at h
  have h4 := h.1.1.1.1.1.1.1.2
  simp only [List.all_eq_true, Bool.not_eq_true'] at h4
  exact h4

theorem cleanSalts_guard {s : Chars} (h : cleanSalts s = true) :
    guardPresent (lit ("WP_DEBUG")) s = false ∧
    guardPresent (lit ("WP_DEBUG_LOG")) s = false ∧
    guardPresent (lit ("WP_DEBUG_DISPLAY")) s = false ∧
    guardPresent (lit ("SCRIPT_DEBUG")) s = false ∧
    guardPresent (lit ("SAVEQUERIES")) s = false ∧
    guardPresent (lit ("DISALLOW_FILE_EDIT")) s = false ∧
    guardPresent (lit ("WP_MEMORY_LIMIT")) s = false := by
  simp only [cleanSalts, Bool.and_eq_true, Bool.not_eq_true'] at h
  exact ⟨h.1.1.1.1.1.1.2, h.1.1.1.1.1.2, h.1.1.1.1.2, h.1.1.1.2,
    h.1.1.2, h.1.2, h.2⟩

theorem guardPresent_false_iff {name w : Chars} :
    guardPresent name w = false ↔
      containsSub (dbgGuard1 name) w = false ∧ containsSub (dbgGuard2 name) w = false := by
  simp [guardPresent]

/-! ### Scan bundles over the configuration head -/

theorem scanFreeAll_pat_cfgHeadR (P n u pw hc ch co tp rest : Chars)
    (hP : P ≠ []) (hsq : sq ∉ P)
    (hn : containsSub P n = false) (hu : containsSub P u = false)
    (hpw : containsSub P pw = false) (hhc : containsSub P hc = false)
    (hch : containsSub P ch = false) (hco : containsSub P co = false)
    (htp : containsSub P tp = false)
    (hH : ∀ i, i < 6 → pfx (P.take (6 - i)) ((lit ("<?php\n")).drop i) = false)
    (hc1 : ∀ i, i < 9 →
      pfx (P.take (9 - i)) ((['d','e','f','i','n','e','(',' ',sq] : Chars).drop i) = false)
    (hc2 : ∀ i, i < 4 → pfx (P.take (4 - i)) (([sq,',',' ',sq] : Chars).drop i) = false)
    (hc3 : ∀ i, i < 3 → pfx (P.take (3 - i)) (([sq,' ',')'] : Chars).drop i) = false)
    (hc4 : ∀ i, i < 2 → pfx (P.take (2 - i)) (([';','\n'] : Chars).drop i) = false)
    (ht1 : ∀ i, i < 17 → pfx (P.take (17 - i))
      (((lit ("$table_prefix = ")) ++ [sq]).drop i) = false)
    (ht2 : ∀ i, i < 4 → pfx (P.take (4 - i)) (([sq,';','\n','\n'] : Chars).drop i) = false)
    (hkeys : ∀ K2 ∈ sevenKeys.take 6, containsSub P K2 = false)
    (hrest : ScanFreeAll (pfx P) rest) :
    ScanFreeAll (pfx P) (cfgHeadR n u pw hc ch co tp rest) := by
  unfold cfgHeadR
  apply scanFreeAll_append (scanFree_pfx_concrete P (lit ("<?php\n")) _ hH)
  apply scanFreeAll_append
    (scanFree_pat_defLineS P (lit ("DB_NAME")) n _ hP hsq (hkeys _ (by decide)) hn hc1 hc2 hc3 hc4)
  apply scanFreeAll_append
    (scanFree_pat_defLineS P (lit ("DB_USER")) u _ hP hsq (hkeys _ (by decide)) hu hc1 hc2 hc3 hc4)
  apply scanFreeAll_append
    (scanFree_pat_defLineS P (lit ("DB_PASSWORD")) pw _ hP hsq (hkeys _ (by decide)) hpw hc1 hc2 hc3 hc4)
  apply scanFreeAll_append
    (scanFree_pat_defLineS P (lit ("DB_HOST")) hc _ hP hsq (hkeys _ (by decide)) hhc hc1 hc2 hc3 hc4)
  apply scanFreeAll_append
    (scanFree_pat_defLineS P (lit ("DB_CHARSET")) ch _ hP hsq (hkeys _ (by decide)) hch hc1 hc2 hc3 hc4)
  apply scanFreeAll_append
    (scanFree_pat_defLineS P (lit ("DB_COLLATE")) co _ hP hsq (hkeys _ (by decide)) hco hc1 hc2 hc3 hc4)
  apply scanFreeAll_append (scanFree_pat_tpLine P tp _ hP hsq htp ht1 ht2)
  exact hrest

theorem scanFreeAll_guard1_cfgHeadR (name n u pw hc ch co tp rest : Chars)
    (hno : ∀ K2 ∈ sevenKeys.take 6,
      pfx ((name ++ [sq]).take (K2 ++ [sq,',',' ',sq]).length) (K2 ++ [sq,',',' ',sq]) =
        false)
    (hn : containsSub (lit ("define")) n = false)
    (hu : containsSub (lit ("define")) u = false)
    (hpw : containsSub (lit ("define")) pw = false)
    (hhc : containsSub (lit ("define")) hc = false)
    (hch : containsSub (lit ("define")) ch = false)
    (hco : containsSub (lit ("define")) co = false)
    (htp : containsSub (lit ("define")) tp = false)
    (hrest : ScanFreeAll (pfx (dbgGuard1 name)) rest) :
    ScanFreeAll (pfx (dbgGuard1 name)) (cfgHeadR n u pw hc ch co tp rest) := by
  unfold cfgHeadR
  apply scanFreeAll_append
    (scanFree_guard1_of_define (scanFree_pfx_concrete _ (lit ("<?php\n")) _ (by decide)))
  apply scanFreeAll_append
    (scanFree_guard1_defLineS name (lit ("DB_NAME")) n _ (hno _ (by decide)) (by decide) hn)
  apply scanFreeAll_append
    (scanFree_guard1_defLineS name (lit ("DB_USER")) u _ (hno _ (by decide)) (by decide) hu)
  apply scanFreeAll_append
    (scanFree_guard1_defLineS name (lit ("DB_PASSWORD")) pw _ (hno _ (by decide)) (by decide) hpw)
  apply scanFreeAll_append
    (scanFree_guard1_defLineS name (lit ("DB_HOST")) hc _ (hno _ (by decide)) (by decide) hhc)
  apply scanFreeAll_append
    (scanFree_guard1_defLineS name (lit ("DB_CHARSET")) ch _ (hno _ (by decide)) (by decide) hch)
  apply scanFreeAll_append
    (scanFree_guard1_defLineS name (lit ("DB_COLLATE")) co _ (hno _ (by decide)) (by decide) hco)
  apply scanFreeAll_append (scanFree_guard1_of_define
    (scanFree_pat_tpLine _ tp _ (by decide) (by decide) htp (by decide) (by decide)))
  exact hrest

theorem scanFreeAll_guard2_cfgHeadR (name n u pw hc ch co tp rest : Chars)
    (hn : containsSub (lit ("define")) n = false)
    (hu : containsSub (lit ("define")) u = false)
    (hpw : containsSub (lit ("define")) pw = false)
    (hhc : containsSub (lit ("define")) hc = false)
    (hch : containsSub (lit ("define")) ch = false)
    (hco : containsSub (lit ("define")) co = false)
    (htp : containsSub (lit ("define")) tp = false)
    (hrest : ScanFreeAll (pfx (dbgGuard2 name)) rest) :
    ScanFreeAll (pfx (dbgGuard2 name)) (cfgHeadR n u pw hc ch co tp rest) := by
  unfold cfgHeadR
  apply scanFreeAll_append
    (scanFree_guard2_of_define (scanFree_pfx_concrete _ (lit ("<?php\n")) _ (by decide)))
  apply scanFreeAll_append (scanFree_guard2_defLineS name (lit ("DB_NAME")) n _ (by decide) hn)
  apply scanFreeAll_append (scanFree_guard2_defLineS name (lit ("DB_USER")) u _ (by decide) hu)
  apply scanFreeAll_append (scanFree_guard2_defLineS name (lit ("DB_PASSWORD")) pw _ (by decide) hpw)
  apply scanFreeAll_append (scanFree_guard2_defLineS name (lit ("DB_HOST")) hc _ (by decide) hhc)
  apply scanFreeAll_append (scanFree_guard2_defLineS name (lit ("DB_CHARSET")) ch _ (by decide) hch)
  apply scanFreeAll_append (scanFree_guard2_defLineS name (lit ("DB_COLLATE")) co _ (by decide) hco)
  apply scanFreeAll_append (scanFree_guard2_of_define
    (scanFree_pat_tpLine _ tp _ (by decide) (by decide) htp (by decide) (by decide)))
  exact hrest

theorem replaceToEnd_cfgHeadR (r n u pw hc ch co tp B : Chars)
    (hn : containsSub (lit ("/*")) n = false)
    (hu : containsSub (lit ("/*")) u = false)
    (hpw : containsSub (lit ("/*")) pw = false)
    (hhc : containsSub (lit ("/*")) hc = false)
    (hch : containsSub (lit ("/*")) ch = false)
    (hco : containsSub (lit ("/*")) co = false)
    (htp : containsSub (lit ("/*")) tp = false) :
    replaceToEnd r (cfgHeadR n u pw hc ch co tp B) =
      cfgHeadR n u pw hc ch co tp (replaceToEnd r B) := by
  unfold cfgHeadR
  rw [replaceToEnd_append _ _ (scanFree_markerAt_of_slashstar
    (scanFree_pfx_concrete _ (lit ("<?php\n")) _ (by decide)))]
  rw [replaceToEnd_append _ _ (scanFree_markerAt_of_slashstar
    (scanFree_pat_defLineS _ (lit ("DB_NAME")) n _ (by decide) (by decide) (by decide) hn
      (by decide) (by decide) (by decide) (by decide)))]
  rw [replaceToEnd_append _ _ (scanFree_markerAt_of_slashstar
    (scanFree_pat_defLineS _ (lit ("DB_USER")) u _ (by decide) (by decide) (by decide) hu
      (by decide) (by decide) (by decide) (by decide)))]
  rw [replaceToEnd_append _ _ (scanFree_markerAt_of_slashstar
    (scanFree_pat_defLineS _ (lit ("DB_PASSWORD")) pw _ (by decide) (by decide) (by decide) hpw
      (by decide) (by decide) (by decide) (by decide)))]
  rw [replaceToEnd_append _ _ (scanFree_markerAt_of_slashstar
    (scanFree_pat_defLineS _ (lit ("DB_HOST")) hc _ (by decide) (by decide) (by decide) hhc
      (by decide) (by decide) (by decide) (by decide)))]
  rw [replaceToEnd_append _ _ (scanFree_markerAt_of_slashstar
    (scanFree_pat_defLineS _ (lit ("DB_CHARSET")) ch _ (by decide) (by decide) (by decide) hch
      (by decide) (by decide) (by decide) (by decide)))]
  rw [replaceToEnd_append _ _ (scanFree_markerAt_of_slashstar
    (scanFree_pat_defLineS _ (lit ("DB_COLLATE")) co _ (by decide) (by decide) (by decide) hco
      (by decide) (by decide) (by decide) (by decide)))]
  rw [replaceToEnd_append _ _ (scanFree_markerAt_of_slashstar
    (scanFree_pat_tpLine _ tp _ (by decide) (by decide) htp (by decide) (by decide)))]

theorem scanFreeAll_defHit_cfgHeadR (K n u pw hc ch co tp rest : Chars)
    (hno : ∀ K2 ∈ sevenKeys.take 6,
      pfx (K.take (K2 ++ [sq] ++ [',',' ',sq]).length) (K2 ++ [sq] ++ [',',' ',sq]) = false)
    (hn : containsSub (lit ("define")) n = false)
    (hu : containsSub (lit ("define")) u = false)
    (hpw : containsSub (lit ("define")) pw = false)
    (hhc : containsSub (lit ("define")) hc = false)
    (hch : containsSub (lit ("define")) ch = false)
    (hco : containsSub (lit ("define")) co = false)
    (htp : containsSub (lit ("define")) tp = false)
    (hrest : ScanFreeAll (defHit K) rest) :
    ScanFreeAll (defHit K) (cfgHeadR n u pw hc ch co tp rest) := by
  unfold cfgHeadR
  apply scanFreeAll_append (scanFree_defHit_of_define
    (scanFree_pfx_concrete _ (lit ("<?php\n")) _ (by decide)))
  apply scanFreeAll_append
    (scanFree_defHit_defLineS K (lit ("DB_NAME")) n _ (hno _ (by decide)) (by decide) hn)
  apply scanFreeAll_append
    (scanFree_defHit_defLineS K (lit ("DB_USER")) u _ (hno _ (by decide)) (by decide) hu)
  apply scanFreeAll_append
    (scanFree_defHit_defLineS K (lit ("DB_PASSWORD")) pw _ (hno _ (by decide)) (by decide) hpw)
  apply scanFreeAll_append
    (scanFree_defHit_defLineS K (lit ("DB_HOST")) hc _ (hno _ (by decide)) (by decide) hhc)
  apply scanFreeAll_append
    (scanFree_defHit_defLineS K (lit ("DB_CHARSET")) ch _ (hno _ (by decide)) (by decide) hch)
  apply scanFreeAll_append
    (scanFree_defHit_defLineS K (lit ("DB_COLLATE")) co _ (hno _ (by decide)) (by decide) hco)
  apply scanFreeAll_append (scanFree_defHit_of_define
    (scanFree_pat_tpLine _ tp _ (by decide) (by decide) htp (by decide) (by decide)))
  exact hrest

theorem wfParams_parts {p : PatchParams} (h : wfParams p = true) :
    cleanVal p.dbName = true ∧ cleanVal p.dbUser = true ∧ cleanVal p.dbPassword = true ∧
    cleanVal (p.dbHost ++ (lit (":") ++ p.dbPort)) = true ∧ cleanVal p.charset = true ∧
    cleanVal p.collate = true ∧ cleanVal p.memoryLimit = true ∧ cleanSalts p.salts = true := by
  simp only [wfParams, Bool.and_eq_true] at h
  exact ⟨h.1.1.1.1.1.1.1, h.1.1.1.1.1.1.2, h.1.1.1.1.1.2, h.1.1.1.1.2, h.1.1.1.2,
    h.1.1.2, h.1.2, h.2⟩

end WPQI

namespace WPQI

end WPQI

namespace WPQI

theorem waitLoop_all_fail (probe : Nat → Bool) :
    ∀ n i d, (∀ k, k < n → probe (i + k) = false) →
      waitLoop probe n i d = ⟨i + n, d + 2000 * n, false⟩ := by
  intro n
  induction n with
  | zero => intro i d _; simp [waitLoop]
  | succ m ih =>
    intro i d h
    have h0 : probe i = false := by simpa using h 0 (Nat.succ_pos m)
    have hrest : ∀ k, k < m → probe (i + 1 + k) = false := by
      intro k hk
      have := h (k + 1) (by omega)
      simpa [Nat.add_assoc, Nat.add_comm 1 k] using this
    simp only [waitLoop, h0, Bool.false_eq_true, if_false]
    rw [ih (i + 1) (d + 2000) hrest]
    congr 1 <;> omega

theorem waitLoop_first_success (probe : Nat → Bool) :
    ∀ n i d k, k < n → (∀ j, j < k → probe (i + j) = false) → probe (i + k) = true →
      waitLoop probe n i d = ⟨i + k + 1, d + 2000 * k, true⟩ := by
  intro n
  induction n with
  | zero => intro i d k hk; omega
  | succ m ih =>
    intro i d k hk hfail hsucc
    cases k with
    | zero =>
      have h0 : probe i = true := by simpa using hsucc
      simp [waitLoop, h0]
    | succ k' =>
      have h0 : probe i = false := by simpa using hfail 0 (Nat.succ_pos k')
      simp only [waitLoop, h0, Bool.false_eq_true, if_false]
      have hfail' : ∀ j, j < k' → probe (i + 1 + j) = false := by
        intro j hj
        have := hfail (j + 1) (by omega)
        simpa [Nat.add_assoc, Nat.add_comm 1 j] using this
      have hsucc' : probe (i + 1 + k') = true := by
        have : i + 1 + k' = i + (k' + 1) := by omega
        rw [this]; exact hsucc
      rw [ih (i + 1) (d + 2000) k' (by omega) hfail' hsucc']
      congr 1 <;> omega

/-- C4. Readiness bound: if the probe fails on every attempt, the wait loop
performs exactly 30 probe attempts, sleeps a fixed 2 seconds after each
failed attempt (60 seconds in total, so at least 58 seconds), and then
raises a timeout error (`ready = false`); the first successful probe ends
the loop immediately with success, after `k` failed attempts and `2k`
seconds of delay. -/
theorem waitForMysql_readiness_bound (probe : Nat → Bool) :
    ((∀ i, i < 30 → probe i = false) →
      waitForMysql probe 30 = ⟨30, 60000, false⟩ ∧
        58000 ≤ (waitForMysql probe 30).delayMs) ∧
    (∀ k, k < 30 → (∀ j, j < k → probe j = false) → probe k = true →
      waitForMysql probe 30 = ⟨k + 1, 2000 * k, true⟩) := by
  constructor
  · intro hfail
    have h := waitLoop_all_fail probe 30 0 0 (by intro k hk; simpa using hfail k hk)
    constructor
    · simpa [waitForMysql] using h
    · simp only [waitForMysql] at h ⊢
      rw [h]
      decide
  · intro k hk hfail hsucc
    have h := waitLoop_first_success probe 30 0 0 k hk
      (by intro j hj; simpa using hfail j hj) (by simpa using hsucc)
    simpa [waitForMysql] using h

/-- Witness for C4 at concrete probes: the always-failing probe exhausts 30
attempts with 60 s of delay, and a probe first succeeding at attempt
index 2 returns after 3 attempts and 4 s of delay. -/
theorem waitForMysql_readiness_bound_witness :
    waitForMysql (fun _ => false) 30 = ⟨30, 60000, false⟩ ∧
      waitForMysql (fun i => decide (2 ≤ i)) 30 = ⟨3, 4000, true⟩ := by
  refine ⟨((waitForMysql_readiness_bound (fun _ => false)).1 (by intro i _; rfl)).1, ?_⟩
  exact (waitForMysql_readiness_bound (fun i => decide (2 ≤ i))).2 2 (by decide)
    (by decide) (by decide)

theorem generateKey_length (g : Nat → Nat) (off : Nat) :
    (generateKey g off).length = 64 := by
  simp [generateKey]

theorem generateKey_mem_alphabet (g : Nat → Nat) (off : Nat) :
    ∀ c ∈ generateKey g off, c ∈ saltAlphabet := by
  intro c hc
  simp only [generateKey, List.mem_map] at hc
  obtain ⟨i, -, rfl⟩ := hc
  have hlt : g (off + i) % saltAlphabet.length < saltAlphabet.length :=
    Nat.mod_lt _ (by decide)
  rw [List.getD_eq_getElem saltAlphabet 'a' hlt]
  exact List.getElem_mem hlt

/-- C7. Salt fallback shape: whenever the remote secret-generation call
fails (`remote = none`), `generateSalts` returns exactly the eight named
assignments `AUTH_KEY`, `SECURE_AUTH_KEY`, `LOGGED_IN_KEY`, `NONCE_KEY`,
`AUTH_SALT`, `SECURE_AUTH_SALT`, `LOGGED_IN_SALT`, `NONCE_SALT`, in the
`define( 'NAME', '<value>' );` assignment form, each value being exactly
64 characters drawn from the mixed alphanumeric-plus-punctuation
alphabet. -/
theorem generateSalts_fallback_shape (g : Nat → Nat) :
    ∃ v : Nat → Chars,
      (∀ i, i < 8 → (v i).length = 64 ∧ ∀ c ∈ v i, c ∈ saltAlphabet) ∧
      generateSalts none g =
        lit ("\n") ++ saltLine (lit ("AUTH_KEY")) 9 (v 0) ++
        lit ("\n") ++ saltLine (lit ("SECURE_AUTH_KEY")) 2 (v 1) ++
        lit ("\n") ++ saltLine (lit ("LOGGED_IN_KEY")) 4 (v 2) ++
        lit ("\n") ++ saltLine (lit ("NONCE_KEY")) 8 (v 3) ++
        lit ("\n") ++ saltLine (lit ("AUTH_SALT")) 8 (v 4) ++
        lit ("\n") ++ saltLine (lit ("SECURE_AUTH_SALT")) 1 (v 5) ++
        lit ("\n") ++ saltLine (lit ("LOGGED_IN_SALT")) 3 (v 6) ++
        lit ("\n") ++ saltLine (lit ("NONCE_SALT")) 7 (v 7) := by
  refine ⟨fun i => generateKey g (64 * i), ?_, ?_⟩
  · intro i _
    exact ⟨generateKey_length g (64 * i), generateKey_mem_alphabet g (64 * i)⟩
  · show fallbackSalts g = _
    simp only [fallbackSalts, List.range_succ, List.range_zero]
    simp [saltNames, List.append_assoc]

/-- C8. Fail-open existence check: a thrown subprocess error, an output
with no data line after filtering, or an unparsable first data line
(`parseInt` returning `NaN`) all make `checkAdminUserExists` report the
account as absent (`false`), steering reconciliation toward creation
instead of raising. -/
theorem checkAdminUserExists_fail_open (o : ExecOutcome) :
    (o = .err ∨
      (∃ out, o = .ok out ∧ countLines out = []) ∨
      (∃ out l rest, o = .ok out ∧ countLines out = l :: rest ∧
        parseIntJS (jsTrim l) = none)) →
    checkAdminUserExists o = false := by
  rintro (rfl | ⟨out, rfl, hempty⟩ | ⟨out, l, rest, rfl, hlines, hparse⟩)
  · rfl
  · simp [checkAdminUserExists, hempty]
  · simp [checkAdminUserExists, hlines, hparse]

/-- Witness for C8: a subprocess error, an output consisting only of the
header line `count`, and an output whose data line is non-numeric all
report the account as absent. -/
theorem checkAdminUserExists_fail_open_witness :
    checkAdminUserExists .err = false ∧
      checkAdminUserExists (.ok (lit ("count\n"))) = false ∧
      checkAdminUserExists (.ok (lit ("header\nERROR"))) = false := by
  refine ⟨checkAdminUserExists_fail_open _ (Or.inl rfl), ?_, ?_⟩
  · exact checkAdminUserExists_fail_open _ (Or.inr (Or.inl ⟨_, rfl, by decide⟩))
  · exact checkAdminUserExists_fail_open _
      (Or.inr (Or.inr ⟨_, lit ("header"), [lit ("ERROR")], rfl, by decide, by decide⟩))

/-- C6. Provisioning drop-create-verify: `createDatabase` always issues
the `DROP DATABASE IF EXISTS` statement first, then the `CREATE DATABASE
... CHARACTER SET ... COLLATE ...` statement with the configured charset
and collation, then the `SHOW DATABASES LIKE` existence re-query, in
that order; and when the re-query returns no row the stage raises an
error instead of silently ignoring the missing result. -/
theorem createDatabase_drop_create_verify (cfg : ProvisionConfig)
    (dbName websiteName genPassword : Chars) (showRows : Nat) :
    (createDatabase cfg dbName websiteName showRows genPassword).1.take 3 =
      [dropStmt dbName, createStmt cfg dbName, showDbStmt dbName] ∧
    (showRows = 0 →
      (createDatabase cfg dbName websiteName showRows genPassword).2 = Except.error ()) := by
  constructor
  · unfold createDatabase
    by_cases h : showRows = 0
    · simp [h]
    · by_cases hc : cfg.createUser <;> simp [h, hc]
  · intro h
    simp [createDatabase, h]

/-- Witness for C6: a concrete provisioning run whose verification query
returns zero rows ends in an error. -/
theorem createDatabase_drop_create_verify_witness :
    (createDatabase ⟨lit ("utf8mb4"), lit ("utf8mb4_unicode_ci"), lit ("localhost"), true,
        lit ("wp_"), [lit ("SELECT"), lit ("INSERT")]⟩ (lit ("wp_site")) (lit ("site")) 0
        (lit ("pw"))).2 = Except.error () :=
  (createDatabase_drop_create_verify _ _ _ _ 0).2 rfl

/-- C3. The code contradicts the scoped-credential rule: with the scoped
credential `wp_site` / `scopedpw` provisioned and root password `rootpw`,
the dump import and the admin stages select the scoped username and the
scoped password, but `performDirectSearchReplace` (src/index.js line 993)
selects the scoped username together with the root configuration
password: its `mysql` command lines embed `-prootpw` and not
`-pscopedpw`, so the raw search-replace strategy does not authenticate
with the scoped credential. -/
theorem directSearchReplace_uses_root_password :
    importUser ctxFx = lit ("wp_site") ∧ importPassword ctxFx = lit ("scopedpw") ∧
    adminStageUser ctxFx = lit ("wp_site") ∧ adminStagePassword ctxFx = lit ("scopedpw") ∧
    directUser ctxFx = lit ("wp_site") ∧ directPassword ctxFx = lit ("rootpw") ∧
    directPassword ctxFx ≠ ctxFx.dbPasswordOpt.getD ctxFx.rootPassword ∧
    containsSub (lit ("-prootpw")) (showTablesCmd ctxFx) = true ∧
    containsSub (lit ("-pscopedpw")) (showTablesCmd ctxFx) = false := by
  decide

/-- C2 (amended). No-op guard coverage: when the (defaulted) old URL
equals the derived new URL and the (defaulted) old domain equals the
derived new domain, the search-replace stage executes no command at all
for the base-URL and bare-domain rules — its trace consists exactly of
the user-supplied additional replacements, and each additional
replacement always executes at least one command, with no
`search == replace` comparison. -/
theorem searchReplace_noop_guards (orc : Orc) (outf : OutF) (ctx : DbCtx)
    (websitePath : Chars) (cfg : SRConfig) (websiteName valetDomain : Chars)
    (hu : (if cfg.oldUrl.isEmpty then lit ("http://example.com") else cfg.oldUrl) =
      lit ("http://") ++ websiteName ++ valetDomain)
    (hd : (if cfg.oldDomain.isEmpty then lit ("example.com") else cfg.oldDomain) =
      websiteName ++ valetDomain)
    (hs : cfg.skipSearchReplace = false) (he : cfg.enabled = true) :
    (performSearchReplace orc outf ctx websitePath cfg websiteName valetDomain).1 =
      additionalRuleAttempts orc outf ctx websitePath cfg ∧
    ∀ r ∈ cfg.additionalReplacements,
      ruleAttempts orc outf ctx websitePath cfg r.1 r.2 ≠ [] := by
  have hu' : (if cfg.oldUrl = [] then lit ("http://example.com") else cfg.oldUrl) =
      lit ("http://") ++ (websiteName ++ valetDomain) := by
    simpa [List.isEmpty_iff, List.append_assoc] using hu
  have hd' : (if cfg.oldDomain = [] then lit ("example.com") else cfg.oldDomain) =
      websiteName ++ valetDomain := by
    simpa [List.isEmpty_iff] using hd
  constructor
  · simp [performSearchReplace, hs, he, baseRuleAttempts, domainRuleAttempts, hu', hd']
  · intro r _
    unfold ruleAttempts
    by_cases h : orc (wpSearchReplaceCmd websitePath cfg r.1 r.2) = true <;> simp [h]

/-- Counterexample for C2: with both built-in rules no-ops and one
user-supplied replacement whose search value equals its replace value,
the stage still executes a `wp search-replace` command for that rule —
the additional-replacements loop carries no `search == replace` guard. -/
theorem searchReplace_noop_counterexample :
    (performSearchReplace (fun _ => true) outFx ctxFx (lit ("/tmp/site")) cfgEqAdd
        (lit ("site")) (lit (".test"))).1 =
      [⟨wpSearchReplaceCmd (lit ("/tmp/site")) cfgEqAdd (lit ("a")) (lit ("a")), true⟩] := by
  decide

/-- Witness for C2 (amended) at a concrete configuration whose built-in
rules are no-ops and whose single additional rule is genuine. -/
theorem searchReplace_noop_guards_witness :
    (performSearchReplace orcNoWp outFx ctxFx (lit ("/tmp/site")) cfgAdd
        (lit ("site")) (lit (".test"))).1 =
      additionalRuleAttempts orcNoWp outFx ctxFx (lit ("/tmp/site")) cfgAdd ∧
    ∀ r ∈ cfgAdd.additionalReplacements,
      ruleAttempts orcNoWp outFx ctxFx (lit ("/tmp/site")) cfgAdd r.1 r.2 ≠ [] :=
  searchReplace_noop_guards orcNoWp outFx ctxFx (lit ("/tmp/site")) cfgAdd
    (lit ("site")) (lit (".test")) (by decide) (by decide) rfl rfl

/-- C9. Dry-run is not honored by the raw fallback: with dry-run enabled,
when the primary `wp search-replace` invocation fails, the rule's
remaining attempts are exactly the raw strategy's attempts; those are
identical to the attempts produced with every matching option (dry-run,
case sensitivity, regex) cleared — none of the options is translated
into the raw statements; and each enumerated table receives a real
`UPDATE ... REPLACE` statement that executes against the database. -/
theorem dryRun_not_honored_by_fallback
    (orc : Orc) (outf : OutF) (ctx : DbCtx) (websitePath : Chars) (cfg : SRConfig)
    (search repl : Chars)
    (hdry : cfg.dryRun = true)
    (hfail : orc (wpSearchReplaceCmd websitePath cfg search repl) = false)
    (hfail2 : orc (wpSearchReplaceCmd websitePath (clearOptions cfg) search repl) = false) :
    (ruleAttempts orc outf ctx websitePath cfg search repl).tail =
      (performDirectSearchReplace orc outf ctx search repl).1 ∧
    (ruleAttempts orc outf ctx websitePath cfg search repl).tail =
      (ruleAttempts orc outf ctx websitePath (clearOptions cfg) search repl).tail ∧
    (orc (showTablesCmd ctx) = true →
      ∀ t ∈ parseTables (outf (showTablesCmd ctx)),
        orc (mysqlExecCmd ctx (directUser ctx) (directPassword ctx)
            (updateOptionValueStmt t search repl)) = true →
          (⟨mysqlExecCmd ctx (directUser ctx) (directPassword ctx)
            (updateOptionValueStmt t search repl), true⟩ : Attempt) ∈
            (ruleAttempts orc outf ctx websitePath cfg search repl).tail) := by
  have h1 : (ruleAttempts orc outf ctx websitePath cfg search repl).tail =
      (performDirectSearchReplace orc outf ctx search repl).1 := by
    simp [ruleAttempts, hfail]
  refine ⟨h1, ?_, ?_⟩
  · rw [h1]
    simp [ruleAttempts, hfail2]
  · intro hshow t ht hupd
    rw [h1]
    simp only [performDirectSearchReplace, directBody, hshow, if_true]
    refine List.mem_cons_of_mem _ ?_
    refine List.mem_flatMap.mpr ⟨t, ht, ?_⟩
    simp [tableSweep, hupd]

/-- Witness for C9: a dry-run rule whose primary invocation fails falls
back to the raw strategy against the concrete one-table database. -/
theorem dryRun_not_honored_by_fallback_witness :
    (ruleAttempts orcNoWp outFx ctxFx (lit ("/tmp/site")) cfgDry (lit ("http://old.example"))
        (lit ("http://site.test"))).tail =
      (performDirectSearchReplace orcNoWp outFx ctxFx (lit ("http://old.example"))
        (lit ("http://site.test"))).1 ∧
    (ruleAttempts orcNoWp outFx ctxFx (lit ("/tmp/site")) cfgDry (lit ("http://old.example"))
        (lit ("http://site.test"))).tail =
      (ruleAttempts orcNoWp outFx ctxFx (lit ("/tmp/site")) (clearOptions cfgDry)
        (lit ("http://old.example")) (lit ("http://site.test"))).tail ∧
    (orcNoWp (showTablesCmd ctxFx) = true →
      ∀ t ∈ parseTables (outFx (showTablesCmd ctxFx)),
        orcNoWp (mysqlExecCmd ctxFx (directUser ctxFx) (directPassword ctxFx)
            (updateOptionValueStmt t (lit ("http://old.example")) (lit ("http://site.test")))) =
            true →
          (⟨mysqlExecCmd ctxFx (directUser ctxFx) (directPassword ctxFx)
            (updateOptionValueStmt t (lit ("http://old.example")) (lit ("http://site.test"))),
            true⟩ : Attempt) ∈
            (ruleAttempts orcNoWp outFx ctxFx (lit ("/tmp/site")) cfgDry
              (lit ("http://old.example")) (lit ("http://site.test"))).tail) :=
  dryRun_not_honored_by_fallback orcNoWp outFx ctxFx (lit ("/tmp/site")) cfgDry
    (lit ("http://old.example")) (lit ("http://site.test")) rfl (by decide) (by decide)

theorem tableSweep_ok (orc : Orc) (ctx : DbCtx) (search repl table : Chars) :
    ∀ a ∈ tableSweep orc ctx search repl table, a.ok = orc a.cmd := by
  intro a ha
  unfold tableSweep at ha
  cases hupd : orc (mysqlExecCmd ctx (directUser ctx) (directPassword ctx)
      (updateOptionValueStmt table search repl)) <;> simp [hupd] at ha
  · rcases ha with rfl | ⟨c, -, rfl⟩
    · simpa using hupd.symm
    · rfl
  · subst ha
    simpa using hupd.symm

theorem directTrace_ok (orc : Orc) (outf : OutF) (ctx : DbCtx) (search repl : Chars) :
    ∀ a ∈ (performDirectSearchReplace orc outf ctx search repl).1, a.ok = orc a.cmd := by
  intro a ha
  simp only [performDirectSearchReplace] at ha
  unfold directBody at ha
  cases hshow : orc (showTablesCmd ctx) <;> simp [hshow] at ha
  · subst ha
    simpa using hshow.symm
  · rcases ha with rfl | ⟨t, ht, hmem⟩
    · simpa using hshow.symm
    · exact tableSweep_ok orc ctx search repl t a hmem

theorem ruleAttempts_ok (orc : Orc) (outf : OutF) (ctx : DbCtx) (websitePath : Chars)
    (cfg : SRConfig) (search repl : Chars) :
    ∀ a ∈ ruleAttempts orc outf ctx websitePath cfg search repl, a.ok = orc a.cmd := by
  intro a ha
  unfold ruleAttempts at ha
  cases hwp : orc (wpSearchReplaceCmd websitePath cfg search repl) <;> simp [hwp] at ha
  · rcases ha with rfl | hmem
    · simpa using hwp.symm
    · exact directTrace_ok orc outf ctx search repl a hmem
  · subst ha
    simpa using hwp.symm

theorem ite_rule_ok (orc : Orc) (outf : OutF) (ctx : DbCtx) (websitePath : Chars)
    (cfg : SRConfig) (x y : Chars) :
    ∀ a ∈ (if x = y then ([] : List Attempt)
        else ruleAttempts orc outf ctx websitePath cfg x y),
      a.ok = orc a.cmd := by
  intro a ha
  split at ha
  · simp at ha
  · exact ruleAttempts_ok orc outf ctx websitePath cfg x y a ha

theorem performSearchReplace_ok_inv (orc : Orc) (outf : OutF) (ctx : DbCtx)
    (websitePath : Chars) (cfg : SRConfig) (websiteName valetDomain : Chars) :
    ∀ a ∈ (performSearchReplace orc outf ctx websitePath cfg websiteName valetDomain).1,
      a.ok = orc a.cmd := by
  intro a ha
  unfold performSearchReplace at ha
  by_cases h1 : cfg.skipSearchReplace = true
  · simp [h1] at ha
  · by_cases h2 : cfg.enabled = true
    · rw [if_neg (by simp [h1]), if_neg (by simp [h2])] at ha
      simp only [List.mem_append] at ha
      rcases ha with (hb | hd) | hadd
      · exact ite_rule_ok orc outf ctx websitePath cfg _ _ a hb
      · exact ite_rule_ok orc outf ctx websitePath cfg _ _ a hd
      · unfold additionalRuleAttempts at hadd
        obtain ⟨r, -, hmem⟩ := List.mem_flatMap.mp hadd
        exact ruleAttempts_ok orc outf ctx websitePath cfg r.1 r.2 a hmem
    · simp [h1, h2] at ha

/-- C10. The raw fallback never propagates an error: the raw strategy
always reports success to its caller (its outer catch downgrades every
failure, including a failed table enumeration, to a warning, and
per-table and per-column failures are swallowed inside), so the
search-replace stage completes successfully for every execution oracle;
and when every subprocess fails — primary strategy and entire raw
fallback alike — the stage still completes with every recorded attempt
failed, i.e. zero substitutions performed. -/
theorem rawFallback_never_propagates
    (orc : Orc) (outf : OutF) (ctx : DbCtx) (websitePath : Chars) (cfg : SRConfig)
    (websiteName valetDomain search repl : Chars) :
    (performDirectSearchReplace orc outf ctx search repl).2 = Except.ok () ∧
    (performSearchReplace orc outf ctx websitePath cfg websiteName valetDomain).2 =
      Except.ok () ∧
    ((∀ c, orc c = false) →
      ∀ a ∈ (performSearchReplace orc outf ctx websitePath cfg websiteName valetDomain).1,
        a.ok = false) := by
  refine ⟨rfl, ?_, ?_⟩
  · unfold performSearchReplace
    by_cases h1 : cfg.skipSearchReplace = true <;> by_cases h2 : cfg.enabled = true <;>
      simp [h1, h2]
  · intro hall a ha
    rw [performSearchReplace_ok_inv orc outf ctx websitePath cfg websiteName valetDomain a ha]
    exact hall a.cmd

/-- Witness for C10: under the everywhere-failing oracle the concrete
stage still reports success, with every attempt failed. -/
theorem rawFallback_never_propagates_witness :
    (performSearchReplace (fun _ => false) outFx ctxFx (lit ("/tmp/site")) cfgDry
        (lit ("site")) (lit (".test"))).2 = Except.ok () ∧
    ∀ a ∈ (performSearchReplace (fun _ => false) outFx ctxFx (lit ("/tmp/site")) cfgDry
        (lit ("site")) (lit (".test"))).1, a.ok = false :=
  ⟨(rawFallback_never_propagates (fun _ => false) outFx ctxFx (lit ("/tmp/site")) cfgDry
      (lit ("site")) (lit (".test")) (lit ("x")) (lit ("y"))).2.1,
   (rawFallback_never_propagates (fun _ => false) outFx ctxFx (lit ("/tmp/site")) cfgDry
      (lit ("site")) (lit (".test")) (lit ("x")) (lit ("y"))).2.2 (fun _ => rfl)⟩

/-- Counterexample for C1: with a single user-supplied custom wp-config
line and otherwise fixed parameters, applying `updateWpConfig`'s text
transformation a second time to its own output is not byte-identical —
the custom-lines block (src/index.js lines 790-797) is inserted before
the marker with no key-specific already-present search, so the line is
duplicated. -/
theorem updateWpConfig_idem_counterexample :
    updateWpConfigText pCustomFx (updateWpConfigText pCustomFx sMinFx) ≠
      updateWpConfigText pCustomFx sMinFx := by
  decide

theorem filter_update_map (login hashed : Chars) :
    ∀ l : List UserRow,
      (l.map (fun r => if r.login = login then (⟨r.id, r.login, hashed⟩ : UserRow) else r)).filter
          (fun r => r.login = login) =
        (l.filter (fun r => r.login = login)).map
          (fun r => (⟨r.id, r.login, hashed⟩ : UserRow)) := by
  intro l
  induction l with
  | nil => rfl
  | cons r l ih =>
    by_cases hr : r.login = login
    · simp [hr, ih]
    · simp [hr, ih]

/-- C5 (amended). Reconciliation dichotomy: when the existence check does
not fail and the store holds no row with the configured login,
`manageAdminUser` creates the account: afterwards exactly one row with
that login exists, its stored hash is the hash of the supplied plaintext
password, and the administrator-capability marker is attached.  When a
row with the login already exists, the update path rewrites every such
row's stored hash and leaves the row count and the capability metadata
untouched — no marker is added, so the claim's marker conjunct holds
after reconciliation only in the creation path. -/
theorem manageAdminUser_reconciles (db : WpDb) (pfx login : Chars)
    (hashFn : Chars → Chars) (pw : Chars) :
    (loginRows db login = [] →
      adminReconciled (manageAdminUser db pfx login (hashFn pw) false) pfx login (hashFn pw)) ∧
    (loginRows db login ≠ [] →
      (loginRows (manageAdminUser db pfx login (hashFn pw) false) login).length =
          (loginRows db login).length ∧
        (∀ r ∈ loginRows (manageAdminUser db pfx login (hashFn pw) false) login,
          r.pass = hashFn pw) ∧
        (manageAdminUser db pfx login (hashFn pw) false).usermeta = db.usermeta) := by
  constructor
  · intro habsent
    have habsent' : db.users.filter (fun r => r.login = login) = [] := habsent
    have hcheck : checkAdminExistsDb db login false = false := by
      simp [checkAdminExistsDb, loginRows, habsent']
    have hfilter : ((db.users ++ [⟨db.nextId, login, hashFn pw⟩] : List UserRow).filter
        (fun r => r.login = login)) = [⟨db.nextId, login, hashFn pw⟩] := by
      rw [List.filter_append, habsent']
      simp
    have hcreate : createAdminUser db pfx login (hashFn pw) =
        ⟨db.users ++ [⟨db.nextId, login, hashFn pw⟩],
          db.usermeta ++ [⟨db.nextId, pfx ++ lit ("capabilities"), wpCapabilitiesValue⟩,
            ⟨db.nextId, pfx ++ lit ("user_level"), lit ("10")⟩],
          db.nextId + 1⟩ := by
      simp only [createAdminUser, hfilter, List.head?]
    have hmanage : manageAdminUser db pfx login (hashFn pw) false =
        createAdminUser db pfx login (hashFn pw) := by
      simp [manageAdminUser, hcheck]
    rw [hmanage, hcreate]
    refine ⟨?_, ?_, ?_⟩
    · show ((db.users ++ [⟨db.nextId, login, hashFn pw⟩] : List UserRow).filter
        (fun r => r.login = login)).length = 1
      rw [hfilter]; rfl
    · intro r hr
      have : r ∈ [(⟨db.nextId, login, hashFn pw⟩ : UserRow)] := by
        simpa [loginRows, hfilter] using hr
      simp at this
      rw [this]
    · refine ⟨⟨db.nextId, login, hashFn pw⟩, ?_, ?_⟩
      · show _ ∈ (db.users ++ [(⟨db.nextId, login, hashFn pw⟩ : UserRow)]).filter
          (fun r => r.login = login)
        rw [hfilter]; simp
      · simp
  · intro hne
    have hcheck : checkAdminExistsDb db login false = true := by
      have : 0 < (loginRows db login).length := List.length_pos.mpr hne
      simp [checkAdminExistsDb, this]
    have hmanage : manageAdminUser db pfx login (hashFn pw) false =
        updateAdminUserPassword db login (hashFn pw) := by
      simp [manageAdminUser, hcheck]
    have hrows : loginRows (updateAdminUserPassword db login (hashFn pw)) login =
        (loginRows db login).map (fun r => (⟨r.id, r.login, hashFn pw⟩ : UserRow)) :=
      filter_update_map login (hashFn pw) db.users
    rw [hmanage]
    refine ⟨?_, ?_, rfl⟩
    · rw [hrows, List.length_map]
    · intro r hr
      rw [hrows] at hr
      obtain ⟨s, -, rfl⟩ := List.mem_map.mp hr
      rfl

/-- Counterexample for C5: a store already holding the admin account (one
row, no capability metadata) together with a successful existence check
takes the update path; reconciliation completes without error, the hash
is updated, but no administrator-capability marker is attached — the
claim's conjunction fails. -/
theorem manageAdminUser_counterexample :
    ¬ adminReconciled
        (manageAdminUser ⟨[⟨1, lit ("admin"), lit ("old")⟩], [], 2⟩ (lit ("wp_"))
          (lit ("admin")) (lit ("newhash")) false)
        (lit ("wp_")) (lit ("admin")) (lit ("newhash")) := by
  decide

/-- Witness for C5 (amended): reconciling against the empty store creates
the account with its capability marker; reconciling a store that already
holds the login updates its hash in place. -/
theorem manageAdminUser_reconciles_witness :
    adminReconciled
      (manageAdminUser ⟨[], [], 1⟩ (lit ("wp_")) (lit ("admin"))
        ((fun p => lit ("H:") ++ p) (lit ("pw123"))) false)
      (lit ("wp_")) (lit ("admin")) ((fun p => lit ("H:") ++ p) (lit ("pw123"))) ∧
    (∀ r ∈ loginRows (manageAdminUser ⟨[⟨1, lit ("admin"), lit ("old")⟩], [], 2⟩ (lit ("wp_"))
        (lit ("admin")) ((fun p => lit ("H:") ++ p) (lit ("pw123"))) false) (lit ("admin")),
      r.pass = (fun p => lit ("H:") ++ p) (lit ("pw123"))) :=
  ⟨(manageAdminUser_reconciles ⟨[], [], 1⟩ (lit ("wp_")) (lit ("admin"))
      (fun p => lit ("H:") ++ p) (lit ("pw123"))).1 rfl,
   ((manageAdminUser_reconciles ⟨[⟨1, lit ("admin"), lit ("old")⟩], [], 2⟩ (lit ("wp_"))
      (lit ("admin")) (fun p => lit ("H:") ++ p) (lit ("pw123"))).2 (by decide)).2.1⟩

theorem debug_repl_eq (p : PatchParams) :
    lit ("\n// Development settings\n") ++ List.intercalate (lit ("\n"))
        [dbgLine (lit ("WP_DEBUG")) p.debugLog, dbgLine (lit ("WP_DEBUG_LOG")) p.wpDebugLog,
         dbgLine (lit ("WP_DEBUG_DISPLAY")) p.wpDebugDisplay,
         dbgLine (lit ("SCRIPT_DEBUG")) p.scriptDebug,
         dbgLine (lit ("SAVEQUERIES")) p.saveQueries] ++ lit ("\n\n") ++ markerChars =
      debugBlock p ++ (lit ("\n\n") ++ markerChars) := by
  simp [debugBlock, List.intercalate, List.intersperse, List.append_assoc,
    show lit ("\n") = [Char.ofNat 10] from by decide]

theorem mkTail_eq :
    lit ("\n") ++ markerChars ++ lit ("\n\n") ++ requireStr = mkTail := by
  simp [mkTail, List.append_assoc, show lit ("\n") = ['\n'] from by decide]

theorem requireStr_eq :
    requireStr = lit ("require_once(") ++ (lit ("ABSPATH . ") ++ ([sq] ++
      (lit ("wp-settings.php") ++ ([sq] ++ lit (");"))))) := by decide

theorem scanFree_of_scanFreeAll {f : Chars → Bool} {a b : Chars}
    (h : ScanFreeAll f (a ++ b)) : ScanFree f a b := by
  intro i hi
  have h2 := h i
  rw [List.drop_append_of_le_length (Nat.le_of_lt hi)] at h2
  exact h2

theorem containsSub_ext_false {P Q u : Chars} (hP : P ≠ []) (hPQ : P ++ Q ≠ [])
    (h : containsSub P u = false) : containsSub (P ++ Q) u = false :=
  (containsSub_iff_scanFreeAll _ _ hPQ).mpr
    (scanFreeAll_ext Q ((containsSub_iff_scanFreeAll _ _ hP).mp h))

theorem replaceDefine_fire_line (K vOld vNew rest : Chars)
    (hq : vOld.all (fun c => !isQuoteChar c) = true) :
    replaceDefine K (defineRepl K vNew) (defLineS K vOld ++ rest) =
      defLineS K vNew ++ rest := by
  rw [defLineS_app]
  rw [replaceDefine_fire (defineMatch_defineRepl_self K vOld ([';','\n'] ++ rest) hq)]
  rw [← defLineS_app]


theorem scanFree_nil (f : Chars → Bool) (b : Chars) : ScanFree f [] b := by
  intro i hi
  simp at hi

theorem scanFreeAll_of_contains (G s : Chars) (hG : G ≠ []) (h : containsSub G s = false) :
    ScanFreeAll (pfx G) s :=
  (containsSub_iff_scanFreeAll G s hG).mp h

/-- Generic pattern scan across the optional development-settings
block. -/
theorem scanFree_pat_dbgBlockOpt (P : Chars) (p : PatchParams) (rest : Chars)
    (hhdr : ∀ i, i < 25 → pfx (P.take (25 - i))
      ((lit ("\n// Development settings\n")).drop i) = false)
    (hline : ∀ name ∈ [lit ("WP_DEBUG"), lit ("WP_DEBUG_LOG"), lit ("WP_DEBUG_DISPLAY"),
        lit ("SCRIPT_DEBUG"), lit ("SAVEQUERIES")], ∀ b : Bool,
      ∀ i, i < (dbgLine name b).length →
        pfx (P.take ((dbgLine name b).length - i)) ((dbgLine name b).drop i) = false)
    (hnl : ∀ i, i < 1 → pfx (P.take (1 - i)) ((['\n'] : Chars).drop i) = false)
    (hnn : ∀ i, i < 2 → pfx (P.take (2 - i)) ((lit ("\n\n")).drop i) = false) :
    ScanFree (pfx P) (dbgBlockOpt p) rest := by
  unfold dbgBlockOpt
  by_cases hd : p.enableDebug = true
  · rw [if_pos hd]
    have he : debugBlock p ++ lit ("\n\n") =
        lit ("\n// Development settings\n") ++
          (dbgLine (lit ("WP_DEBUG")) p.debugLog ++
          ('\n' :: (dbgLine (lit ("WP_DEBUG_LOG")) p.wpDebugLog ++
          ('\n' :: (dbgLine (lit ("WP_DEBUG_DISPLAY")) p.wpDebugDisplay ++
          ('\n' :: (dbgLine (lit ("SCRIPT_DEBUG")) p.scriptDebug ++
          ('\n' :: (dbgLine (lit ("SAVEQUERIES")) p.saveQueries ++
            lit ("\n\n")))))))))) := by
      simp [debugBlock, List.append_assoc]
    rw [he]
    apply scanFree_append
      (scanFree_pfx_concrete P (lit ("\n// Development settings\n")) _ hhdr)
    apply scanFree_append
      (scanFree_pat_dbgLine P _ _ _ (hline _ (by decide) true) (hline _ (by decide) false))
    apply scanFree_append (scanFree_pfx_concrete P (['\n']) _ hnl)
    apply scanFree_append
      (scanFree_pat_dbgLine P _ _ _ (hline _ (by decide) true) (hline _ (by decide) false))
    apply scanFree_append (scanFree_pfx_concrete P (['\n']) _ hnl)
    apply scanFree_append
      (scanFree_pat_dbgLine P _ _ _ (hline _ (by decide) true) (hline _ (by decide) false))
    apply scanFree_append (scanFree_pfx_concrete P (['\n']) _ hnl)
    apply scanFree_append
      (scanFree_pat_dbgLine P _ _ _ (hline _ (by decide) true) (hline _ (by decide) false))
    apply scanFree_append (scanFree_pfx_concrete P (['\n']) _ hnl)
    apply scanFree_append
      (scanFree_pat_dbgLine P _ _ _ (hline _ (by decide) true) (hline _ (by decide) false))
    exact scanFree_pfx_concrete P (lit ("\n\n")) _ hnn
  · rw [if_neg hd]
    exact scanFree_nil _ _

theorem scanFree_pat_disallowOpt (P : Chars) (p : PatchParams) (rest : Chars)
    (hc : ∀ i, i < disallowContent.length →
      pfx (P.take (disallowContent.length - i)) (disallowContent.drop i) = false) :
    ScanFree (pfx P) (disallowOpt p) rest := by
  unfold disallowOpt
  by_cases hf : p.disableFileEditing = true
  · rw [if_pos hf]
    exact scanFree_pfx_concrete _ _ _ hc
  · rw [if_neg hf]
    exact scanFree_nil _ _

theorem scanFree_pat_memLine (P v : Chars) (rest : Chars) (hP : P ≠ []) (hsq : sq ∉ P)
    (hml : containsSub P (lit ("WP_MEMORY_LIMIT")) = false)
    (hv : containsSub P v = false)
    (hc1 : ∀ i, i < 9 →
      pfx (P.take (9 - i)) ((['d','e','f','i','n','e','(',' ',sq] : Chars).drop i) = false)
    (hc2 : ∀ i, i < 4 → pfx (P.take (4 - i)) (([sq,',',' ',sq] : Chars).drop i) = false)
    (hc3 : ∀ i, i < 3 → pfx (P.take (3 - i)) (([sq,' ',')'] : Chars).drop i) = false)
    (hcS : ∀ i, i < 1 → pfx (P.take (1 - i)) (([';'] : Chars).drop i) = false) :
    ScanFree (pfx P) (memLine v) rest := by
  rw [memLine_eq_defineRepl]
  exact scanFree_pat_repl P _ v ([';']) rest hP hsq hml hv hc1 hc2 hc3
    (scanFree_pfx_concrete P ([';']) _ hcS)

theorem scanFree_pat_memOpt (P : Chars) (p : PatchParams) (rest : Chars)
    (hP : P ≠ []) (hsq : sq ∉ P)
    (hml : containsSub P (lit ("WP_MEMORY_LIMIT")) = false)
    (hv : containsSub P p.memoryLimit = false)
    (hc1 : ∀ i, i < 9 →
      pfx (P.take (9 - i)) ((['d','e','f','i','n','e','(',' ',sq] : Chars).drop i) = false)
    (hc2 : ∀ i, i < 4 → pfx (P.take (4 - i)) (([sq,',',' ',sq] : Chars).drop i) = false)
    (hc3 : ∀ i, i < 3 → pfx (P.take (3 - i)) (([sq,' ',')'] : Chars).drop i) = false)
    (hcS : ∀ i, i < 1 → pfx (P.take (1 - i)) (([';'] : Chars).drop i) = false)
    (hnl : ∀ i, i < 1 → pfx (P.take (1 - i)) ((['\n'] : Chars).drop i) = false)
    (hnn : ∀ i, i < 2 → pfx (P.take (2 - i)) ((lit ("\n\n")).drop i) = false) :
    ScanFree (pfx P) (memOpt p) rest := by
  unfold memOpt
  by_cases hm : p.memoryLimit.isEmpty = true
  · rw [if_pos hm]
    exact scanFree_nil _ _
  · rw [if_neg hm]
    apply scanFree_append (scanFree_pfx_concrete P (['\n']) _ hnl)
    apply scanFree_append
      (scanFree_pat_memLine P p.memoryLimit _ hP hsq hml hv hc1 hc2 hc3 hcS)
    exact scanFree_pfx_concrete P (lit ("\n\n")) _ hnn

theorem dbgGuard1_ne_nil (name : Chars) : dbgGuard1 name ≠ [] := by
  rw [dbgGuard1_eq]
  exact List.cons_ne_nil _ _

theorem dbgGuard2_ne_nil (name : Chars) : dbgGuard2 name ≠ [] := by
  rw [dbgGuard2_eq]
  exact List.cons_ne_nil _ _

theorem dbgGuard1_head (name : Chars) : (dbgGuard1 name).head? = some 'd' := by
  rw [dbgGuard1_eq]
  rfl

theorem dbgGuard2_head (name : Chars) : (dbgGuard2 name).head? = some 'd' := by
  rw [dbgGuard2_eq]
  rfl

theorem nl_not_mem_guard1 {name : Chars} (hnl : '\n' ∉ name) :
    '\n' ∉ dbgGuard1 name := by
  rw [dbgGuard1_eq]
  intro h
  rcases List.mem_append.mp h with h | h
  · revert h; decide
  · rcases List.mem_append.mp h with h | h
    · exact hnl h
    · revert h; decide

theorem nl_not_mem_guard2 {name : Chars} (hnl : '\n' ∉ name) :
    '\n' ∉ dbgGuard2 name := by
  rw [dbgGuard2_eq]
  intro h
  rcases List.mem_append.mp h with h | h
  · revert h; decide
  · rcases List.mem_cons.mp h with h | h
    · revert h; decide
    · rcases List.mem_append.mp h with h | h
      · exact hnl h
      · revert h; decide

/-- A scan for a pattern starting with `d` never hits inside an
all-newline region. -/
theorem scanFree_pfx_nl_region (G a M : Chars) (hG : G.head? = some 'd')
    (ha : ∀ c ∈ a, c = '\n') : ScanFree (pfx G) a M := by
  intro i hi
  cases G with
  | nil => cases hG
  | cons g gs =>
    have hg : g = 'd' := by simpa using hG
    subst hg
    have hne : a.drop i ≠ [] := by
      intro h0
      have h1 := congrArg List.length h0
      rw [List.length_drop] at h1
      simp only [List.length_nil] at h1
      omega
    obtain ⟨z, zs, hd2⟩ : ∃ z zs, a.drop i = z :: zs := by
      cases hx : a.drop i with
      | nil => exact absurd hx hne
      | cons z zs => exact ⟨z, zs, rfl⟩
    have hz' : z = '\n' := ha z (List.drop_subset i a (by rw [hd2]; simp))
    rw [hd2, hz']
    have hdn : ('d' : Char) ≠ '\n' := by decide
    simp [pfx, hdn]

/-- A settings guard is absent from the patched head followed by the salt
block and any mid-section the guard avoids. -/
theorem guardPresent_head_salts_false (name : Chars) (p : PatchParams) (tp M : Chars)
    (hp : wfParams p = true) (hvtp : cleanVal tp = true)
    (hno : ∀ K2 ∈ sevenKeys.take 6,
      pfx ((name ++ [sq]).take (K2 ++ [sq,',',' ',sq]).length) (K2 ++ [sq,',',' ',sq]) =
        false)
    (hgs : guardPresent name p.salts = false)
    (hnl : '\n' ∉ name)
    (hM1 : ScanFreeAll (pfx (dbgGuard1 name)) M)
    (hM2 : ScanFreeAll (pfx (dbgGuard2 name)) M) :
    guardPresent name (cfgHeadR p.dbName p.dbUser p.dbPassword
      (p.dbHost ++ (lit (":") ++ p.dbPort)) p.charset p.collate tp
      (p.salts ++ (lit ("\n\n") ++ M))) = false := by
  obtain ⟨hc1, hc2, hc3, hc4, hc5, hc6, hcm, hcs⟩ := wfParams_parts hp
  refine guardPresent_false_iff.mpr ⟨?_, ?_⟩
  · refine (containsSub_iff_scanFreeAll _ _ (dbgGuard1_ne_nil name)).mpr
      (scanFreeAll_guard1_cfgHeadR name _ _ _ _ _ _ tp _ hno
        (cleanVal_define hc1) (cleanVal_define hc2) (cleanVal_define hc3)
        (cleanVal_define hc4) (cleanVal_define hc5) (cleanVal_define hc6)
        (cleanVal_define hvtp) ?_)
    refine scanFreeAll_append (scanFree_via_contains _ _ _ '\n'
      (guardPresent_false_iff.mp hgs).1 (dbgGuard1_ne_nil name) ?_
        (nl_not_mem_guard1 hnl))
      (scanFreeAll_append
        (scanFree_pfx_nl_region _ (lit ("\n\n")) _ (dbgGuard1_head name) (by decide)) hM1)
    rfl
  · refine (containsSub_iff_scanFreeAll _ _ (dbgGuard2_ne_nil name)).mpr
      (scanFreeAll_guard2_cfgHeadR name _ _ _ _ _ _ tp _
        (cleanVal_define hc1) (cleanVal_define hc2) (cleanVal_define hc3)
        (cleanVal_define hc4) (cleanVal_define hc5) (cleanVal_define hc6)
        (cleanVal_define hvtp) ?_)
    refine scanFreeAll_append (scanFree_via_contains _ _ _ '\n'
      (guardPresent_false_iff.mp hgs).2 (dbgGuard2_ne_nil name) ?_
        (nl_not_mem_guard2 hnl))
      (scanFreeAll_append
        (scanFree_pfx_nl_region _ (lit ("\n\n")) _ (dbgGuard2_head name) (by decide)) hM2)
    rfl



theorem replaceToEnd_salts_seg (r salts rest : Chars)
    (hs : containsSub (lit ("/*")) salts = false) (hhead : rest.head? = some '\n') :
    replaceToEnd r (salts ++ rest) = salts ++ replaceToEnd r rest :=
  replaceToEnd_append _ _ (scanFree_markerAt_of_slashstar
    (scanFree_via_contains _ _ _ '\n' hs (by decide) hhead (by decide)))

theorem replaceToEnd_nn_seg (r rest : Chars) :
    replaceToEnd r (lit ("\n\n") ++ rest) = lit ("\n\n") ++ replaceToEnd r rest :=
  replaceToEnd_append _ _ (scanFree_markerAt_of_slashstar
    (scanFree_pfx_concrete _ (lit ("\n\n")) _ (by decide)))

theorem replaceToEnd_B1_seg (r rest : Chars) (p : PatchParams) :
    replaceToEnd r (dbgBlockOpt p ++ rest) = dbgBlockOpt p ++ replaceToEnd r rest :=
  replaceToEnd_append _ _ (scanFree_markerAt_of_slashstar
    (scanFree_pat_dbgBlockOpt (lit ("/*")) p _ (by decide) (by decide) (by decide)
      (by decide)))

theorem replaceToEnd_B2_seg (r rest : Chars) (p : PatchParams) :
    replaceToEnd r (disallowOpt p ++ rest) = disallowOpt p ++ replaceToEnd r rest :=
  replaceToEnd_append _ _ (scanFree_markerAt_of_slashstar
    (scanFree_pat_disallowOpt (lit ("/*")) p _ (by decide)))

theorem replaceToEnd_B3_seg (r rest : Chars) (p : PatchParams)
    (hv : containsSub (lit ("/*")) p.memoryLimit = false) :
    replaceToEnd r (memOpt p ++ rest) = memOpt p ++ replaceToEnd r rest :=
  replaceToEnd_append _ _ (scanFree_markerAt_of_slashstar
    (scanFree_pat_memOpt (lit ("/*")) p _ (by decide) (by decide) (by decide) hv
      (by decide) (by decide) (by decide) (by decide) (by decide) (by decide)))

theorem replaceToEnd_fire_mk (r : Chars) : replaceToEnd r markerChars = r := by
  apply replaceToEnd_fire
  have h := markerAt_markerChars []
  simpa using h



theorem disallow_repl_eq :
    lit ("\n") ++ dbgLine (lit ("DISALLOW_FILE_EDIT")) true ++ lit ("\n\n") ++ markerChars =
      disallowContent ++ markerChars := by
  simp [disallowContent, List.append_assoc, show lit ("\n") = [Char.ofNat 10] from by decide]

theorem mem_repl_eq (v : Chars) :
    lit ("\n") ++ memLine v ++ lit ("\n\n") ++ markerChars =
      (Char.ofNat 10 :: (memLine v ++ lit ("\n\n"))) ++ markerChars := by
  simp [List.append_assoc, show lit ("\n") = [Char.ofNat 10] from by decide]

set_option maxHeartbeats 3200000 in
/-- One full patcher pass over the canonical sample yields the patched
form. -/
theorem updateWpConfig_run1 (p : PatchParams) (v1 v2 v3 v4 v5 v6 tp : Chars)
    (hp : wfParams p = true) (hcust : p.customWpConfig = [])
    (hv1 : cleanVal v1 = true) (hv2 : cleanVal v2 = true) (hv3 : cleanVal v3 = true)
    (hv4 : cleanVal v4 = true) (hv5 : cleanVal v5 = true) (hv6 : cleanVal v6 = true)
    (hvtp : cleanVal tp = true) :
    updateWpConfigText p (sampleCfg v1 v2 v3 v4 v5 v6 tp) = patchedForm p tp := by
  obtain ⟨hcn, hcu, hcp, hch, hcc, hcl, hcm, hcs⟩ := wfParams_parts hp
  have hsg := cleanSalts_guard hcs
  have e1 : replaceDefine (lit ("DB_NAME")) (defineRepl (lit ("DB_NAME")) p.dbName)
      (sampleCfg v1 v2 v3 v4 v5 v6 tp) =
      cfgHeadR p.dbName v2 v3 v4 v5 v6 tp (markerChars ++ sampleTail) := by
    unfold sampleCfg cfgHeadR
    rw [replaceDefine_append _ _ (scanFree_defHit_of_define
      (scanFree_pfx_concrete _ (lit ("<?php\n")) _ (by decide)))]
    rw [replaceDefine_fire_line _ v1 p.dbName _ (cleanVal_quoteFree hv1)]
  have e2 : replaceDefine (lit ("DB_USER")) (defineRepl (lit ("DB_USER")) p.dbUser)
      (cfgHeadR p.dbName v2 v3 v4 v5 v6 tp (markerChars ++ sampleTail)) =
      cfgHeadR p.dbName p.dbUser v3 v4 v5 v6 tp (markerChars ++ sampleTail) := by
    unfold cfgHeadR
    rw [replaceDefine_append _ _ (scanFree_defHit_of_define
      (scanFree_pfx_concrete _ (lit ("<?php\n")) _ (by decide)))]
    rw [replaceDefine_append _ _ (scanFree_defHit_defLineS (lit ("DB_USER"))
      (lit ("DB_NAME")) p.dbName _ (by decide) (by decide) (cleanVal_define hcn))]
    rw [replaceDefine_fire_line _ v2 p.dbUser _ (cleanVal_quoteFree hv2)]
  have e3 : replaceDefine (lit ("DB_PASSWORD")) (defineRepl (lit ("DB_PASSWORD")) p.dbPassword)
      (cfgHeadR p.dbName p.dbUser v3 v4 v5 v6 tp (markerChars ++ sampleTail)) =
      cfgHeadR p.dbName p.dbUser p.dbPassword v4 v5 v6 tp (markerChars ++ sampleTail) := by
    unfold cfgHeadR
    rw [replaceDefine_append _ _ (scanFree_defHit_of_define
      (scanFree_pfx_concrete _ (lit ("<?php\n")) _ (by decide)))]
    rw [replaceDefine_append _ _ (scanFree_defHit_defLineS (lit ("DB_PASSWORD"))
      (lit ("DB_NAME")) p.dbName _ (by decide) (by decide) (cleanVal_define hcn))]
    rw [replaceDefine_append _ _ (scanFree_defHit_defLineS (lit ("DB_PASSWORD"))
      (lit ("DB_USER")) p.dbUser _ (by decide) (by decide) (cleanVal_define hcu))]
    rw [replaceDefine_fire_line _ v3 p.dbPassword _ (cleanVal_quoteFree hv3)]
  have e4 : replaceDefine (lit ("DB_HOST")) (defineRepl (lit ("DB_HOST")) (p.dbHost ++ lit (":") ++ p.dbPort))
      (cfgHeadR p.dbName p.dbUser p.dbPassword v4 v5 v6 tp (markerChars ++ sampleTail)) =
      cfgHeadR p.dbName p.dbUser p.dbPassword (p.dbHost ++ (lit (":") ++ p.dbPort)) v5 v6 tp (markerChars ++ sampleTail) := by
    rw [List.append_assoc]
    unfold cfgHeadR
    rw [replaceDefine_append _ _ (scanFree_defHit_of_define
      (scanFree_pfx_concrete _ (lit ("<?php\n")) _ (by decide)))]
    rw [replaceDefine_append _ _ (scanFree_defHit_defLineS (lit ("DB_HOST"))
      (lit ("DB_NAME")) p.dbName _ (by decide) (by decide) (cleanVal_define hcn))]
    rw [replaceDefine_append _ _ (scanFree_defHit_defLineS (lit ("DB_HOST"))
      (lit ("DB_USER")) p.dbUser _ (by decide) (by decide) (cleanVal_define hcu))]
    rw [replaceDefine_append _ _ (scanFree_defHit_defLineS (lit ("DB_HOST"))
      (lit ("DB_PASSWORD")) p.dbPassword _ (by decide) (by decide) (cleanVal_define hcp))]
    rw [replaceDefine_fire_line _ v4 (p.dbHost ++ (lit (":") ++ p.dbPort)) _ (cleanVal_quoteFree hv4)]
  have e5 : replaceDefine (lit ("DB_CHARSET")) (defineRepl (lit ("DB_CHARSET")) p.charset)
      (cfgHeadR p.dbName p.dbUser p.dbPassword (p.dbHost ++ (lit (":") ++ p.dbPort)) v5 v6 tp (markerChars ++ sampleTail)) =
      cfgHeadR p.dbName p.dbUser p.dbPassword (p.dbHost ++ (lit (":") ++ p.dbPort)) p.charset v6 tp (markerChars ++ sampleTail) := by
    unfold cfgHeadR
    rw [replaceDefine_append _ _ (scanFree_defHit_of_define
      (scanFree_pfx_concrete _ (lit ("<?php\n")) _ (by decide)))]
    rw [replaceDefine_append _ _ (scanFree_defHit_defLineS (lit ("DB_CHARSET"))
      (lit ("DB_NAME")) p.dbName _ (by decide) (by decide) (cleanVal_define hcn))]
    rw [replaceDefine_append _ _ (scanFree_defHit_defLineS (lit ("DB_CHARSET"))
      (lit ("DB_USER")) p.dbUser _ (by decide) (by decide) (cleanVal_define hcu))]
    rw [replaceDefine_append _ _ (scanFree_defHit_defLineS (lit ("DB_CHARSET"))
      (lit ("DB_PASSWORD")) p.dbPassword _ (by decide) (by decide) (cleanVal_define hcp))]
    rw [replaceDefine_append _ _ (scanFree_defHit_defLineS (lit ("DB_CHARSET"))
      (lit ("DB_HOST")) (p.dbHost ++ (lit (":") ++ p.dbPort)) _ (by decide) (by decide) (cleanVal_define hch))]
    rw [replaceDefine_fire_line _ v5 p.charset _ (cleanVal_quoteFree hv5)]
  have e6 : replaceDefine (lit ("DB_COLLATE")) (defineRepl (lit ("DB_COLLATE")) p.collate)
      (cfgHeadR p.dbName p.dbUser p.dbPassword (p.dbHost ++ (lit (":") ++ p.dbPort)) p.charset v6 tp (markerChars ++ sampleTail)) =
      cfgHeadR p.dbName p.dbUser p.dbPassword (p.dbHost ++ (lit (":") ++ p.dbPort)) p.charset p.collate tp (markerChars ++ sampleTail) := by
    unfold cfgHeadR
    rw [replaceDefine_append _ _ (scanFree_defHit_of_define
      (scanFree_pfx_concrete _ (lit ("<?php\n")) _ (by decide)))]
    rw [replaceDefine_append _ _ (scanFree_defHit_defLineS (lit ("DB_COLLATE"))
      (lit ("DB_NAME")) p.dbName _ (by decide) (by decide) (cleanVal_define hcn))]
    rw [replaceDefine_append _ _ (scanFree_defHit_defLineS (lit ("DB_COLLATE"))
      (lit ("DB_USER")) p.dbUser _ (by decide) (by decide) (cleanVal_define hcu))]
    rw [replaceDefine_append _ _ (scanFree_defHit_defLineS (lit ("DB_COLLATE"))
      (lit ("DB_PASSWORD")) p.dbPassword _ (by decide) (by decide) (cleanVal_define hcp))]
    rw [replaceDefine_append _ _ (scanFree_defHit_defLineS (lit ("DB_COLLATE"))
      (lit ("DB_HOST")) (p.dbHost ++ (lit (":") ++ p.dbPort)) _ (by decide) (by decide) (cleanVal_define hch))]
    rw [replaceDefine_append _ _ (scanFree_defHit_defLineS (lit ("DB_COLLATE"))
      (lit ("DB_CHARSET")) p.charset _ (by decide) (by decide) (cleanVal_define hcc))]
    rw [replaceDefine_fire_line _ v6 p.collate _ (cleanVal_quoteFree hv6)]
  have e7 : replaceDefine (lit ("$table_prefix"))
      (defineRepl (lit ("$table_prefix")) p.tablePfx)
      (cfgHeadR p.dbName p.dbUser p.dbPassword (p.dbHost ++ (lit (":") ++ p.dbPort)) p.charset p.collate tp
        (markerChars ++ sampleTail)) =
      (cfgHeadR p.dbName p.dbUser p.dbPassword (p.dbHost ++ (lit (":") ++ p.dbPort)) p.charset p.collate tp
        (markerChars ++ sampleTail)) :=
    replaceDefine_id _ (scanFreeAll_defHit_cfgHeadR _ _ _ _ _ _ _ tp _ (by decide)
      (cleanVal_define hcn) (cleanVal_define hcu) (cleanVal_define hcp)
      (cleanVal_define hch) (cleanVal_define hcc) (cleanVal_define hcl)
      (cleanVal_define hvtp)
      (scanFreeAll_defHit_of_no_key (by decide)))
  have hauth : containsSub (lit ("AUTH_KEY"))
      (cfgHeadR p.dbName p.dbUser p.dbPassword (p.dbHost ++ (lit (":") ++ p.dbPort)) p.charset p.collate tp
        (markerChars ++ sampleTail)) = false :=
    (containsSub_iff_scanFreeAll _ _ (by decide)).mpr
      (scanFreeAll_pat_cfgHeadR _ _ _ _ _ _ _ tp _ (by decide) (by decide)
        (cleanVal_auth hcn) (cleanVal_auth hcu) (cleanVal_auth hcp) (cleanVal_auth hch)
        (cleanVal_auth hcc) (cleanVal_auth hcl) (cleanVal_auth hvtp)
        (by decide) (by decide) (by decide) (by decide) (by decide) (by decide)
        (by decide) (by decide)
        (scanFreeAll_of_contains _ _ (by decide) (by decide)))
  have e8 : replaceToEnd (p.salts ++ lit ("\n\n") ++ markerChars)
      (cfgHeadR p.dbName p.dbUser p.dbPassword (p.dbHost ++ (lit (":") ++ p.dbPort)) p.charset p.collate tp
        (markerChars ++ sampleTail)) =
      (cfgHeadR p.dbName p.dbUser p.dbPassword (p.dbHost ++ (lit (":") ++ p.dbPort)) p.charset p.collate tp
        (p.salts ++ (lit ("\n\n") ++ markerChars))) := by
    rw [replaceToEnd_cfgHeadR _ _ _ _ _ _ _ _ _ (cleanVal_slashstar hcn) (cleanVal_slashstar hcu)
      (cleanVal_slashstar hcp) (cleanVal_slashstar hch) (cleanVal_slashstar hcc)
      (cleanVal_slashstar hcl) (cleanVal_slashstar hvtp)]
    rw [replaceToEnd_fire (markerAt_markerChars sampleTail)]
    simp [List.append_assoc]
  have hgWD : guardPresent (lit ("WP_DEBUG"))
      (cfgHeadR p.dbName p.dbUser p.dbPassword (p.dbHost ++ (lit (":") ++ p.dbPort)) p.charset p.collate tp
        (p.salts ++ (lit ("\n\n") ++ markerChars))) = false :=
    guardPresent_head_salts_false _ p tp markerChars hp hvtp (by decide) hsg.1
      (by decide)
      (scanFreeAll_of_contains _ _ (dbgGuard1_ne_nil _) (by decide))
      (scanFreeAll_of_contains _ _ (dbgGuard2_ne_nil _) (by decide))
  have hgWDL : guardPresent (lit ("WP_DEBUG_LOG"))
      (cfgHeadR p.dbName p.dbUser p.dbPassword (p.dbHost ++ (lit (":") ++ p.dbPort)) p.charset p.collate tp
        (p.salts ++ (lit ("\n\n") ++ markerChars))) = false :=
    guardPresent_head_salts_false _ p tp markerChars hp hvtp (by decide) hsg.2.1
      (by decide)
      (scanFreeAll_of_contains _ _ (dbgGuard1_ne_nil _) (by decide))
      (scanFreeAll_of_contains _ _ (dbgGuard2_ne_nil _) (by decide))
  have hgWDD : guardPresent (lit ("WP_DEBUG_DISPLAY"))
      (cfgHeadR p.dbName p.dbUser p.dbPassword (p.dbHost ++ (lit (":") ++ p.dbPort)) p.charset p.collate tp
        (p.salts ++ (lit ("\n\n") ++ markerChars))) = false :=
    guardPresent_head_salts_false _ p tp markerChars hp hvtp (by decide) hsg.2.2.1
      (by decide)
      (scanFreeAll_of_contains _ _ (dbgGuard1_ne_nil _) (by decide))
      (scanFreeAll_of_contains _ _ (dbgGuard2_ne_nil _) (by decide))
  have hgSD : guardPresent (lit ("SCRIPT_DEBUG"))
      (cfgHeadR p.dbName p.dbUser p.dbPassword (p.dbHost ++ (lit (":") ++ p.dbPort)) p.charset p.collate tp
        (p.salts ++ (lit ("\n\n") ++ markerChars))) = false :=
    guardPresent_head_salts_false _ p tp markerChars hp hvtp (by decide) hsg.2.2.2.1
      (by decide)
      (scanFreeAll_of_contains _ _ (dbgGuard1_ne_nil _) (by decide))
      (scanFreeAll_of_contains _ _ (dbgGuard2_ne_nil _) (by decide))
  have hgSQ : guardPresent (lit ("SAVEQUERIES"))
      (cfgHeadR p.dbName p.dbUser p.dbPassword (p.dbHost ++ (lit (":") ++ p.dbPort)) p.charset p.collate tp
        (p.salts ++ (lit ("\n\n") ++ markerChars))) = false :=
    guardPresent_head_salts_false _ p tp markerChars hp hvtp (by decide) hsg.2.2.2.2.1
      (by decide)
      (scanFreeAll_of_contains _ _ (dbgGuard1_ne_nil _) (by decide))
      (scanFreeAll_of_contains _ _ (dbgGuard2_ne_nil _) (by decide))
  have e9 : (if p.enableDebug = true then
      replaceToEnd (lit ("\n// Development settings\n") ++ List.intercalate (lit ("\n"))
        [dbgLine (lit ("WP_DEBUG")) p.debugLog, dbgLine (lit ("WP_DEBUG_LOG")) p.wpDebugLog,
         dbgLine (lit ("WP_DEBUG_DISPLAY")) p.wpDebugDisplay,
         dbgLine (lit ("SCRIPT_DEBUG")) p.scriptDebug,
         dbgLine (lit ("SAVEQUERIES")) p.saveQueries] ++ lit ("\n\n") ++ markerChars)
        (cfgHeadR p.dbName p.dbUser p.dbPassword (p.dbHost ++ (lit (":") ++ p.dbPort)) p.charset p.collate tp
        (p.salts ++ (lit ("\n\n") ++ markerChars)))
      else (cfgHeadR p.dbName p.dbUser p.dbPassword (p.dbHost ++ (lit (":") ++ p.dbPort)) p.charset p.collate tp
        (p.salts ++ (lit ("\n\n") ++ markerChars)))) =
      (cfgHeadR p.dbName p.dbUser p.dbPassword (p.dbHost ++ (lit (":") ++ p.dbPort)) p.charset p.collate tp
        (p.salts ++ (lit ("\n\n") ++ (dbgBlockOpt p ++ markerChars)))) := by
    by_cases hd : p.enableDebug = true
    · rw [if_pos hd, debug_repl_eq]
      rw [replaceToEnd_cfgHeadR _ _ _ _ _ _ _ _ _ (cleanVal_slashstar hcn) (cleanVal_slashstar hcu)
      (cleanVal_slashstar hcp) (cleanVal_slashstar hch) (cleanVal_slashstar hcc)
      (cleanVal_slashstar hcl) (cleanVal_slashstar hvtp)]
      rw [replaceToEnd_salts_seg _ _ (lit ("\n\n") ++ markerChars)
        (cleanSalts_slashstar hcs) rfl]
      rw [replaceToEnd_nn_seg, replaceToEnd_fire_mk]
      unfold dbgBlockOpt
      rw [if_pos hd]
      simp [List.append_assoc]
    · rw [if_neg hd]
      unfold dbgBlockOpt
      rw [if_neg hd]
      simp
  have hgD : guardPresent (lit ("DISALLOW_FILE_EDIT"))
      (cfgHeadR p.dbName p.dbUser p.dbPassword (p.dbHost ++ (lit (":") ++ p.dbPort)) p.charset p.collate tp
        (p.salts ++ (lit ("\n\n") ++ (dbgBlockOpt p ++ markerChars)))) = false :=
    guardPresent_head_salts_false _ p tp (dbgBlockOpt p ++ markerChars) hp hvtp
      (by decide) hsg.2.2.2.2.2.1 (by decide)
      (scanFreeAll_append (scanFree_pat_dbgBlockOpt _ p _ (by decide) (by decide)
        (by decide) (by decide))
        (scanFreeAll_of_contains _ _ (dbgGuard1_ne_nil _) (by decide)))
      (scanFreeAll_append (scanFree_pat_dbgBlockOpt _ p _ (by decide) (by decide)
        (by decide) (by decide))
        (scanFreeAll_of_contains _ _ (dbgGuard2_ne_nil _) (by decide)))
  have e10 : (if p.disableFileEditing = true then
      replaceToEnd (lit ("\n") ++ dbgLine (lit ("DISALLOW_FILE_EDIT")) true ++
        lit ("\n\n") ++ markerChars)
        (cfgHeadR p.dbName p.dbUser p.dbPassword (p.dbHost ++ (lit (":") ++ p.dbPort)) p.charset p.collate tp
        (p.salts ++ (lit ("\n\n") ++ (dbgBlockOpt p ++ markerChars))))
      else (cfgHeadR p.dbName p.dbUser p.dbPassword (p.dbHost ++ (lit (":") ++ p.dbPort)) p.charset p.collate tp
        (p.salts ++ (lit ("\n\n") ++ (dbgBlockOpt p ++ markerChars))))) =
      (cfgHeadR p.dbName p.dbUser p.dbPassword (p.dbHost ++ (lit (":") ++ p.dbPort)) p.charset p.collate tp
        (p.salts ++ (lit ("\n\n") ++ (dbgBlockOpt p ++ (disallowOpt p ++ markerChars))))) := by
    by_cases hf : p.disableFileEditing = true
    · rw [if_pos hf, disallow_repl_eq]
      rw [replaceToEnd_cfgHeadR _ _ _ _ _ _ _ _ _ (cleanVal_slashstar hcn) (cleanVal_slashstar hcu)
      (cleanVal_slashstar hcp) (cleanVal_slashstar hch) (cleanVal_slashstar hcc)
      (cleanVal_slashstar hcl) (cleanVal_slashstar hvtp)]
      rw [replaceToEnd_salts_seg _ _ (lit ("\n\n") ++ (dbgBlockOpt p ++ markerChars))
        (cleanSalts_slashstar hcs) rfl]
      rw [replaceToEnd_nn_seg, replaceToEnd_B1_seg, replaceToEnd_fire_mk]
      unfold disallowOpt
      rw [if_pos hf]
    · rw [if_neg hf]
      unfold disallowOpt
      rw [if_neg hf]
      simp
  have hgM : guardPresent (lit ("WP_MEMORY_LIMIT"))
      (cfgHeadR p.dbName p.dbUser p.dbPassword (p.dbHost ++ (lit (":") ++ p.dbPort)) p.charset p.collate tp
        (p.salts ++ (lit ("\n\n") ++ (dbgBlockOpt p ++ (disallowOpt p ++ markerChars))))) = false :=
    guardPresent_head_salts_false _ p tp (dbgBlockOpt p ++ (disallowOpt p ++ markerChars))
      hp hvtp (by decide) hsg.2.2.2.2.2.2 (by decide)
      (scanFreeAll_append (scanFree_pat_dbgBlockOpt _ p _ (by decide) (by decide)
        (by decide) (by decide))
        (scanFreeAll_append (scanFree_pat_disallowOpt _ p _ (by decide))
          (scanFreeAll_of_contains _ _ (dbgGuard1_ne_nil _) (by decide))))
      (scanFreeAll_append (scanFree_pat_dbgBlockOpt _ p _ (by decide) (by decide)
        (by decide) (by decide))
        (scanFreeAll_append (scanFree_pat_disallowOpt _ p _ (by decide))
          (scanFreeAll_of_contains _ _ (dbgGuard2_ne_nil _) (by decide))))
  have e11 : (if (!p.memoryLimit.isEmpty) = true then
      replaceToEnd (lit ("\n") ++ memLine p.memoryLimit ++ lit ("\n\n") ++ markerChars)
        (cfgHeadR p.dbName p.dbUser p.dbPassword (p.dbHost ++ (lit (":") ++ p.dbPort)) p.charset p.collate tp
        (p.salts ++ (lit ("\n\n") ++ (dbgBlockOpt p ++ (disallowOpt p ++ markerChars)))))
      else (cfgHeadR p.dbName p.dbUser p.dbPassword (p.dbHost ++ (lit (":") ++ p.dbPort)) p.charset p.collate tp
        (p.salts ++ (lit ("\n\n") ++ (dbgBlockOpt p ++ (disallowOpt p ++ markerChars)))))) =
      (cfgHeadR p.dbName p.dbUser p.dbPassword (p.dbHost ++ (lit (":") ++ p.dbPort)) p.charset p.collate tp
        (p.salts ++ (lit ("\n\n") ++ (dbgBlockOpt p ++ (disallowOpt p ++ (memOpt p ++ markerChars)))))) := by
    by_cases hm : p.memoryLimit.isEmpty = true
    · rw [hm]
      simp only [Bool.not_true, Bool.false_eq_true, if_false]
      unfold memOpt
      rw [if_pos hm]
      simp
    · have hmf : p.memoryLimit.isEmpty = false := by
        revert hm; cases p.memoryLimit.isEmpty <;> simp
      rw [hmf]
      simp only [Bool.not_false, eq_self_iff_true, if_true]
      rw [mem_repl_eq]
      rw [replaceToEnd_cfgHeadR _ _ _ _ _ _ _ _ _ (cleanVal_slashstar hcn) (cleanVal_slashstar hcu)
      (cleanVal_slashstar hcp) (cleanVal_slashstar hch) (cleanVal_slashstar hcc)
      (cleanVal_slashstar hcl) (cleanVal_slashstar hvtp)]
      rw [replaceToEnd_salts_seg _ _ (lit ("\n\n") ++ (dbgBlockOpt p ++ (disallowOpt p ++ markerChars)))
        (cleanSalts_slashstar hcs) rfl]
      rw [replaceToEnd_nn_seg, replaceToEnd_B1_seg, replaceToEnd_B2_seg,
        replaceToEnd_fire_mk]
      unfold memOpt
      rw [if_neg hm]
  have hbase : containsSub (lit ("require_once("))
      (cfgHeadR p.dbName p.dbUser p.dbPassword (p.dbHost ++ (lit (":") ++ p.dbPort)) p.charset p.collate tp
        (p.salts ++ (lit ("\n\n") ++ (dbgBlockOpt p ++ (disallowOpt p ++ (memOpt p ++ markerChars)))))) = false :=
    (containsSub_iff_scanFreeAll _ _ (by decide)).mpr
      (scanFreeAll_pat_cfgHeadR _ _ _ _ _ _ _ tp _ (by decide) (by decide)
        (cleanVal_req hcn) (cleanVal_req hcu) (cleanVal_req hcp) (cleanVal_req hch)
        (cleanVal_req hcc) (cleanVal_req hcl) (cleanVal_req hvtp)
        (by decide) (by decide) (by decide) (by decide) (by decide) (by decide)
        (by decide) (by decide)
        (scanFreeAll_append (scanFree_via_contains _ _ _ (Char.ofNat 10)
          (cleanSalts_req hcs) (by decide) rfl (by decide))
          (scanFreeAll_append (scanFree_pfx_concrete _ (lit ("\n\n")) _ (by decide))
            (scanFreeAll_append (scanFree_pat_dbgBlockOpt _ p _ (by decide) (by decide)
              (by decide) (by decide))
              (scanFreeAll_append (scanFree_pat_disallowOpt _ p _ (by decide))
                (scanFreeAll_append (scanFree_pat_memOpt _ p _ (by decide) (by decide)
                  (by decide) (cleanVal_req hcm) (by decide) (by decide) (by decide)
                  (by decide) (by decide) (by decide))
                  (scanFreeAll_of_contains _ _ (by decide) (by decide))))))))
  have hreq : containsSub requireStr
      (cfgHeadR p.dbName p.dbUser p.dbPassword (p.dbHost ++ (lit (":") ++ p.dbPort)) p.charset p.collate tp
        (p.salts ++ (lit ("\n\n") ++ (dbgBlockOpt p ++ (disallowOpt p ++ (memOpt p ++ markerChars)))))) = false := by
    rw [requireStr_eq]
    exact containsSub_ext_false (by decide) (by decide) hbase
  have e13 : replaceToEnd (lit ("\n") ++ markerChars ++ lit ("\n\n") ++ requireStr)
      (cfgHeadR p.dbName p.dbUser p.dbPassword (p.dbHost ++ (lit (":") ++ p.dbPort)) p.charset p.collate tp
        (p.salts ++ (lit ("\n\n") ++ (dbgBlockOpt p ++ (disallowOpt p ++ (memOpt p ++ markerChars)))))) =
      patchedForm p tp := by
    rw [mkTail_eq]
    rw [replaceToEnd_cfgHeadR _ _ _ _ _ _ _ _ _ (cleanVal_slashstar hcn) (cleanVal_slashstar hcu)
      (cleanVal_slashstar hcp) (cleanVal_slashstar hch) (cleanVal_slashstar hcc)
      (cleanVal_slashstar hcl) (cleanVal_slashstar hvtp)]
    rw [replaceToEnd_salts_seg _ _ (lit ("\n\n") ++ (dbgBlockOpt p ++ (disallowOpt p ++ (memOpt p ++ markerChars))))
        (cleanSalts_slashstar hcs) rfl]
    rw [replaceToEnd_nn_seg, replaceToEnd_B1_seg, replaceToEnd_B2_seg,
      replaceToEnd_B3_seg _ _ _ (cleanVal_slashstar hcm), replaceToEnd_fire_mk]
    rfl
  simp only [updateWpConfigText]
  rw [e1, e2, e3, e4, e5, e6, e7, hauth]
  simp only [Bool.false_eq_true, if_false]
  rw [e8]
  rw [hgWD, hgWDL, hgWDD, hgSD, hgSQ]
  simp only [Bool.not_false, eq_self_iff_true, if_true, List.singleton_append,
    List.cons_append, List.nil_append, List.isEmpty_cons, Bool.and_true]
  rw [e9, hgD]
  simp only [Bool.not_false, Bool.and_true]
  rw [e10, hgM]
  simp only [Bool.not_false, Bool.and_true]
  rw [e11]
  rw [hcust]
  simp only [List.isEmpty_nil, Bool.not_true, Bool.false_eq_true, if_false]
  rw [hreq]
  simp only [Bool.not_false, eq_self_iff_true, if_true]
  exact e13



theorem containsSub_cons_right (P : Chars) (c : Char) (b : Chars)
    (h : containsSub P b = true) : containsSub P (c :: b) = true :=
  containsSub_append_right P [c] b h

/-- The development-settings step skips an already patched text. -/
theorem stage9_skip (p : PatchParams) (t r0 : Chars)
    (h : p.enableDebug = true →
      guardPresent (lit ("WP_DEBUG")) t = true ∧
      guardPresent (lit ("WP_DEBUG_LOG")) t = true ∧
      guardPresent (lit ("WP_DEBUG_DISPLAY")) t = true ∧
      guardPresent (lit ("SCRIPT_DEBUG")) t = true ∧
      guardPresent (lit ("SAVEQUERIES")) t = true) :
    (if (p.enableDebug &&
      !List.isEmpty ((if !guardPresent (lit ("WP_DEBUG")) t then
          [dbgLine (lit ("WP_DEBUG")) p.debugLog] else []) ++
        (if !guardPresent (lit ("WP_DEBUG_LOG")) t then
          [dbgLine (lit ("WP_DEBUG_LOG")) p.wpDebugLog] else []) ++
        (if !guardPresent (lit ("WP_DEBUG_DISPLAY")) t then
          [dbgLine (lit ("WP_DEBUG_DISPLAY")) p.wpDebugDisplay] else []) ++
        (if !guardPresent (lit ("SCRIPT_DEBUG")) t then
          [dbgLine (lit ("SCRIPT_DEBUG")) p.scriptDebug] else []) ++
        (if !guardPresent (lit ("SAVEQUERIES")) t then
          [dbgLine (lit ("SAVEQUERIES")) p.saveQueries] else []))) = true then
      replaceToEnd r0 t else t) = t := by
  by_cases hd : p.enableDebug = true
  · obtain ⟨h1, h2, h3, h4, h5⟩ := h hd
    rw [h1, h2, h3, h4, h5]
    simp only [Bool.not_true, Bool.false_eq_true, if_false, List.append_nil,
      List.nil_append, List.isEmpty_nil, Bool.and_false]
  · have hdf : p.enableDebug = false := by
      revert hd; cases p.enableDebug <;> simp
    rw [hdf]
    simp only [Bool.false_and, Bool.false_eq_true, if_false]

/-- The file-editing lockout step skips an already patched text. -/
theorem stage10_skip (p : PatchParams) (t r0 : Chars)
    (h : p.disableFileEditing = true →
      guardPresent (lit ("DISALLOW_FILE_EDIT")) t = true) :
    (if (p.disableFileEditing && !guardPresent (lit ("DISALLOW_FILE_EDIT")) t) = true then
      replaceToEnd r0 t else t) = t := by
  by_cases hf : p.disableFileEditing = true
  · rw [h hf]
    simp only [Bool.not_true, Bool.and_false, Bool.false_eq_true, if_false]
  · have hff : p.disableFileEditing = false := by
      revert hf; cases p.disableFileEditing <;> simp
    rw [hff]
    simp only [Bool.false_and, Bool.false_eq_true, if_false]

/-- The memory-limit step skips an already patched text. -/
theorem stage11_skip (p : PatchParams) (t r0 : Chars)
    (h : p.memoryLimit.isEmpty = false →
      guardPresent (lit ("WP_MEMORY_LIMIT")) t = true) :
    (if (!p.memoryLimit.isEmpty && !guardPresent (lit ("WP_MEMORY_LIMIT")) t) = true then
      replaceToEnd r0 t else t) = t := by
  by_cases hm : p.memoryLimit.isEmpty = true
  · rw [hm]
    simp only [Bool.not_true, Bool.false_and, Bool.false_eq_true, if_false]
  · have hmf : p.memoryLimit.isEmpty = false := by
      revert hm; cases p.memoryLimit.isEmpty <;> simp
    rw [hmf, h hmf]
    simp only [Bool.not_true, Bool.and_false, Bool.false_eq_true, if_false]



set_option maxHeartbeats 3200000 in
/-- A second patcher pass over an already patched configuration is the
identity: every guard finds its insertion and every replacement
rewrites its own line with identical text. -/
theorem updateWpConfig_run2 (p : PatchParams) (tp : Chars)
    (hp : wfParams p = true) (hcust : p.customWpConfig = [])
    (hvtp : cleanVal tp = true) :
    updateWpConfigText p (patchedForm p tp) = patchedForm p tp := by
  obtain ⟨hcn, hcu, hcp, hch, hcc, hcl, hcm, hcs⟩ := wfParams_parts hp
  have er1 : replaceDefine (lit ("DB_NAME")) (defineRepl (lit ("DB_NAME")) p.dbName)
      (cfgHeadR p.dbName p.dbUser p.dbPassword (p.dbHost ++ (lit (":") ++ p.dbPort)) p.charset p.collate tp (patchedTail p)) =
      (cfgHeadR p.dbName p.dbUser p.dbPassword (p.dbHost ++ (lit (":") ++ p.dbPort)) p.charset p.collate tp (patchedTail p)) := by
    unfold cfgHeadR
    rw [replaceDefine_append _ _ (scanFree_defHit_of_define
      (scanFree_pfx_concrete _ (lit ("<?php\n")) _ (by decide)))]
    rw [replaceDefine_fire_line _ p.dbName p.dbName _ (cleanVal_quoteFree hcn)]
  have er2 : replaceDefine (lit ("DB_USER")) (defineRepl (lit ("DB_USER")) p.dbUser)
      (cfgHeadR p.dbName p.dbUser p.dbPassword (p.dbHost ++ (lit (":") ++ p.dbPort)) p.charset p.collate tp (patchedTail p)) =
      (cfgHeadR p.dbName p.dbUser p.dbPassword (p.dbHost ++ (lit (":") ++ p.dbPort)) p.charset p.collate tp (patchedTail p)) := by
    unfold cfgHeadR
    rw [replaceDefine_append _ _ (scanFree_defHit_of_define
      (scanFree_pfx_concrete _ (lit ("<?php\n")) _ (by decide)))]
    rw [replaceDefine_append _ _ (scanFree_defHit_defLineS (lit ("DB_USER"))
      (lit ("DB_NAME")) p.dbName _ (by decide) (by decide) (cleanVal_define hcn))]
    rw [replaceDefine_fire_line _ p.dbUser p.dbUser _ (cleanVal_quoteFree hcu)]
  have er3 : replaceDefine (lit ("DB_PASSWORD")) (defineRepl (lit ("DB_PASSWORD")) p.dbPassword)
      (cfgHeadR p.dbName p.dbUser p.dbPassword (p.dbHost ++ (lit (":") ++ p.dbPort)) p.charset p.collate tp (patchedTail p)) =
      (cfgHeadR p.dbName p.dbUser p.dbPassword (p.dbHost ++ (lit (":") ++ p.dbPort)) p.charset p.collate tp (patchedTail p)) := by
    unfold cfgHeadR
    rw [replaceDefine_append _ _ (scanFree_defHit_of_define
      (scanFree_pfx_concrete _ (lit ("<?php\n")) _ (by decide)))]
    rw [replaceDefine_append _ _ (scanFree_defHit_defLineS (lit ("DB_PASSWORD"))
      (lit ("DB_NAME")) p.dbName _ (by decide) (by decide) (cleanVal_define hcn))]
    rw [replaceDefine_append _ _ (scanFree_defHit_defLineS (lit ("DB_PASSWORD"))
      (lit ("DB_USER")) p.dbUser _ (by decide) (by decide) (cleanVal_define hcu))]
    rw [replaceDefine_fire_line _ p.dbPassword p.dbPassword _ (cleanVal_quoteFree hcp)]
  have er4 : replaceDefine (lit ("DB_HOST")) (defineRepl (lit ("DB_HOST")) (p.dbHost ++ lit (":") ++ p.dbPort))
      (cfgHeadR p.dbName p.dbUser p.dbPassword (p.dbHost ++ (lit (":") ++ p.dbPort)) p.charset p.collate tp (patchedTail p)) =
      (cfgHeadR p.dbName p.dbUser p.dbPassword (p.dbHost ++ (lit (":") ++ p.dbPort)) p.charset p.collate tp (patchedTail p)) := by
    rw [List.append_assoc]
    unfold cfgHeadR
    rw [replaceDefine_append _ _ (scanFree_defHit_of_define
      (scanFree_pfx_concrete _ (lit ("<?php\n")) _ (by decide)))]
    rw [replaceDefine_append _ _ (scanFree_defHit_defLineS (lit ("DB_HOST"))
      (lit ("DB_NAME")) p.dbName _ (by decide) (by decide) (cleanVal_define hcn))]
    rw [replaceDefine_append _ _ (scanFree_defHit_defLineS (lit ("DB_HOST"))
      (lit ("DB_USER")) p.dbUser _ (by decide) (by decide) (cleanVal_define hcu))]
    rw [replaceDefine_append _ _ (scanFree_defHit_defLineS (lit ("DB_HOST"))
      (lit ("DB_PASSWORD")) p.dbPassword _ (by decide) (by decide) (cleanVal_define hcp))]
    rw [replaceDefine_fire_line _ (p.dbHost ++ (lit (":") ++ p.dbPort)) (p.dbHost ++ (lit (":") ++ p.dbPort)) _ (cleanVal_quoteFree hch)]
  have er5 : replaceDefine (lit ("DB_CHARSET")) (defineRepl (lit ("DB_CHARSET")) p.charset)
      (cfgHeadR p.dbName p.dbUser p.dbPassword (p.dbHost ++ (lit (":") ++ p.dbPort)) p.charset p.collate tp (patchedTail p)) =
      (cfgHeadR p.dbName p.dbUser p.dbPassword (p.dbHost ++ (lit (":") ++ p.dbPort)) p.charset p.collate tp (patchedTail p)) := by
    unfold cfgHeadR
    rw [replaceDefine_append _ _ (scanFree_defHit_of_define
      (scanFree_pfx_concrete _ (lit ("<?php\n")) _ (by decide)))]
    rw [replaceDefine_append _ _ (scanFree_defHit_defLineS (lit ("DB_CHARSET"))
      (lit ("DB_NAME")) p.dbName _ (by decide) (by decide) (cleanVal_define hcn))]
    rw [replaceDefine_append _ _ (scanFree_defHit_defLineS (lit ("DB_CHARSET"))
      (lit ("DB_USER")) p.dbUser _ (by decide) (by decide) (cleanVal_define hcu))]
    rw [replaceDefine_append _ _ (scanFree_defHit_defLineS (lit ("DB_CHARSET"))
      (lit ("DB_PASSWORD")) p.dbPassword _ (by decide) (by decide) (cleanVal_define hcp))]
    rw [replaceDefine_append _ _ (scanFree_defHit_defLineS (lit ("DB_CHARSET"))
      (lit ("DB_HOST")) (p.dbHost ++ (lit (":") ++ p.dbPort)) _ (by decide) (by decide) (cleanVal_define hch))]
    rw [replaceDefine_fire_line _ p.charset p.charset _ (cleanVal_quoteFree hcc)]
  have er6 : replaceDefine (lit ("DB_COLLATE")) (defineRepl (lit ("DB_COLLATE")) p.collate)
      (cfgHeadR p.dbName p.dbUser p.dbPassword (p.dbHost ++ (lit (":") ++ p.dbPort)) p.charset p.collate tp (patchedTail p)) =
      (cfgHeadR p.dbName p.dbUser p.dbPassword (p.dbHost ++ (lit (":") ++ p.dbPort)) p.charset p.collate tp (patchedTail p)) := by
    unfold cfgHeadR
    rw [replaceDefine_append _ _ (scanFree_defHit_of_define
      (scanFree_pfx_concrete _ (lit ("<?php\n")) _ (by decide)))]
    rw [replaceDefine_append _ _ (scanFree_defHit_defLineS (lit ("DB_COLLATE"))
      (lit ("DB_NAME")) p.dbName _ (by decide) (by decide) (cleanVal_define hcn))]
    rw [replaceDefine_append _ _ (scanFree_defHit_defLineS (lit ("DB_COLLATE"))
      (lit ("DB_USER")) p.dbUser _ (by decide) (by decide) (cleanVal_define hcu))]
    rw [replaceDefine_append _ _ (scanFree_defHit_defLineS (lit ("DB_COLLATE"))
      (lit ("DB_PASSWORD")) p.dbPassword _ (by decide) (by decide) (cleanVal_define hcp))]
    rw [replaceDefine_append _ _ (scanFree_defHit_defLineS (lit ("DB_COLLATE"))
      (lit ("DB_HOST")) (p.dbHost ++ (lit (":") ++ p.dbPort)) _ (by decide) (by decide) (cleanVal_define hch))]
    rw [replaceDefine_append _ _ (scanFree_defHit_defLineS (lit ("DB_COLLATE"))
      (lit ("DB_CHARSET")) p.charset _ (by decide) (by decide) (cleanVal_define hcc))]
    rw [replaceDefine_fire_line _ p.collate p.collate _ (cleanVal_quoteFree hcl)]
  have htail7 : containsSub (lit ("$table_prefix")) (patchedTail p) = false := by
    unfold patchedTail
    refine (containsSub_iff_scanFreeAll _ _ (by decide)).mpr ?_
    refine scanFreeAll_append (scanFree_via_contains _ _ _ (Char.ofNat 10)
      (cleanSalts_key hcs _ (by decide)) (by decide) ?_ (by decide)) ?_
    · rfl
    refine scanFreeAll_append (scanFree_pfx_concrete _ (lit ("\n\n")) _ (by decide)) ?_
    refine scanFreeAll_append (scanFree_pat_dbgBlockOpt _ p _ (by decide) (by decide)
      (by decide) (by decide)) ?_
    refine scanFreeAll_append (scanFree_pat_disallowOpt _ p _ (by decide)) ?_
    refine scanFreeAll_append (scanFree_pat_memOpt _ p _ (by decide) (by decide)
      (by decide) (cleanVal_tp hcm) (by decide) (by decide) (by decide) (by decide)
      (by decide) (by decide)) ?_
    exact scanFreeAll_of_contains _ _ (by decide) (by decide)
  have er7 : replaceDefine (lit ("$table_prefix"))
      (defineRepl (lit ("$table_prefix")) p.tablePfx)
      (cfgHeadR p.dbName p.dbUser p.dbPassword (p.dbHost ++ (lit (":") ++ p.dbPort)) p.charset p.collate tp (patchedTail p)) =
      (cfgHeadR p.dbName p.dbUser p.dbPassword (p.dbHost ++ (lit (":") ++ p.dbPort)) p.charset p.collate tp (patchedTail p)) :=
    replaceDefine_id _ (scanFreeAll_defHit_cfgHeadR _ _ _ _ _ _ _ tp _ (by decide)
      (cleanVal_define hcn) (cleanVal_define hcu) (cleanVal_define hcp)
      (cleanVal_define hch) (cleanVal_define hcc) (cleanVal_define hcl)
      (cleanVal_define hvtp)
      (scanFreeAll_defHit_of_no_key htail7))
  have hauth2 : containsSub (lit ("AUTH_KEY"))
      (cfgHeadR p.dbName p.dbUser p.dbPassword (p.dbHost ++ (lit (":") ++ p.dbPort)) p.charset p.collate tp (patchedTail p)) = true := by
    unfold cfgHeadR patchedTail
    iterate 8 apply containsSub_append_right
    exact containsSub_append_left _ _ _ (cleanSalts_auth hcs)
  have hq9 : p.enableDebug = true →
      guardPresent (lit ("WP_DEBUG")) (cfgHeadR p.dbName p.dbUser p.dbPassword (p.dbHost ++ (lit (":") ++ p.dbPort)) p.charset p.collate tp (patchedTail p)) = true ∧
      guardPresent (lit ("WP_DEBUG_LOG")) (cfgHeadR p.dbName p.dbUser p.dbPassword (p.dbHost ++ (lit (":") ++ p.dbPort)) p.charset p.collate tp (patchedTail p)) = true ∧
      guardPresent (lit ("WP_DEBUG_DISPLAY")) (cfgHeadR p.dbName p.dbUser p.dbPassword (p.dbHost ++ (lit (":") ++ p.dbPort)) p.charset p.collate tp (patchedTail p)) = true ∧
      guardPresent (lit ("SCRIPT_DEBUG")) (cfgHeadR p.dbName p.dbUser p.dbPassword (p.dbHost ++ (lit (":") ++ p.dbPort)) p.charset p.collate tp (patchedTail p)) = true ∧
      guardPresent (lit ("SAVEQUERIES")) (cfgHeadR p.dbName p.dbUser p.dbPassword (p.dbHost ++ (lit (":") ++ p.dbPort)) p.charset p.collate tp (patchedTail p)) = true := by
    intro hd
    refine ⟨?_, ?_, ?_, ?_, ?_⟩
    · have hpos : containsSub (dbgGuard1 (lit ("WP_DEBUG")))
          (cfgHeadR p.dbName p.dbUser p.dbPassword (p.dbHost ++ (lit (":") ++ p.dbPort)) p.charset p.collate tp (patchedTail p)) = true := by
        unfold cfgHeadR patchedTail dbgBlockOpt
        rw [if_pos hd]
        unfold debugBlock
        simp only [List.append_assoc, List.cons_append]
        iterate 11 apply containsSub_append_right
        exact containsSub_of_pfx _ _ (guard1_pfx_dbgLine _ _ _)
      simp only [guardPresent, hpos, Bool.true_or]
    · have hpos : containsSub (dbgGuard1 (lit ("WP_DEBUG_LOG")))
          (cfgHeadR p.dbName p.dbUser p.dbPassword (p.dbHost ++ (lit (":") ++ p.dbPort)) p.charset p.collate tp (patchedTail p)) = true := by
        unfold cfgHeadR patchedTail dbgBlockOpt
        rw [if_pos hd]
        unfold debugBlock
        simp only [List.append_assoc, List.cons_append]
        iterate 11 apply containsSub_append_right
        iterate 1 (apply containsSub_append_right; apply containsSub_cons_right)
        exact containsSub_of_pfx _ _ (guard1_pfx_dbgLine _ _ _)
      simp only [guardPresent, hpos, Bool.true_or]
    · have hpos : containsSub (dbgGuard1 (lit ("WP_DEBUG_DISPLAY")))
          (cfgHeadR p.dbName p.dbUser p.dbPassword (p.dbHost ++ (lit (":") ++ p.dbPort)) p.charset p.collate tp (patchedTail p)) = true := by
        unfold cfgHeadR patchedTail dbgBlockOpt
        rw [if_pos hd]
        unfold debugBlock
        simp only [List.append_assoc, List.cons_append]
        iterate 11 apply containsSub_append_right
        iterate 2 (apply containsSub_append_right; apply containsSub_cons_right)
        exact containsSub_of_pfx _ _ (guard1_pfx_dbgLine _ _ _)
      simp only [guardPresent, hpos, Bool.true_or]
    · have hpos : containsSub (dbgGuard1 (lit ("SCRIPT_DEBUG")))
          (cfgHeadR p.dbName p.dbUser p.dbPassword (p.dbHost ++ (lit (":") ++ p.dbPort)) p.charset p.collate tp (patchedTail p)) = true := by
        unfold cfgHeadR patchedTail dbgBlockOpt
        rw [if_pos hd]
        unfold debugBlock
        simp only [List.append_assoc, List.cons_append]
        iterate 11 apply containsSub_append_right
        iterate 3 (apply containsSub_append_right; apply containsSub_cons_right)
        exact containsSub_of_pfx _ _ (guard1_pfx_dbgLine _ _ _)
      simp only [guardPresent, hpos, Bool.true_or]
    · have hpos : containsSub (dbgGuard1 (lit ("SAVEQUERIES")))
          (cfgHeadR p.dbName p.dbUser p.dbPassword (p.dbHost ++ (lit (":") ++ p.dbPort)) p.charset p.collate tp (patchedTail p)) = true := by
        unfold cfgHeadR patchedTail dbgBlockOpt
        rw [if_pos hd]
        unfold debugBlock
        simp only [List.append_assoc, List.cons_append]
        iterate 11 apply containsSub_append_right
        iterate 4 (apply containsSub_append_right; apply containsSub_cons_right)
        exact containsSub_of_pfx _ _ (guard1_pfx_dbgLine _ _ _)
      simp only [guardPresent, hpos, Bool.true_or]
  have hq10 : p.disableFileEditing = true →
      guardPresent (lit ("DISALLOW_FILE_EDIT")) (cfgHeadR p.dbName p.dbUser p.dbPassword (p.dbHost ++ (lit (":") ++ p.dbPort)) p.charset p.collate tp (patchedTail p)) = true := by
    intro hf
    have hpos : containsSub (dbgGuard1 (lit ("DISALLOW_FILE_EDIT")))
        (cfgHeadR p.dbName p.dbUser p.dbPassword (p.dbHost ++ (lit (":") ++ p.dbPort)) p.charset p.collate tp (patchedTail p)) = true := by
      unfold cfgHeadR patchedTail
      iterate 11 apply containsSub_append_right
      unfold disallowOpt
      rw [if_pos hf]
      unfold disallowContent
      simp only [List.cons_append, List.append_assoc]
      apply containsSub_cons_right
      exact containsSub_of_pfx _ _ (guard1_pfx_dbgLine _ _ _)
    simp only [guardPresent, hpos, Bool.true_or]
  have hq11 : p.memoryLimit.isEmpty = false →
      guardPresent (lit ("WP_MEMORY_LIMIT")) (cfgHeadR p.dbName p.dbUser p.dbPassword (p.dbHost ++ (lit (":") ++ p.dbPort)) p.charset p.collate tp (patchedTail p)) = true := by
    intro hm
    have hpos : containsSub (dbgGuard1 (lit ("WP_MEMORY_LIMIT")))
        (cfgHeadR p.dbName p.dbUser p.dbPassword (p.dbHost ++ (lit (":") ++ p.dbPort)) p.charset p.collate tp (patchedTail p)) = true := by
      unfold cfgHeadR patchedTail
      iterate 12 apply containsSub_append_right
      unfold memOpt
      rw [if_neg (by rw [hm]; exact Bool.false_ne_true)]
      simp only [List.cons_append, List.append_assoc]
      apply containsSub_cons_right
      rw [memLine_eq_defineRepl, List.append_assoc]
      exact containsSub_of_pfx _ _ (guard1_pfx_defineRepl _ _ _)
    simp only [guardPresent, hpos, Bool.true_or]
  have hreq2 : containsSub requireStr
      (cfgHeadR p.dbName p.dbUser p.dbPassword (p.dbHost ++ (lit (":") ++ p.dbPort)) p.charset p.collate tp (patchedTail p)) = true := by
    unfold cfgHeadR patchedTail mkTail
    iterate 13 apply containsSub_append_right
    apply containsSub_cons_right
    iterate 2 apply containsSub_append_right
    exact containsSub_of_pfx _ _ (pfx_refl _)
  unfold patchedForm
  simp only [updateWpConfigText]
  rw [er1, er2, er3, er4, er5, er6, er7, hauth2]
  simp only [eq_self_iff_true, if_true]
  rw [stage9_skip p _ _ hq9]
  rw [stage10_skip p _ _ hq10]
  rw [stage11_skip p _ _ hq11]
  rw [hcust]
  simp only [List.isEmpty_nil, Bool.not_true, Bool.false_eq_true, if_false]
  rw [hreq2]
  simp only [Bool.not_true, Bool.false_eq_true, if_false]



/-- C1. Amended idempotence of the configuration patcher: running
`updateWpConfig`'s text transformation twice over the canonical
`wp-config-sample.php` family equals running it once, for every
well-formed parameter set (quote- and marker-free interpolated values, a
salt block carrying `AUTH_KEY` and avoiding the scanned patterns) with
no custom configuration lines.  The second pass re-replaces each
connection line with identical text, finds `AUTH_KEY` and every settings
guard already present, and finds the bootstrap call appended, so every
insertion is skipped.  (Unconditional idempotence is false: see the
counterexample, whose custom line is re-inserted by a second pass.) -/
theorem updateWpConfig_idempotent_on_sample (p : PatchParams)
    (v1 v2 v3 v4 v5 v6 tp : Chars)
    (hp : wfParams p = true) (hcust : p.customWpConfig = [])
    (hv1 : cleanVal v1 = true) (hv2 : cleanVal v2 = true) (hv3 : cleanVal v3 = true)
    (hv4 : cleanVal v4 = true) (hv5 : cleanVal v5 = true) (hv6 : cleanVal v6 = true)
    (hvtp : cleanVal tp = true) :
    updateWpConfigText p (updateWpConfigText p (sampleCfg v1 v2 v3 v4 v5 v6 tp)) =
      updateWpConfigText p (sampleCfg v1 v2 v3 v4 v5 v6 tp) := by
  rw [updateWpConfig_run1 p v1 v2 v3 v4 v5 v6 tp hp hcust hv1 hv2 hv3 hv4 hv5 hv6 hvtp]
  exact updateWpConfig_run2 p tp hp hcust hvtp

/-- Witness for the amended C1 at a concrete well-formed parameter set
and the stock sample values. -/
theorem updateWpConfig_idempotent_on_sample_witness :
    wfParams pWfFx = true ∧ pWfFx.customWpConfig = [] ∧
    updateWpConfigText pWfFx (updateWpConfigText pWfFx
      (sampleCfg (lit ("database_name_here")) (lit ("username_here"))
        (lit ("password_here")) (lit ("localhost")) (lit ("utf8")) []
        (lit ("wp_")))) =
      updateWpConfigText pWfFx
        (sampleCfg (lit ("database_name_here")) (lit ("username_here"))
          (lit ("password_here")) (lit ("localhost")) (lit ("utf8")) []
          (lit ("wp_"))) :=
  ⟨by decide, rfl,
    updateWpConfig_idempotent_on_sample pWfFx (lit ("database_name_here"))
      (lit ("username_here")) (lit ("password_here")) (lit ("localhost"))
      (lit ("utf8")) [] (lit ("wp_")) (by decide) rfl (by decide) (by decide)
      (by decide) (by decide) (by decide) (by decide) (by decide)⟩

end WPQI
